import Mathlib

/-!
# mctpd: routing-table engine and discovery handlers of the PCIe and SMBus bindings

A shallow embedding of `src/PCIeBinding.cpp`, of the routing walk, the device table, the
port scan, the bandwidth reservation and the Set Endpoint ID handler of
`src/SMBusBinding.cpp`, and of `getSMBusConfiguration` of `src/utils/Configuration.cpp`,
and theorems about it.

Conventions of the embedding.

* `uint8_t` and `uint16_t` values are natural numbers; a byte read from a
  `std::vector<uint8_t>` is reduced modulo 256, and arithmetic that the source performs
  in a fixed width is reduced explicitly.
* A `std::vector` is a `List`; a `std::set` is the list of its elements in ascending
  order, and a `std::unordered_map` read by key is a function from keys to `Option`.
* A coroutine that is spawned and not awaited is recorded with the values it captures.
* The control command `getRoutingTableCtrlCmd` talks to a remote endpoint. Its outcomes
  are given by a sequence `net : Nat → Option (List Nat)`: `net k` is the outcome of the
  `k`-th request, `none` when the command fails and `some resp` when it fills the
  response buffer with `resp`.
* `registerEndpoint` and `unregisterEndpoint` are recorded as a list of events.
* Constants, macros and struct layouts that come from the libmctp headers are the fields
  of a parameter `L : Libmctp`.
* The handlers of the base class `MctpBinding` and the calls into the driver are not among
  the sources: what such a call returns and leaves behind is an argument of the function
  that makes the call.
* The timer of the bandwidth reservation and the event loop are a state machine: the
  handlers that wait on the timer, the handlers that are ready to be invoked, and the
  calls made so far are part of the state of the binding.
-/

namespace Mctpd

/-! ## Declarations taken from the libmctp headers -/

/-- Declarations of `libmctp-cmds.h` and `libmctp-nupcie.h` that the bindings use. The
headers are not among the sources, so the constants, the two entry-type macros and the
layout of the packed wire structs are parameters. -/
structure Libmctp where
  MCTP_BINDING_SMBUS : Nat
  MCTP_BINDING_PCIE : Nat
  MCTP_ROUTING_ENTRY_ENDPOINT : Nat
  MCTP_ROUTING_ENTRY_BRIDGE_AND_ENDPOINTS : Nat
  MCTP_ROUTING_ENTRY_BRIDGE : Nat
  MCTP_ROUTING_ENTRY_ENDPOINTS : Nat
  GET_ROUTING_ENTRY_TYPE : Nat → Nat
  SET_ROUTING_ENTRY_TYPE : Nat → Nat → Nat
  PCIE_ROUTE_TO_RC : Nat
  PCIE_ROUTE_BY_ID : Nat
  PCIE_BROADCAST_FROM_RC : Nat
  MCTP_CTRL_CC_SUCCESS : Nat
  /-- The value of `sizeof(mctp_ctrl_resp_get_routing_table)` -/
  sizeof_resp_get_routing_table : Nat
  /-- The value of `offsetof(mctp_ctrl_resp_get_routing_table, next_entry_handle)` -/
  offsetof_next_entry_handle : Nat
  /-- The value of `offsetof(mctp_ctrl_resp_get_routing_table, number_of_entries)` -/
  offsetof_number_of_entries : Nat
  /-- The value of `sizeof(get_routing_table_entry)` -/
  sizeof_routing_table_entry : Nat
  offsetof_eid_range_size : Nat
  offsetof_starting_eid : Nat
  offsetof_entry_type : Nat
  offsetof_phys_transport_binding_id : Nat
  offsetof_phys_address_size : Nat
  /-- The value of `sizeof(mctp_ctrl_resp_prepare_discovery)` -/
  sizeof_resp_prepare_discovery : Nat
  /-- The value of `offsetof(mctp_ctrl_resp_prepare_discovery, completion_code)` -/
  offsetof_prepare_discovery_cc : Nat
  /-- The value of `sizeof(mctp_ctrl_resp_endpoint_discovery)` -/
  sizeof_resp_endpoint_discovery : Nat
  /-- The value of `offsetof(mctp_ctrl_resp_endpoint_discovery, completion_code)` -/
  offsetof_endpoint_discovery_cc : Nat
  /-- The value of `sizeof(mctp_ctrl_resp_set_eid)` -/
  sizeof_resp_set_eid : Nat
  /-- The value of `offsetof(mctp_ctrl_resp_set_eid, completion_code)` -/
  offsetof_set_eid_cc : Nat
  MCTP_CTRL_CC_ERROR_UNSUPPORTED_CMD : Nat
  /-- The value of `sizeof(mctp_ctrl_msg_hdr)` -/
  sizeof_ctrl_msg_hdr : Nat
  /-- The value of `sizeof(mctp_pci_ctrl_resp_get_vdm_support)` -/
  sizeof_pci_resp_get_vdm_support : Nat
  MCTP_EID_NULL : Nat

/-- The fields of a struct lie inside the struct. -/
def Libmctp.LayoutOk (L : Libmctp) : Prop :=
  L.offsetof_next_entry_handle < L.sizeof_resp_get_routing_table ∧
  L.offsetof_number_of_entries < L.sizeof_resp_get_routing_table ∧
  L.offsetof_eid_range_size < L.sizeof_routing_table_entry ∧
  L.offsetof_starting_eid < L.sizeof_routing_table_entry ∧
  L.offsetof_entry_type < L.sizeof_routing_table_entry ∧
  L.offsetof_phys_transport_binding_id < L.sizeof_routing_table_entry ∧
  L.offsetof_phys_address_size < L.sizeof_routing_table_entry ∧
  L.offsetof_prepare_discovery_cc < L.sizeof_resp_prepare_discovery ∧
  L.offsetof_endpoint_discovery_cc < L.sizeof_resp_endpoint_discovery

instance (L : Libmctp) : Decidable L.LayoutOk := by
  unfold Libmctp.LayoutOk; infer_instance

/-- The values the libmctp headers give: the entry type is bits 7:6 of the entry-type
byte, a control response starts with the three-byte control header, and a routing table
entry is six one-byte fields. Used to evaluate the embedding on concrete inputs. -/
def libmctp : Libmctp where
  MCTP_BINDING_SMBUS := 0x01
  MCTP_BINDING_PCIE := 0x02
  MCTP_ROUTING_ENTRY_ENDPOINT := 0x00
  MCTP_ROUTING_ENTRY_BRIDGE_AND_ENDPOINTS := 0x01
  MCTP_ROUTING_ENTRY_BRIDGE := 0x02
  MCTP_ROUTING_ENTRY_ENDPOINTS := 0x03
  GET_ROUTING_ENTRY_TYPE := fun field => (field / 64) % 4
  SET_ROUTING_ENTRY_TYPE := fun field val => (field % 64) + (val % 4) * 64
  PCIE_ROUTE_TO_RC := 0
  PCIE_ROUTE_BY_ID := 2
  PCIE_BROADCAST_FROM_RC := 3
  MCTP_CTRL_CC_SUCCESS := 0
  sizeof_resp_get_routing_table := 6
  offsetof_next_entry_handle := 4
  offsetof_number_of_entries := 5
  sizeof_routing_table_entry := 6
  offsetof_eid_range_size := 0
  offsetof_starting_eid := 1
  offsetof_entry_type := 2
  offsetof_phys_transport_binding_id := 3
  offsetof_phys_address_size := 5
  sizeof_resp_prepare_discovery := 4
  offsetof_prepare_discovery_cc := 3
  sizeof_resp_endpoint_discovery := 4
  offsetof_endpoint_discovery_cc := 3
  sizeof_resp_set_eid := 7
  offsetof_set_eid_cc := 3
  MCTP_CTRL_CC_ERROR_UNSUPPORTED_CMD := 0x05
  sizeof_ctrl_msg_hdr := 3
  sizeof_pci_resp_get_vdm_support := 10
  MCTP_EID_NULL := 0

/-! ## Data model -/

/-- The type `routingTableEntry_t`: `(eid, physical address, entry type)`. -/
abbrev routingTableEntry_t := Nat × Nat × Nat

/-- The type `calledBridgeEntry_t`: `(eid, physical address)`. -/
abbrev calledBridgeEntry_t := Nat × Nat

/-- Modelled from the spec: the enumeration `pcie_binding::DiscoveryFlags` is generated
code that is not among the sources; the spec lists its three values. -/
inductive DiscoveryFlags where
  | NotApplicable
  | Undiscovered
  | Discovered
  deriving DecidableEq, Repr

/-- Modelled from the spec: the enumeration `mctp_server::BindingModeTypes` is generated
code that is not among the sources; the spec lists its three values. -/
inductive BindingModeTypes where
  | BusOwner
  | Bridge
  | Endpoint
  deriving DecidableEq, Repr

/-- The `struct mctp_nupcie_pkt_private`: the PCIe binding-private record of a frame. -/
structure mctp_nupcie_pkt_private where
  routing : Nat
  remote_id : Nat
  deriving DecidableEq, Repr

/-- The members of `PCIeBinding` (and of its base `MctpBinding`) the embedded code reads
or writes. -/
structure PCIeBinding where
  bindingModeType : BindingModeTypes
  discoveredFlag : DiscoveryFlags
  bdf : Nat
  busOwnerBdf : Nat
  busOwnerEid : Nat
  ownEid : Nat
  routingTable : List routingTableEntry_t
  deriving DecidableEq, Repr

/-- An element of a `std::vector<uint8_t>`; a read past the end is undefined in the
source and yields 0 here. -/
def byteAt (v : List Nat) (i : Nat) : Nat := v.getD i 0 % 256

/-- The function `be16toh` on a little-endian host: the two bytes of a 16-bit value are swapped. -/
def be16toh (x : Nat) : Nat := (x % 256) * 256 + (x / 256) % 256

/-! ## `PCIeBinding.cpp`: reading the routing table -/

/-- Embeds `PCIeBinding::getRoutingEntryPhysAddr` -/
def getRoutingEntryPhysAddr (getRoutingTableEntryResp : List Nat) (entryOffset : Nat) : Nat :=
  be16toh ((byteAt getRoutingTableEntryResp entryOffset |||
    (byteAt getRoutingTableEntryResp (entryOffset + 1) <<< 8)) % 65536)

/-- Embeds `PCIeBinding::isEntryInRoutingTable`, on the `starting_eid` of the entry. -/
def isEntryInRoutingTable (starting_eid : Nat) (rt : List routingTableEntry_t) : Bool :=
  rt.any fun entry => starting_eid == entry.1

/-- Embeds `PCIeBinding::isActiveEntryBehindBridge`, on the three fields of the entry it reads. -/
def isActiveEntryBehindBridge (L : Libmctp)
    (starting_eid eid_range_size phys_transport_binding_id : Nat)
    (rt : List routingTableEntry_t) : Bool :=
  !isEntryInRoutingTable starting_eid rt &&
    eid_range_size == 1 &&
    phys_transport_binding_id == L.MCTP_BINDING_PCIE

/-- Embeds `PCIeBinding::isEndOfGetRoutingTableResp`: the result and the new value of the
counter passed by reference. -/
def isEndOfGetRoutingTableResp (entryHandle responseCount : Nat) : Bool × Nat :=
  if entryHandle = 0xff ∨ responseCount = 0xff then (true, responseCount)
  else (false, (responseCount + 1) % 256)

/-- Embeds `PCIeBinding::isEntryBridge` -/
def isEntryBridge (L : Libmctp) (routingEntry : routingTableEntry_t) : Bool :=
  L.GET_ROUTING_ENTRY_TYPE routingEntry.2.2 == L.MCTP_ROUTING_ENTRY_BRIDGE ||
    L.GET_ROUTING_ENTRY_TYPE routingEntry.2.2 == L.MCTP_ROUTING_ENTRY_BRIDGE_AND_ENDPOINTS

/-- Embeds `PCIeBinding::isBridgeCalled` -/
def isBridgeCalled (routingEntry : routingTableEntry_t)
    (calledBridges : List calledBridgeEntry_t) : Bool :=
  calledBridges.any fun bridge => routingEntry.1 == bridge.1 && routingEntry.2.1 == bridge.2

/-- Embeds `PCIeBinding::allBridgesCalled` -/
def allBridgesCalled (L : Libmctp) (rt : List routingTableEntry_t)
    (calledBridges : List calledBridgeEntry_t) : Bool :=
  match rt with
  | [] => true
  | entry :: rest =>
    if isEntryBridge L entry && !isBridgeCalled entry calledBridges then false
    else allBridgesCalled L rest calledBridges

/-- Embeds `rt.insert(rt.begin() + i, x)`. The source is undefined for `i > rt.size()`; here the
element is then appended. -/
def vectorInsert (rt : List routingTableEntry_t) (i : Nat) (x : routingTableEntry_t) :
    List routingTableEntry_t :=
  rt.take i ++ x :: rt.drop i

/-- The variables the `for` loop of `readRoutingTable` updates. -/
structure EntryLoopState where
  rt : List routingTableEntry_t
  insertIndex : Nat
  entryOffset : Nat
  deriving DecidableEq, Repr

/-- One iteration of the `for` loop over the entries of a response in
`PCIeBinding::readRoutingTable`. -/
def readRoutingTableEntry (L : Libmctp) (busOwnerEid eid physAddr : Nat)
    (getRoutingTableEntryResp : List Nat) (s : EntryLoopState) : EntryLoopState :=
  let routingTableEntry := s.entryOffset
  let starting_eid := byteAt getRoutingTableEntryResp (routingTableEntry + L.offsetof_starting_eid)
  let eid_range_size :=
    byteAt getRoutingTableEntryResp (routingTableEntry + L.offsetof_eid_range_size)
  let entry_type := byteAt getRoutingTableEntryResp (routingTableEntry + L.offsetof_entry_type)
  let phys_transport_binding_id :=
    byteAt getRoutingTableEntryResp (routingTableEntry + L.offsetof_phys_transport_binding_id)
  let phys_address_size :=
    byteAt getRoutingTableEntryResp (routingTableEntry + L.offsetof_phys_address_size)
  let entryOffset := s.entryOffset + L.sizeof_routing_table_entry
  if phys_transport_binding_id ≠ L.MCTP_BINDING_PCIE then
    { s with entryOffset := entryOffset + phys_address_size }
  else
    let entryPhysAddr := getRoutingEntryPhysAddr getRoutingTableEntryResp entryOffset
    let entryOffset := entryOffset + phys_address_size
    if eid = busOwnerEid ∧
        L.GET_ROUTING_ENTRY_TYPE entry_type = L.MCTP_ROUTING_ENTRY_BRIDGE_AND_ENDPOINTS then
      { s with
        rt := s.rt ++ [(starting_eid, entryPhysAddr,
          L.SET_ROUTING_ENTRY_TYPE entry_type L.MCTP_ROUTING_ENTRY_BRIDGE % 256)]
        entryOffset := entryOffset }
    else if eid = busOwnerEid ∧
        ¬ (L.GET_ROUTING_ENTRY_TYPE entry_type = L.MCTP_ROUTING_ENTRY_ENDPOINTS) then
      { s with
        rt := s.rt ++ [(starting_eid, entryPhysAddr, entry_type)]
        entryOffset := entryOffset }
    else if eid ≠ busOwnerEid ∧
        isActiveEntryBehindBridge L starting_eid eid_range_size phys_transport_binding_id s.rt
          = true then
      { rt := vectorInsert s.rt s.insertIndex (starting_eid, physAddr, entry_type)
        insertIndex := s.insertIndex + 1
        entryOffset := entryOffset }
    else
      { s with entryOffset := entryOffset }

/-- The `for` loop of `readRoutingTable`: `n` iterations, `n` being the
`number_of_entries` byte of the response header. -/
def readRoutingTableEntries (L : Libmctp) (busOwnerEid eid physAddr : Nat)
    (getRoutingTableEntryResp : List Nat) : Nat → EntryLoopState → EntryLoopState
  | 0, s => s
  | n + 1, s =>
    readRoutingTableEntries L busOwnerEid eid physAddr getRoutingTableEntryResp n
      (readRoutingTableEntry L busOwnerEid eid physAddr getRoutingTableEntryResp s)

/-- The variables the `while` loop of `readRoutingTable` updates, and the number of
Get Routing Table requests issued so far (the position in the sequence of outcomes). -/
structure ReadState where
  rt : List routingTableEntry_t
  calledBridges : List calledBridgeEntry_t
  insertIndex : Nat
  requests : Nat
  deriving DecidableEq, Repr

/-- The body of the `while` loop of `readRoutingTable` after a successful request: the
`for` loop over the entries of the response. -/
def readRoutingTableResp (L : Libmctp) (busOwnerEid eid physAddr : Nat)
    (getRoutingTableEntryResp : List Nat) (rt : List routingTableEntry_t) (insertIndex : Nat) :
    EntryLoopState :=
  readRoutingTableEntries L busOwnerEid eid physAddr getRoutingTableEntryResp
    (byteAt getRoutingTableEntryResp L.offsetof_number_of_entries)
    { rt := rt, insertIndex := insertIndex, entryOffset := L.sizeof_resp_get_routing_table }

/-- The `while` loop of `PCIeBinding::readRoutingTable`, entered with the current
`entryHandle` and `responseCount`. -/
def readRoutingTableLoop (L : Libmctp) (busOwnerEid eid physAddr : Nat)
    (net : Nat → Option (List Nat)) (entryHandle responseCount : Nat) (s : ReadState) :
    ReadState :=
  match hEnd : isEndOfGetRoutingTableResp entryHandle responseCount with
  | (true, _) => s
  | (false, responseCount') =>
    let calledBridges := s.calledBridges ++ [(eid, physAddr)]
    match net s.requests with
    | none => { s with calledBridges := calledBridges, requests := s.requests + 1 }
    | some getRoutingTableEntryResp =>
      let p := readRoutingTableResp L busOwnerEid eid physAddr getRoutingTableEntryResp
        s.rt s.insertIndex
      readRoutingTableLoop L busOwnerEid eid physAddr net
        (byteAt getRoutingTableEntryResp L.offsetof_next_entry_handle) responseCount'
        { rt := p.rt, calledBridges := calledBridges, insertIndex := p.insertIndex,
          requests := s.requests + 1 }
termination_by if responseCount < 256 then 255 - responseCount else 256
decreasing_by
  unfold isEndOfGetRoutingTableResp at hEnd
  split at hEnd
  · simp at hEnd
  · rename_i hne
    simp only [Prod.mk.injEq, true_and] at hEnd
    subst hEnd
    have hlt : (responseCount + 1) % 256 < 256 := Nat.mod_lt _ (by norm_num)
    split_ifs <;> omega

/-- Embeds `PCIeBinding::readRoutingTable`. `entryIndex` is `-1` in the call for the bus owner
and the index of the bridge entry in the calls of `processBridgeEntries`. -/
def readRoutingTable (L : Libmctp) (busOwnerEid : Nat) (net : Nat → Option (List Nat))
    (rt : List routingTableEntry_t) (calledBridges : List calledBridgeEntry_t)
    (requests : Nat) (eid physAddr : Nat) (entryIndex : Int) : ReadState :=
  readRoutingTableLoop L busOwnerEid eid physAddr net 0x00 0
    { rt := rt, calledBridges := calledBridges, insertIndex := (entryIndex + 1).toNat,
      requests := requests }

/-- The variables the bridge walk of a routing refresh updates: the table being built,
the bridges already queried, and the number of requests issued so far. -/
structure WalkState where
  rt : List routingTableEntry_t
  calledBridges : List calledBridgeEntry_t
  requests : Nat
  deriving DecidableEq, Repr

/-- The `for` loop of `PCIeBinding::processBridgeEntries` over the entries of `rt` that
remain, `entryIndex` being the distance of the current entry from `rt.begin()`; the state
holds `rtCopy`. -/
def processBridgeEntriesLoop (L : Libmctp) (busOwnerEid : Nat) (net : Nat → Option (List Nat)) :
    List routingTableEntry_t → Nat → WalkState → WalkState
  | [], _, s => s
  | entry :: rest, entryIndex, s =>
    if !isEntryBridge L entry || isBridgeCalled entry s.calledBridges then
      processBridgeEntriesLoop L busOwnerEid net rest (entryIndex + 1) s
    else
      let r := readRoutingTable L busOwnerEid net s.rt s.calledBridges s.requests
        entry.1 entry.2.1 (entryIndex : Int)
      processBridgeEntriesLoop L busOwnerEid net rest (entryIndex + 1)
        { rt := r.rt, calledBridges := r.calledBridges, requests := r.requests }

/-- Embeds `PCIeBinding::processBridgeEntries`: the loop runs over `rt` and mutates the copy,
which replaces `rt` at the end. -/
def processBridgeEntries (L : Libmctp) (busOwnerEid : Nat) (net : Nat → Option (List Nat))
    (s : WalkState) : WalkState :=
  processBridgeEntriesLoop L busOwnerEid net s.rt 0 s

/-- The loop `while (!allBridgesCalled(..)) processBridgeEntries(..)` of
`PCIeBinding::updateRoutingTable`, run for at most `fuel` passes; `none` when the loop
has not ended by then. -/
def processBridgesWhile (L : Libmctp) (busOwnerEid : Nat) (net : Nat → Option (List Nat)) :
    Nat → WalkState → Option WalkState
  | 0, s => if allBridgesCalled L s.rt s.calledBridges then some s else none
  | fuel + 1, s =>
    if allBridgesCalled L s.rt s.calledBridges then some s
    else processBridgesWhile L busOwnerEid net fuel (processBridgeEntries L busOwnerEid net s)

/-! ## `PCIeBinding.cpp`: diffing the routing table -/

/-- The calls a routing refresh makes to the endpoint registry of `MctpBinding`. -/
inductive Event where
  | unregisterEndpoint (eid : Nat)
  | registerEndpoint (prvData : mctp_nupcie_pkt_private) (eid : Nat) (mode : BindingModeTypes)
  deriving DecidableEq, Repr

/-- Embeds `PCIeBinding::getBindingMode` -/
def getBindingMode (L : Libmctp) (b : PCIeBinding) (routingEntry : routingTableEntry_t) :
    BindingModeTypes :=
  if routingEntry.2.1 = b.busOwnerBdf then BindingModeTypes.BusOwner
  else if routingEntry.2.2 = L.MCTP_ROUTING_ENTRY_BRIDGE_AND_ENDPOINTS ∨
      routingEntry.2.2 = L.MCTP_ROUTING_ENTRY_BRIDGE then BindingModeTypes.Bridge
  else BindingModeTypes.Endpoint

/-- Embeds `std::find(table.begin(), table.end(), routingEntry) != table.end()` -/
def findEntry : List routingTableEntry_t → routingTableEntry_t → Bool
  | [], _ => false
  | entry :: rest, routingEntry => if entry = routingEntry then true else findEntry rest routingEntry

/-- The first loop of `PCIeBinding::processRoutingTableChanges`, over the entries of the
stored `routingTable` that remain. -/
def processRemovedEntries (newTable : List routingTableEntry_t) :
    List routingTableEntry_t → List Event
  | [] => []
  | routingEntry :: rest =>
    if findEntry newTable routingEntry = false then
      Event.unregisterEndpoint routingEntry.1 :: processRemovedEntries newTable rest
    else processRemovedEntries newTable rest

/-- The second loop of `PCIeBinding::processRoutingTableChanges`, over the entries of
`newTable` that remain. -/
def processAddedEntries (L : Libmctp) (b : PCIeBinding) (prvData : mctp_nupcie_pkt_private) :
    List routingTableEntry_t → List Event
  | [] => []
  | routingEntry :: rest =>
    if findEntry b.routingTable routingEntry = false then
      let remoteEid := routingEntry.1
      if remoteEid = b.ownEid then processAddedEntries L b prvData rest
      else
        let prvDataCopy := { prvData with remote_id := routingEntry.2.1 }
        Event.registerEndpoint prvDataCopy remoteEid (getBindingMode L b routingEntry) ::
          processAddedEntries L b prvData rest
    else processAddedEntries L b prvData rest

/-- Embeds `PCIeBinding::processRoutingTableChanges`: the calls it makes, in order. -/
def processRoutingTableChanges (L : Libmctp) (b : PCIeBinding)
    (newTable : List routingTableEntry_t) (prvData : mctp_nupcie_pkt_private) : List Event :=
  processRemovedEntries newTable b.routingTable ++ processAddedEntries L b prvData newTable

/-- The end of the task `PCIeBinding::updateRoutingTable` spawns, once the walk has
produced `routingTableTmp`: the comparison with the stored table, the diff and the
replacement. -/
def storeRoutingTable (L : Libmctp) (b : PCIeBinding)
    (routingTableTmp : List routingTableEntry_t) : List Event × PCIeBinding :=
  if routingTableTmp ≠ b.routingTable then
    (processRoutingTableChanges L b routingTableTmp
        { routing := L.PCIE_ROUTE_BY_ID, remote_id := b.busOwnerBdf },
      { b with routingTable := routingTableTmp })
  else ([], b)

/-- The walk of the task `PCIeBinding::updateRoutingTable` spawns: the read from the bus
owner and the bridge loop, the latter run for at most `fuel` passes. -/
def walkRoutingTable (L : Libmctp) (b : PCIeBinding) (net : Nat → Option (List Nat))
    (fuel : Nat) : Option WalkState :=
  let r := readRoutingTable L b.busOwnerEid net [] [] 0 b.busOwnerEid b.busOwnerBdf (-1)
  processBridgesWhile L b.busOwnerEid net fuel
    { rt := r.rt, calledBridges := r.calledBridges, requests := r.requests }

/-- Embeds `PCIeBinding::updateRoutingTable` together with the task it spawns; the timer is not
part of the embedding. `none` when the bridge loop has not ended after `fuel` passes. -/
def updateRoutingTable (L : Libmctp) (b : PCIeBinding) (net : Nat → Option (List Nat))
    (fuel : Nat) : Option (List Event × PCIeBinding) :=
  if b.discoveredFlag ≠ DiscoveryFlags.Discovered then some ([], b)
  else
    match walkRoutingTable L b net fuel with
    | none => none
    | some w => some (storeRoutingTable L b w.rt)

/-! ## `PCIeBinding.cpp`: discovery handlers -/

/-- Embeds `std::vector<uint8_t>::resize(n)`: truncation, or padding with zero bytes. -/
def vectorResize (v : List Nat) (n : Nat) : List Nat :=
  v.take n ++ List.replicate (n - v.length) 0

/-- Embeds `PCIeBinding::changeDiscoveredFlag`; the D-Bus property and the timer are not part of
the embedding. -/
def changeDiscoveredFlag (b : PCIeBinding) (flag : DiscoveryFlags) : PCIeBinding :=
  { b with discoveredFlag := flag }

/-- What a control-request handler leaves behind: its return value, the binding, the
binding-private of the frame (passed by pointer) and the response buffer (passed by
reference). -/
structure HandlerResult where
  ret : Bool
  binding : PCIeBinding
  bindingPrivate : mctp_nupcie_pkt_private
  response : List Nat
  deriving DecidableEq, Repr

/-- Embeds `PCIeBinding::handlePrepareForEndpointDiscovery` -/
def handlePrepareForEndpointDiscovery (L : Libmctp) (b : PCIeBinding)
    (bindingPrivate : mctp_nupcie_pkt_private) (response : List Nat) : HandlerResult :=
  if b.bindingModeType ≠ BindingModeTypes.Endpoint then
    { ret := false, binding := b, bindingPrivate := bindingPrivate, response := response }
  else if bindingPrivate.routing ≠ L.PCIE_BROADCAST_FROM_RC then
    { ret := false, binding := b, bindingPrivate := bindingPrivate, response := response }
  else
    let response := vectorResize response L.sizeof_resp_prepare_discovery
    let b := changeDiscoveredFlag b DiscoveryFlags.Undiscovered
    let response := response.set L.offsetof_prepare_discovery_cc (L.MCTP_CTRL_CC_SUCCESS % 256)
    { ret := true, binding := b,
      bindingPrivate := { bindingPrivate with routing := L.PCIE_ROUTE_TO_RC },
      response := response }

/-- Embeds `PCIeBinding::handleEndpointDiscovery` -/
def handleEndpointDiscovery (L : Libmctp) (b : PCIeBinding)
    (bindingPrivate : mctp_nupcie_pkt_private) (response : List Nat) : HandlerResult :=
  if b.discoveredFlag = DiscoveryFlags.Discovered then
    { ret := false, binding := b, bindingPrivate := bindingPrivate, response := response }
  else if bindingPrivate.routing ≠ L.PCIE_BROADCAST_FROM_RC then
    { ret := false, binding := b, bindingPrivate := bindingPrivate, response := response }
  else
    let b := { b with busOwnerBdf := bindingPrivate.remote_id }
    let response := vectorResize response L.sizeof_resp_endpoint_discovery
    let response := response.set L.offsetof_endpoint_discovery_cc (L.MCTP_CTRL_CC_SUCCESS % 256)
    { ret := true, binding := b,
      bindingPrivate := { bindingPrivate with routing := L.PCIE_ROUTE_TO_RC },
      response := response }

/-- What a call of a handler of the base class `MctpBinding` leaves behind. The base
class is defined in `MCTPBinding.cpp`, which is not among the sources, so the outcome of
each call is a parameter: the return value, the binding-private of the frame and the
response buffer as the call leaves them, and the members `ownEid` and `busOwnerEid` of
the base class after the call. -/
structure BaseHandlerOutcome where
  ret : Bool
  bindingPrivate : mctp_nupcie_pkt_private
  response : List Nat
  ownEid : Nat
  busOwnerEid : Nat
  deriving DecidableEq, Repr

/-- The binding after a call of a handler of the base class. -/
def afterBaseHandler (b : PCIeBinding) (base : BaseHandlerOutcome) : PCIeBinding :=
  { b with ownEid := base.ownEid, busOwnerEid := base.busOwnerEid }

/-- Embeds `PCIeBinding::handleGetEndpointId`; `base` is the outcome of
`MctpBinding::handleGetEndpointId`. -/
def handleGetEndpointId (L : Libmctp) (b : PCIeBinding) (base : BaseHandlerOutcome) :
    HandlerResult :=
  if base.ret = false then
    { ret := false, binding := afterBaseHandler b base, bindingPrivate := base.bindingPrivate,
      response := base.response }
  else
    { ret := true, binding := afterBaseHandler b base,
      bindingPrivate := { base.bindingPrivate with routing := L.PCIE_ROUTE_BY_ID },
      response := base.response }

/-- Embeds `PCIeBinding::handleSetEndpointId`; `base` is the outcome of
`MctpBinding::handleSetEndpointId`, which is called only for a frame of the bus owner.
The write of the D-Bus property `Eid` is not part of the embedding. -/
def handleSetEndpointId (L : Libmctp) (b : PCIeBinding)
    (bindingPrivate : mctp_nupcie_pkt_private) (response : List Nat)
    (base : BaseHandlerOutcome) : HandlerResult :=
  if bindingPrivate.remote_id ≠ b.busOwnerBdf then
    { ret := false, binding := b, bindingPrivate := bindingPrivate, response := response }
  else if base.ret = false then
    { ret := false, binding := afterBaseHandler b base, bindingPrivate := base.bindingPrivate,
      response := base.response }
  else
    let response := vectorResize base.response L.sizeof_resp_set_eid
    let b := afterBaseHandler b base
    let b :=
      if byteAt response L.offsetof_set_eid_cc = L.MCTP_CTRL_CC_SUCCESS then
        changeDiscoveredFlag b DiscoveryFlags.Discovered
      else b
    { ret := true, binding := b,
      bindingPrivate := { base.bindingPrivate with routing := L.PCIE_ROUTE_BY_ID },
      response := response }

/-- Embeds `PCIeBinding::handleGetVersionSupport`; `base` is the outcome of
`MctpBinding::handleGetVersionSupport`. -/
def handleGetVersionSupport (L : Libmctp) (b : PCIeBinding) (base : BaseHandlerOutcome) :
    HandlerResult :=
  if base.ret = false then
    { ret := false, binding := afterBaseHandler b base, bindingPrivate := base.bindingPrivate,
      response := base.response }
  else
    { ret := true, binding := afterBaseHandler b base,
      bindingPrivate := { base.bindingPrivate with routing := L.PCIE_ROUTE_BY_ID },
      response := base.response }

/-- Embeds `PCIeBinding::handleGetMsgTypeSupport`; `base` is the outcome of
`MctpBinding::handleGetMsgTypeSupport`. -/
def handleGetMsgTypeSupport (L : Libmctp) (b : PCIeBinding) (base : BaseHandlerOutcome) :
    HandlerResult :=
  if base.ret = false then
    { ret := false, binding := afterBaseHandler b base, bindingPrivate := base.bindingPrivate,
      response := base.response }
  else
    { ret := true, binding := afterBaseHandler b base,
      bindingPrivate := { base.bindingPrivate with routing := L.PCIE_ROUTE_BY_ID },
      response := base.response }

/-- An element of `vdmSetDatabase`. -/
structure VdmSet where
  vendorIdFormat : Nat
  vendorId : Nat
  commandSetType : Nat
  deriving DecidableEq, Repr

/-- The fields of `struct mctp_pci_ctrl_resp_get_vdm_support` behind the control header:
the response of Get VDM Support as the handler sees it through its struct pointer. -/
structure mctp_pci_ctrl_resp_get_vdm_support where
  completion_code : Nat
  vendor_id_set_selector : Nat
  vendor_id_format : Nat
  vendor_id_data : Nat
  command_set_type : Nat
  deriving DecidableEq, Repr

/-- What `handleGetVdmSupport` leaves behind: its return value, the binding-private of
the frame, the fields of the response and the size of the response buffer. -/
structure VdmHandlerResult where
  ret : Bool
  bindingPrivate : mctp_nupcie_pkt_private
  resp : mctp_pci_ctrl_resp_get_vdm_support
  responseSize : Nat
  deriving DecidableEq, Repr

/-- Embeds `PCIeBinding::handleGetVdmSupport`. `vendor_id_set_selector` is the selector
of the request; `resp` holds the fields of the resized response before the call of the
library function `mctp_ctrl_cmd_get_vdm_support` and `lib` is the outcome of that call:
`none` when it returns a negative value, else the fields as it leaves them. The handler
does not touch the binding. The constant `vendorIdNoMoreSets` is declared in
`PCIeBinding.hpp`, which is not among the sources. -/
def handleGetVdmSupport (L : Libmctp) (vendorIdNoMoreSets : Nat) (vdmSetDatabase : List VdmSet)
    (bindingPrivate : mctp_nupcie_pkt_private) (vendor_id_set_selector : Nat)
    (resp : mctp_pci_ctrl_resp_get_vdm_support)
    (lib : Option mctp_pci_ctrl_resp_get_vdm_support) : VdmHandlerResult :=
  match lib with
  | none =>
    { ret := false, bindingPrivate := bindingPrivate, resp := resp,
      responseSize := L.sizeof_pci_resp_get_vdm_support }
  | some resp =>
    let bindingPrivate := { bindingPrivate with routing := L.PCIE_ROUTE_TO_RC }
    let setIndex := vendor_id_set_selector % 256
    if setIndex + 1 > vdmSetDatabase.length then
      { ret := true, bindingPrivate := bindingPrivate,
        resp := { resp with completion_code := L.MCTP_CTRL_CC_ERROR_UNSUPPORTED_CMD },
        responseSize := L.sizeof_ctrl_msg_hdr + 1 }
    else
      let selector :=
        if setIndex + 1 = vdmSetDatabase.length then vendorIdNoMoreSets
        else (setIndex + 1) % 256
      let vdmSet := vdmSetDatabase.getD setIndex ⟨0, 0, 0⟩
      { ret := true, bindingPrivate := bindingPrivate,
        resp := { resp with
          vendor_id_set_selector := selector
          vendor_id_format := vdmSet.vendorIdFormat
          vendor_id_data := vdmSet.vendorId
          command_set_type := vdmSet.commandSetType },
        responseSize := L.sizeof_pci_resp_get_vdm_support }

/-- Embeds `PCIeBinding::deviceReadyNotify`; the D-Bus property `BDF` is not part of the
embedding. -/
def deviceReadyNotify (b : PCIeBinding) (ready : Bool) : PCIeBinding :=
  let b := if ready = true then { b with bdf := 0 } else b
  let b := { b with bdf := 0 }
  if b.bindingModeType ≠ BindingModeTypes.BusOwner then
    changeDiscoveredFlag b DiscoveryFlags.Undiscovered
  else b

/-- Embeds the body of the constructor `PCIeBinding::PCIeBinding`: `bdf` is taken from the
configuration and the discovery flag is set by the role. The role and the other members
are initialised by the constructor of the base class and by the header, which are not
among the sources; they are those of `init`. -/
def PCIeBinding.construct (init : PCIeBinding) (conf_bdf : Nat) : PCIeBinding :=
  { init with
    bdf := conf_bdf
    discoveredFlag :=
      if init.bindingModeType = BindingModeTypes.BusOwner then DiscoveryFlags.NotApplicable
      else DiscoveryFlags.Undiscovered }

/-- The first entry of the table with the EID `dstEid`: the `find_if` of
`PCIeBinding::getBindingPrivateData`. -/
def findEntryByEid : List routingTableEntry_t → Nat → Option routingTableEntry_t
  | [], _ => none
  | entry :: rest, dstEid => if entry.1 = dstEid then some entry else findEntryByEid rest dstEid

/-- Embeds `PCIeBinding::getBindingPrivateData`; the returned vector holds the bytes of
the struct, which is returned as such here. -/
def getBindingPrivateData (L : Libmctp) (b : PCIeBinding) (dstEid : Nat) :
    Option mctp_nupcie_pkt_private :=
  match findEntryByEid b.routingTable dstEid with
  | none => none
  | some entry => some { routing := L.PCIE_ROUTE_BY_ID, remote_id := entry.2.1 }

/-- An inbound control request as a handler of `PCIeBinding` receives it, together with
the outcome of the call the handler makes into the base class or the library, or a call
of `deviceReadyNotify`. -/
inductive Inbound where
  | PrepareEndpointDiscovery (bindingPrivate : mctp_nupcie_pkt_private) (response : List Nat)
  | EndpointDiscovery (bindingPrivate : mctp_nupcie_pkt_private) (response : List Nat)
  | SetEndpointID (bindingPrivate : mctp_nupcie_pkt_private) (response : List Nat)
      (base : BaseHandlerOutcome)
  | GetEndpointID (base : BaseHandlerOutcome)
  | GetVersionSupport (base : BaseHandlerOutcome)
  | GetMessageTypeSupport (base : BaseHandlerOutcome)
  | GetVdmSupport (bindingPrivate : mctp_nupcie_pkt_private) (vendor_id_set_selector : Nat)
      (resp : mctp_pci_ctrl_resp_get_vdm_support)
      (lib : Option mctp_pci_ctrl_resp_get_vdm_support)
  | deviceReadyNotify (ready : Bool)
  deriving DecidableEq, Repr

/-- The binding after one inbound request or one call of `deviceReadyNotify`. -/
def handleInbound (L : Libmctp) (b : PCIeBinding) : Inbound → PCIeBinding
  | Inbound.PrepareEndpointDiscovery bindingPrivate response =>
    (handlePrepareForEndpointDiscovery L b bindingPrivate response).binding
  | Inbound.EndpointDiscovery bindingPrivate response =>
    (handleEndpointDiscovery L b bindingPrivate response).binding
  | Inbound.SetEndpointID bindingPrivate response base =>
    (handleSetEndpointId L b bindingPrivate response base).binding
  | Inbound.GetEndpointID base => (handleGetEndpointId L b base).binding
  | Inbound.GetVersionSupport base => (handleGetVersionSupport L b base).binding
  | Inbound.GetMessageTypeSupport base => (handleGetMsgTypeSupport L b base).binding
  | Inbound.GetVdmSupport _ _ _ _ => b
  | Inbound.deviceReadyNotify ready => deviceReadyNotify b ready

/-- The binding after a sequence of inbound requests and calls of `deviceReadyNotify`. -/
def handleInbounds (L : Libmctp) (b : PCIeBinding) (requests : List Inbound) : PCIeBinding :=
  requests.foldl (handleInbound L) b

/-- A Set Endpoint ID request that sets the discovery flag: it comes from the recorded
bus owner BDF, the base class accepts it, and the completion code of the response is
success. -/
def setsDiscovered (L : Libmctp) (b : PCIeBinding) : Inbound → Prop
  | Inbound.SetEndpointID bindingPrivate _ base =>
    bindingPrivate.remote_id = b.busOwnerBdf ∧ base.ret = true ∧
      byteAt (vectorResize base.response L.sizeof_resp_set_eid) L.offsetof_set_eid_cc
        = L.MCTP_CTRL_CC_SUCCESS
  | _ => False

instance (L : Libmctp) (b : PCIeBinding) (request : Inbound) :
    Decidable (setsDiscovered L b request) := by
  cases request <;> unfold setsDiscovered <;> infer_instance

/-- No request of the sequence sets the discovery flag, each request being looked at in
the binding the requests before it have left. -/
def noneSetsDiscovered (L : Libmctp) : PCIeBinding → List Inbound → Prop
  | _, [] => True
  | b, request :: rest =>
    ¬ setsDiscovered L b request ∧ noneSetsDiscovered L (handleInbound L b request) rest

/-- Modelled from the spec: `MctpBinding::handleSetEndpointId` is defined in
`MCTPBinding.cpp`, which is not among the sources. The spec drops a request that arrives
in the wrong role and keeps a bus owner out of the discovery: a bus owner drops Set
Endpoint ID. In the other roles the spec accepts Set Endpoint ID when the frame comes
from the bus owner BDF (the check of `PCIeBinding::handleSetEndpointId`) and says that on
completion success the assigned EID is stored. `lib` is the verdict of the control
library on the request: `none` when the request is dropped, else the completion code;
`eid` is the EID the request sets. -/
def baseHandleSetEndpointId (L : Libmctp) (b : PCIeBinding)
    (bindingPrivate : mctp_nupcie_pkt_private) (response : List Nat) (eid : Nat)
    (lib : Option Nat) : BaseHandlerOutcome :=
  if b.bindingModeType = BindingModeTypes.BusOwner then
    { ret := false, bindingPrivate := bindingPrivate, response := response,
      ownEid := b.ownEid, busOwnerEid := b.busOwnerEid }
  else
    match lib with
    | none =>
      { ret := false, bindingPrivate := bindingPrivate, response := response,
        ownEid := b.ownEid, busOwnerEid := b.busOwnerEid }
    | some completion_code =>
      { ret := true, bindingPrivate := bindingPrivate,
        response := (vectorResize response L.sizeof_resp_set_eid).set L.offsetof_set_eid_cc
          (completion_code % 256),
        ownEid := if completion_code % 256 = L.MCTP_CTRL_CC_SUCCESS then eid else b.ownEid,
        busOwnerEid := b.busOwnerEid }

/-- The `struct mctp_smbus_pkt_private`: the SMBus binding-private record of a frame. -/
structure mctp_smbus_pkt_private where
  fd : Int
  mux_hold_timeout : Nat
  mux_flags : Nat
  slave_addr : Nat
  deriving DecidableEq, Repr

/-- The type `DeviceTableEntry_t`: `(eid, binding-private)`. -/
abbrev DeviceTableEntry_t := Nat × mctp_smbus_pkt_private

/-- The variables the `for` loop of the SMBus walk updates. -/
structure SMBusEntryLoopState where
  smbusDeviceTableTmp : List DeviceTableEntry_t
  phyAddrOffset : Nat
  deriving DecidableEq, Repr

/-- The innermost loop of the SMBus walk: one row for each EID of the range, for
`eidRange` from `eidRange` up to `eid_range_size`. -/
def pushEidRange (starting_eid : Nat) (smbusBindingPvt : mctp_smbus_pkt_private) :
    (count eidRange : Nat) → List DeviceTableEntry_t → List DeviceTableEntry_t
  | 0, _, table => table
  | count + 1, eidRange, table =>
    pushEidRange starting_eid smbusBindingPvt count (eidRange + 1)
      (table ++ [((starting_eid + eidRange) % 256, smbusBindingPvt)])

/-- One iteration of the `for` loop over the entries of a response in the task of
`SMBusBinding::updateRoutingTable`. -/
def smbusRoutingTableEntry (L : Libmctp) (busOwnerFd : Int)
    (getRoutingTableEntryResp : List Nat) (s : SMBusEntryLoopState) : SMBusEntryLoopState :=
  let routingTableEntry := s.phyAddrOffset
  let starting_eid := byteAt getRoutingTableEntryResp (routingTableEntry + L.offsetof_starting_eid)
  let eid_range_size :=
    byteAt getRoutingTableEntryResp (routingTableEntry + L.offsetof_eid_range_size)
  let phys_transport_binding_id :=
    byteAt getRoutingTableEntryResp (routingTableEntry + L.offsetof_phys_transport_binding_id)
  let phys_address_size :=
    byteAt getRoutingTableEntryResp (routingTableEntry + L.offsetof_phys_address_size)
  let phyAddrOffset := s.phyAddrOffset + L.sizeof_routing_table_entry
  if phys_transport_binding_id = L.MCTP_BINDING_SMBUS ∧ phys_address_size = 1 then
    let smbusBindingPvt : mctp_smbus_pkt_private :=
      { fd := busOwnerFd, mux_hold_timeout := 0, mux_flags := 0,
        slave_addr := (byteAt getRoutingTableEntryResp phyAddrOffset <<< 1) % 256 }
    { smbusDeviceTableTmp :=
        pushEidRange starting_eid smbusBindingPvt eid_range_size 0 s.smbusDeviceTableTmp
      phyAddrOffset := phyAddrOffset + phys_address_size }
  else
    { s with phyAddrOffset := phyAddrOffset + phys_address_size }

/-- The `for` loop of the SMBus walk: `n` iterations. -/
def smbusRoutingTableEntries (L : Libmctp) (busOwnerFd : Int)
    (getRoutingTableEntryResp : List Nat) : Nat → SMBusEntryLoopState → SMBusEntryLoopState
  | 0, s => s
  | n + 1, s =>
    smbusRoutingTableEntries L busOwnerFd getRoutingTableEntryResp n
      (smbusRoutingTableEntry L busOwnerFd getRoutingTableEntryResp s)

/-- The variables the `while` loop of the SMBus walk reads or updates, and the number of
Get Routing Table requests issued so far. -/
structure SMBusWalkState where
  smbusDeviceTableTmp : List DeviceTableEntry_t
  entryHandle : Nat
  entryHdlCounter : Nat
  requests : Nat
  deriving DecidableEq, Repr

/-- How far the `while` loop of the SMBus walk has come after a number of iterations. -/
inductive SMBusWalk where
  /-- The loop condition was false: the walk goes on to compare the tables. -/
  | finished (s : SMBusWalkState)
  /-- A request failed: the task returned. -/
  | failed (s : SMBusWalkState)
  /-- The loop condition is still true. -/
  | running (s : SMBusWalkState)
  deriving DecidableEq, Repr

/-- The `while` loop of the task of `SMBusBinding::updateRoutingTable`, run for at most
`fuel` iterations. The increment of `entryHdlCounter` stands after the loop in the
source, so no iteration changes it. -/
def smbusRoutingWalkLoop (L : Libmctp) (busOwnerFd : Int) (net : Nat → Option (List Nat)) :
    Nat → SMBusWalkState → SMBusWalk
  | 0, s =>
    if s.entryHandle ≠ 0xff ∧ s.entryHdlCounter < 0xff then SMBusWalk.running s
    else SMBusWalk.finished s
  | fuel + 1, s =>
    if s.entryHandle ≠ 0xff ∧ s.entryHdlCounter < 0xff then
      match net s.requests with
      | none => SMBusWalk.failed { s with requests := s.requests + 1 }
      | some getRoutingTableEntryResp =>
        let p := smbusRoutingTableEntries L busOwnerFd getRoutingTableEntryResp
          (byteAt getRoutingTableEntryResp L.offsetof_number_of_entries)
          { smbusDeviceTableTmp := s.smbusDeviceTableTmp,
            phyAddrOffset := L.sizeof_resp_get_routing_table }
        smbusRoutingWalkLoop L busOwnerFd net fuel
          { smbusDeviceTableTmp := p.smbusDeviceTableTmp,
            entryHandle := byteAt getRoutingTableEntryResp L.offsetof_next_entry_handle,
            entryHdlCounter := s.entryHdlCounter,
            requests := s.requests + 1 }
    else SMBusWalk.finished s

/-- The walk of the task of `SMBusBinding::updateRoutingTable`, from `entryHandle = 0x00`
and `entryHdlCounter = 0x00`, run for at most `fuel` iterations of its `while` loop. -/
def smbusRoutingWalk (L : Libmctp) (busOwnerFd : Int) (net : Nat → Option (List Nat))
    (fuel : Nat) : SMBusWalk :=
  smbusRoutingWalkLoop L busOwnerFd net fuel
    { smbusDeviceTableTmp := [], entryHandle := 0x00, entryHdlCounter := 0x00, requests := 0 }

/-! ## `SMBusBinding.cpp`: bandwidth reservation -/

/-- Modelled from the spec: the flag `IS_MUX_PORT` of `mux_flags` is declared in
`libmctp-smbus.h`, which is not among the sources; the spec gives bit 7 of `mux_flags`
for IsMuxPort. -/
def IS_MUX_PORT : Nat := 0x80

/-- The two modes of `MuxIdleModes` that `muxIdleModesMap` lists. -/
inductive MuxIdleModes where
  | muxIdleModeConnect
  | muxIdleModeDisconnect
  deriving DecidableEq, Repr

/-- The error code a wait handler of a timer is invoked with: none when the timer has
expired, `operation_aborted` when the wait was cancelled, or another error. -/
inductive WaitError where
  | success
  | operation_aborted
  | failure
  deriving DecidableEq, Repr

/-- The calls the reservation code makes to the driver, to `setMuxIdleMode` and to
`reserveBWTimer`, as they are recorded in the order they are made. -/
inductive SMBusCall where
  | mctp_smbus_init_pull_model (prvt : mctp_smbus_pkt_private)
  | mctp_smbus_exit_pull_model (prvt : mctp_smbus_pkt_private)
  | setMuxIdleMode (mode : MuxIdleModes)
  | expires_after (milliseconds : Nat)
  | async_wait
  | cancel
  deriving DecidableEq, Repr

/-- The members of `SMBusBinding` (and of its base `MctpBinding`) the embedded code reads
or writes, the state of `reserveBWTimer` and of the event loop, and the calls made so
far. A handler given to `async_wait` is the lambda of `startTimerAndReleaseBW`, which is
known by the `prvt` it has captured. `reserveBWTimerWaits` are the handlers that wait on
the timer; `readyHandlers` are the handlers the event loop has still to invoke, oldest
first, each with its error code. A `std::set` or `std::map` is the list of its elements
in ascending order. `routingTasks` are the tasks `updateRoutingTable` has handed to
`boost::asio::spawn`, oldest first, each known by the `prvData` it has captured. -/
structure SMBusBinding where
  rsvBWActive : Bool
  reservedEID : Nat
  ret : Nat
  smbusDeviceTable : List DeviceTableEntry_t
  muxPortMap : List (Int × Int)
  reserveBWTimerWaits : List mctp_smbus_pkt_private
  readyHandlers : List (WaitError × mctp_smbus_pkt_private)
  calls : List SMBusCall
  outFd : Int
  rootDeviceMap : List (Int × Nat)
  supportedEndpointSlaveAddress : List Nat
  discoveredFlag : DiscoveryFlags
  busOwnerFd : Int
  busOwnerSlaveAddr : Nat
  busOwnerEid : Nat
  ownEid : Nat
  routingTasks : List mctp_smbus_pkt_private
  deriving DecidableEq, Repr

/-- The value of `muxPortMap.count(fd)`: a `std::map` holds a key at most once. -/
def muxPortMapCount (muxPortMap : List (Int × Int)) (fd : Int) : Nat :=
  if muxPortMap.any (fun port => port.1 == fd) then 1 else 0

/-- The loop of `SMBusBinding::getBindingPrivateData` over the rows of the device table
that remain. -/
def getBindingPrivateDataLoop (muxPortMap : List (Int × Int)) (dstEid : Nat) :
    List DeviceTableEntry_t → Option mctp_smbus_pkt_private
  | [] => none
  | device :: rest =>
    if device.1 = dstEid then
      some
        { fd := device.2.fd
          mux_hold_timeout := if muxPortMapCount muxPortMap device.2.fd ≠ 0 then 1000 else 0
          mux_flags := if muxPortMapCount muxPortMap device.2.fd ≠ 0 then IS_MUX_PORT else 0
          slave_addr := device.2.slave_addr }
    else getBindingPrivateDataLoop muxPortMap dstEid rest

/-- Embeds `SMBusBinding::getBindingPrivateData`; the returned vector holds the bytes of
the struct, which is returned as such here. -/
def SMBusBinding.getBindingPrivateData (b : SMBusBinding) (dstEid : Nat) :
    Option mctp_smbus_pkt_private :=
  getBindingPrivateDataLoop b.muxPortMap dstEid b.smbusDeviceTable

/-- The cancellation of the waits on `reserveBWTimer`, as `expires_after` and `cancel`
perform it: the handler of each pending wait is handed to the event loop with the error
code `operation_aborted`, and no wait is pending afterwards. -/
def SMBusBinding.cancelWaits (b : SMBusBinding) : SMBusBinding :=
  { b with
    readyHandlers := b.readyHandlers ++
      b.reserveBWTimerWaits.map fun prvt => (WaitError.operation_aborted, prvt)
    reserveBWTimerWaits := [] }

/-- The expiry of `reserveBWTimer`: the handler of each pending wait is handed to the
event loop without an error code. -/
def SMBusBinding.timerExpires (b : SMBusBinding) : SMBusBinding :=
  { b with
    readyHandlers := b.readyHandlers ++
      b.reserveBWTimerWaits.map fun prvt => (WaitError.success, prvt)
    reserveBWTimerWaits := [] }

/-- Embeds `SMBusBinding::startTimerAndReleaseBW`: `expires_after` cancels the pending
waits and returns their number, which is stored in `ret`; `async_wait` adds the new
handler. -/
def SMBusBinding.startTimerAndReleaseBW (b : SMBusBinding) (interval : Nat)
    (prvt : mctp_smbus_pkt_private) : SMBusBinding :=
  let ret := b.reserveBWTimerWaits.length
  let b := b.cancelWaits
  { b with
    ret := ret
    calls := b.calls ++ [SMBusCall.expires_after (interval * 1000), SMBusCall.async_wait]
    reserveBWTimerWaits := b.reserveBWTimerWaits ++ [prvt] }

/-- Embeds the handler `startTimerAndReleaseBW` gives to `async_wait`, invoked with the
error code `ec`; `exitPullModel` is the value `mctp_smbus_exit_pull_model` returns if it
is called. The error code decides only what is logged. -/
def SMBusBinding.reserveBWTimerHandler (b : SMBusBinding) (_ec : WaitError)
    (prvt : mctp_smbus_pkt_private) (exitPullModel : Int) : SMBusBinding :=
  if b.ret ≠ 0 then { b with ret := 0 }
  else
    let b := { b with calls := b.calls ++
      [SMBusCall.setMuxIdleMode MuxIdleModes.muxIdleModeDisconnect,
        SMBusCall.mctp_smbus_exit_pull_model prvt] }
    if exitPullModel < 0 then b
    else { b with rsvBWActive := false, reservedEID := 0 }

/-- One step of the event loop: the oldest handler that is ready is invoked. -/
def SMBusBinding.runReadyHandler (b : SMBusBinding) (exitPullModel : Int) : SMBusBinding :=
  match b.readyHandlers with
  | [] => b
  | (ec, prvt) :: rest =>
    SMBusBinding.reserveBWTimerHandler { b with readyHandlers := rest } ec prvt exitPullModel

/-- Embeds `SMBusBinding::reserveBandwidth`; `initPullModel` is the value
`mctp_smbus_init_pull_model` returns if it is called. -/
def SMBusBinding.reserveBandwidth (b : SMBusBinding) (eid timeout : Nat)
    (initPullModel : Int) : Bool × SMBusBinding :=
  if b.rsvBWActive = true ∧ eid ≠ b.reservedEID then (false, b)
  else
    match b.getBindingPrivateData eid with
    | none => (false, b)
    | some prvt =>
      if prvt.mux_flags ≠ IS_MUX_PORT then (false, b)
      else if b.rsvBWActive = false then
        let b := { b with calls := b.calls ++ [SMBusCall.mctp_smbus_init_pull_model prvt] }
        if initPullModel < 0 then (false, b)
        else
          let b := { b with
            calls := b.calls ++ [SMBusCall.setMuxIdleMode MuxIdleModes.muxIdleModeConnect]
            rsvBWActive := true
            reservedEID := eid }
          (true, b.startTimerAndReleaseBW timeout prvt)
      else (true, b.startTimerAndReleaseBW timeout prvt)

/-- Embeds `SMBusBinding::releaseBandwidth`. -/
def SMBusBinding.releaseBandwidth (b : SMBusBinding) (eid : Nat) : Bool × SMBusBinding :=
  if b.rsvBWActive = false ∨ eid ≠ b.reservedEID then (false, b)
  else (true, { b.cancelWaits with calls := b.calls ++ [SMBusCall.cancel] })

/-- The first row of the device table with the EID `eid`. -/
def findDeviceByEid : List DeviceTableEntry_t → Nat → Option DeviceTableEntry_t
  | [], _ => none
  | device :: rest, eid => if device.1 = eid then some device else findDeviceByEid rest eid

/-- The descriptor `fd` is a key of `muxPortMap`: it is a mux leaf. -/
def isMuxFd (muxPortMap : List (Int × Int)) (fd : Int) : Prop :=
  ∃ port ∈ muxPortMap, port.1 = fd

instance (muxPortMap : List (Int × Int)) (fd : Int) : Decidable (isMuxFd muxPortMap fd) := by
  unfold isMuxFd; infer_instance

/-! ## `SMBusBinding.cpp`: the device table -/

/-- Embeds `SMBusBinding::isBindingDataSame` -/
def isBindingDataSame (dataMain dataTmp : mctp_smbus_pkt_private) : Bool :=
  if (dataMain.fd, dataMain.slave_addr) = (dataTmp.fd, dataTmp.slave_addr) then true
  else false

/-- The loop of `SMBusBinding::getEIDFromDeviceTable` over the rows of the device table
that remain; `eid` is the value of the local variable of that name. -/
def getEIDFromDeviceTableLoop (bindingPrivate : mctp_smbus_pkt_private) (eid : Nat) :
    List DeviceTableEntry_t → Nat
  | [] => eid
  | deviceEntry :: rest =>
    let bindingDataEntry := deviceEntry.2
    if bindingDataEntry.slave_addr = bindingPrivate.slave_addr ∧
        bindingDataEntry.fd = bindingPrivate.fd then deviceEntry.1
    else getEIDFromDeviceTableLoop bindingPrivate eid rest

/-- Embeds `SMBusBinding::getEIDFromDeviceTable`; the vector passed holds the bytes of
the struct, which is passed as such here. -/
def SMBusBinding.getEIDFromDeviceTable (L : Libmctp) (b : SMBusBinding)
    (bindingPrivate : mctp_smbus_pkt_private) : Nat :=
  getEIDFromDeviceTableLoop bindingPrivate L.MCTP_EID_NULL b.smbusDeviceTable

/-- Embeds `SMBusBinding::isDeviceEntryPresent` -/
def isDeviceEntryPresent (deviceEntry : DeviceTableEntry_t) :
    List DeviceTableEntry_t → Bool
  | [] => false
  | row :: rest =>
    if row.1 = deviceEntry.1 then true else isDeviceEntryPresent deviceEntry rest

/-- The loop of `SMBusBinding::isDeviceTableChanged` over two tables of the same size. -/
def isDeviceTableChangedLoop : List DeviceTableEntry_t → List DeviceTableEntry_t → Bool
  | main :: mainRest, tmp :: tmpRest =>
    if main.1 ≠ tmp.1 ∨ isBindingDataSame main.2 tmp.2 = false then true
    else isDeviceTableChangedLoop mainRest tmpRest
  | _, _ => false

/-- Embeds `SMBusBinding::isDeviceTableChanged` -/
def isDeviceTableChanged (tableMain tableTmp : List DeviceTableEntry_t) : Bool :=
  if tableMain.length ≠ tableTmp.length then true
  else isDeviceTableChangedLoop tableMain tableTmp

/-- Embeds `SMBusBinding::removeDeviceTableEntry`: the rows with the EID `eid` are
erased. -/
def SMBusBinding.removeDeviceTableEntry (b : SMBusBinding) (eid : Nat) : SMBusBinding :=
  { b with smbusDeviceTable := b.smbusDeviceTable.filter fun tableEntry => tableEntry.1 ≠ eid }

/-- Embeds `SMBusBinding::addUnknownEIDToDeviceTable`; `bindingPrivate` is `none` for a
null pointer. -/
def SMBusBinding.addUnknownEIDToDeviceTable (b : SMBusBinding) (eid : Nat)
    (bindingPrivate : Option mctp_smbus_pkt_private) : SMBusBinding :=
  match bindingPrivate with
  | none => b
  | some bindingPtr =>
    if b.smbusDeviceTable.any (fun eidEntry => eidEntry.1 == eid) then b
    else
      let smbusBindingPvt : mctp_smbus_pkt_private :=
        { fd := bindingPtr.fd, mux_hold_timeout := bindingPtr.mux_hold_timeout,
          mux_flags := bindingPtr.mux_flags, slave_addr := bindingPtr.slave_addr &&& 0xFE }
      { b with smbusDeviceTable := b.smbusDeviceTable ++ [(eid, smbusBindingPvt)] }

/-- The calls the SMBus binding makes to the endpoint registry of `MctpBinding`. The
mode is `none` where the call leaves the last parameter to its default. -/
inductive SMBusEvent where
  | unregisterEndpoint (eid : Nat)
  | registerEndpoint (prvData : mctp_smbus_pkt_private) (eid : Nat)
      (mode : Option BindingModeTypes)
  deriving DecidableEq, Repr

/-- The first loop of `SMBusBinding::processRoutingTableChanges`, over the rows of the
stored device table that remain. -/
def smbusProcessRemovedEntries (newTable : List DeviceTableEntry_t) :
    List DeviceTableEntry_t → List SMBusEvent
  | [] => []
  | deviceTableEntry :: rest =>
    if isDeviceEntryPresent deviceTableEntry newTable = false then
      SMBusEvent.unregisterEndpoint deviceTableEntry.1 :: smbusProcessRemovedEntries newTable rest
    else smbusProcessRemovedEntries newTable rest

/-- The second loop of `SMBusBinding::processRoutingTableChanges`, over the rows of
`newTable` that remain. -/
def smbusProcessAddedEntries (b : SMBusBinding) (prvData : mctp_smbus_pkt_private) :
    List DeviceTableEntry_t → List SMBusEvent
  | [] => []
  | deviceTableEntry :: rest =>
    if isDeviceEntryPresent deviceTableEntry b.smbusDeviceTable = false then
      SMBusEvent.registerEndpoint prvData deviceTableEntry.1 (some BindingModeTypes.Endpoint) ::
        smbusProcessAddedEntries b prvData rest
    else smbusProcessAddedEntries b prvData rest

/-- Embeds `SMBusBinding::processRoutingTableChanges`: the calls it makes, in order. -/
def SMBusBinding.processRoutingTableChanges (b : SMBusBinding)
    (newTable : List DeviceTableEntry_t) (prvData : mctp_smbus_pkt_private) : List SMBusEvent :=
  smbusProcessRemovedEntries newTable b.smbusDeviceTable ++
    smbusProcessAddedEntries b prvData newTable

/-- The end of the task `SMBusBinding::updateRoutingTable` spawns, once the walk has
produced `smbusDeviceTableTmp`: the comparison with the stored table, the diff and the
replacement. -/
def SMBusBinding.storeDeviceTable (b : SMBusBinding)
    (smbusDeviceTableTmp : List DeviceTableEntry_t) (prvData : mctp_smbus_pkt_private) :
    List SMBusEvent × SMBusBinding :=
  if isDeviceTableChanged b.smbusDeviceTable smbusDeviceTableTmp = true then
    (b.processRoutingTableChanges smbusDeviceTableTmp prvData,
      { b with smbusDeviceTable := smbusDeviceTableTmp })
  else ([], b)

/-- The task `SMBusBinding::updateRoutingTable` spawns, which has captured `prvData`:
the walk, run for at most `fuel` iterations of its `while` loop, and the end of the
task. `none` when the loop has not ended by then; a failed request ends the task. -/
def SMBusBinding.routingTask (L : Libmctp) (b : SMBusBinding)
    (prvData : mctp_smbus_pkt_private) (net : Nat → Option (List Nat)) (fuel : Nat) :
    Option (List SMBusEvent × SMBusBinding) :=
  match smbusRoutingWalk L b.busOwnerFd net fuel with
  | SMBusWalk.running _ => none
  | SMBusWalk.failed _ => some ([], b)
  | SMBusWalk.finished s => some (b.storeDeviceTable s.smbusDeviceTableTmp prvData)

/-- What the two calls out of the registration loop of `initEndpointDiscovery` return
for one device: `deviceWatcher.isDeviceGoodForInit`, and `registerEndpoint`, which
returns no value or an EID. -/
structure DeviceOutcome where
  isDeviceGoodForInit : Bool
  registerEndpoint : Option Nat
  deriving DecidableEq, Repr

/-- The binding-private `smbusBindingPvt` that an iteration of the registration loop of
`SMBusBinding::initEndpointDiscovery` builds for the element `device` of
`registerDeviceMap`. `ctrlTxRetryDelay` is a member of `MctpBinding`. -/
def SMBusBinding.deviceBindingPrivate (ctrlTxRetryDelay : Nat) (b : SMBusBinding)
    (device : Int × Nat) : mctp_smbus_pkt_private :=
  { fd := device.1
    mux_hold_timeout :=
      if muxPortMapCount b.muxPortMap device.1 ≠ 0 then ctrlTxRetryDelay % 65536 else 0
    mux_flags := if muxPortMapCount b.muxPortMap device.1 ≠ 0 then 0x80 else 0
    slave_addr := (device.2 <<< 1) % 256 }

/-- One iteration of the registration loop of `SMBusBinding::initEndpointDiscovery`, for
the element `device` of `registerDeviceMap`: the calls to the endpoint registry and the
binding it leaves. -/
def SMBusBinding.initEndpointDiscoveryDevice (L : Libmctp) (ctrlTxRetryDelay : Nat)
    (b : SMBusBinding) (device : Int × Nat) (outcome : DeviceOutcome) :
    List SMBusEvent × SMBusBinding :=
  let smbusBindingPvt := b.deviceBindingPrivate ctrlTxRetryDelay device
  if outcome.isDeviceGoodForInit = false then ([], b)
  else
    let registeredEid := b.getEIDFromDeviceTable L smbusBindingPvt
    let registered := [SMBusEvent.registerEndpoint smbusBindingPvt registeredEid none]
    match outcome.registerEndpoint with
    | none => (registered, b)
    | some eid =>
      if eid ≠ L.MCTP_EID_NULL then
        let entry : DeviceTableEntry_t := (eid, smbusBindingPvt)
        let newEntry := !isDeviceEntryPresent entry b.smbusDeviceTable
        let noDeviceUpdate := !newEntry && eid == registeredEid
        let deviceUpdated := !newEntry && eid != registeredEid
        if noDeviceUpdate = true then (registered, b)
        else if newEntry = true then
          (registered, { b with smbusDeviceTable := b.smbusDeviceTable ++ [entry] })
        else if deviceUpdated = true then
          let b := b.removeDeviceTableEntry registeredEid
          (registered ++ [SMBusEvent.unregisterEndpoint registeredEid],
            { b with smbusDeviceTable := b.smbusDeviceTable ++ [entry] })
        else (registered, b)
      else (registered, b)

/-- The registration loop of `SMBusBinding::initEndpointDiscovery` over the elements of
`registerDeviceMap` that remain, each with the outcome of its calls. -/
def SMBusBinding.initEndpointDiscoveryLoop (L : Libmctp) (ctrlTxRetryDelay : Nat) :
    SMBusBinding → List ((Int × Nat) × DeviceOutcome) → List SMBusEvent × SMBusBinding
  | b, [] => ([], b)
  | b, (device, outcome) :: rest =>
    let r := b.initEndpointDiscoveryDevice L ctrlTxRetryDelay device outcome
    let rs := SMBusBinding.initEndpointDiscoveryLoop L ctrlTxRetryDelay r.2 rest
    (r.1 ++ rs.1, rs.2)

/-- No two rows of a device table share an EID. -/
def NoSharedEid (table : List DeviceTableEntry_t) : Prop :=
  (table.map fun row => row.1).Nodup

instance (table : List DeviceTableEntry_t) : Decidable (NoSharedEid table) := by
  unfold NoSharedEid; infer_instance

/-- The iteration of the registration loop for `device` takes the branch `deviceUpdated`:
the device is good for initialisation, and `registerEndpoint` returns an EID other than
the null EID that a row of the device table has and that is not the EID found for the
address of the device. -/
def deviceMoved (L : Libmctp) (ctrlTxRetryDelay : Nat) (b : SMBusBinding) (device : Int × Nat)
    (outcome : DeviceOutcome) : Prop :=
  outcome.isDeviceGoodForInit = true ∧
    match outcome.registerEndpoint with
    | none => False
    | some eid =>
      eid ≠ L.MCTP_EID_NULL ∧ (∃ row ∈ b.smbusDeviceTable, row.1 = eid) ∧
        eid ≠ b.getEIDFromDeviceTable L (b.deviceBindingPrivate ctrlTxRetryDelay device)

instance (L : Libmctp) (ctrlTxRetryDelay : Nat) (b : SMBusBinding) (device : Int × Nat)
    (outcome : DeviceOutcome) : Decidable (deviceMoved L ctrlTxRetryDelay b device outcome) := by
  unfold deviceMoved
  refine @instDecidableAnd _ _ _ ?_
  split <;> infer_instance

/-! ## `SMBusBinding.cpp`: scanning the ports -/

/-- Embeds `std::set<std::pair<int, uint8_t>>::insert` on the list of the elements in
ascending order. -/
def setInsert : List (Int × Nat) → Int × Nat → List (Int × Nat)
  | [], x => [x]
  | y :: ys, x =>
    if x = y then y :: ys
    else if x.1 < y.1 ∨ (x.1 = y.1 ∧ x.2 < y.2) then x :: y :: ys
    else y :: setInsert ys x

/-- The value of `std::set<std::pair<int, uint8_t>>::count(x)` -/
def setCount (s : List (Int × Nat)) (x : Int × Nat) : Nat :=
  if x ∈ s then 1 else 0

/-- What the calls `scanPort` makes for one slave address return if they are made:
`ioctl(scanFd, I2C_SLAVE, it)`, `i2c_smbus_read_byte(scanFd)` and
`i2c_smbus_write_quick(scanFd, I2C_SMBUS_WRITE)`. -/
structure ProbeOutcome where
  ioctl : Int
  i2c_smbus_read_byte : Int
  i2c_smbus_write_quick : Int
  deriving DecidableEq, Repr

/-- The end of an iteration of the loop of `scanPort`, reached when the address `it` has
answered: the address is skipped when a mux port is scanned and the root bus has it. -/
def scanPortAdd (b : SMBusBinding) (scanFd : Int) (it : Nat) (deviceMap : List (Int × Nat)) :
    List (Int × Nat) :=
  if scanFd ≠ b.outFd ∧ setCount b.rootDeviceMap (b.outFd, it) ≠ 0 then deviceMap
  else setInsert deviceMap (scanFd, it)

/-- The loop of `SMBusBinding::scanPort` over the addresses of
`supportedEndpointSlaveAddress` that remain; `probe it` is the outcome of the calls for
the address `it`. -/
def scanPortLoop (b : SMBusBinding) (scanFd : Int) (probe : Nat → ProbeOutcome) :
    List Nat → List (Int × Nat) → List (Int × Nat)
  | [], deviceMap => deviceMap
  | it :: rest, deviceMap =>
    if (probe it).ioctl < 0 then scanPortLoop b scanFd probe rest deviceMap
    else if (it ≥ 0x30 ∧ it ≤ 0x37) ∨ (it ≥ 0x50 ∧ it ≤ 0x5F) then
      if (probe it).i2c_smbus_read_byte < 0 then scanPortLoop b scanFd probe rest deviceMap
      else scanPortLoop b scanFd probe rest (scanPortAdd b scanFd it deviceMap)
    else
      if (probe it).i2c_smbus_write_quick < 0 then scanPortLoop b scanFd probe rest deviceMap
      else scanPortLoop b scanFd probe rest (scanPortAdd b scanFd it deviceMap)

/-- Embeds `SMBusBinding::scanPort`: the value of `deviceMap` after the call. -/
def SMBusBinding.scanPort (b : SMBusBinding) (scanFd : Int) (probe : Nat → ProbeOutcome)
    (deviceMap : List (Int × Nat)) : List (Int × Nat) :=
  if scanFd < 0 then deviceMap
  else scanPortLoop b scanFd probe b.supportedEndpointSlaveAddress deviceMap

/-- The loop of `SMBusBinding::scanMuxBus` over the elements of `muxPortMap` that remain;
`probe muxFd it` is the outcome of the calls for the address `it` on the port `muxFd`. -/
def scanMuxBusLoop (b : SMBusBinding) (probe : Int → Nat → ProbeOutcome) :
    List (Int × Int) → List (Int × Nat) → List (Int × Nat)
  | [], deviceMap => deviceMap
  | (muxFd, _) :: rest, deviceMap =>
    scanMuxBusLoop b probe rest (b.scanPort muxFd (probe muxFd) deviceMap)

/-- Embeds `SMBusBinding::scanMuxBus`: the value of `deviceMap` after the call. -/
def SMBusBinding.scanMuxBus (b : SMBusBinding) (probe : Int → Nat → ProbeOutcome)
    (deviceMap : List (Int × Nat)) : List (Int × Nat) :=
  scanMuxBusLoop b probe b.muxPortMap deviceMap

/-- The address `it` answers its probe: the `ioctl` succeeds, and so does the read of a
byte for an address of the EEPROM ranges, the quick write for any other address. -/
def answersProbe (it : Nat) (outcome : ProbeOutcome) : Prop :=
  0 ≤ outcome.ioctl ∧
    if (0x30 ≤ it ∧ it ≤ 0x37) ∨ (0x50 ≤ it ∧ it ≤ 0x5F) then 0 ≤ outcome.i2c_smbus_read_byte
    else 0 ≤ outcome.i2c_smbus_write_quick

instance (it : Nat) (outcome : ProbeOutcome) : Decidable (answersProbe it outcome) := by
  unfold answersProbe; infer_instance

/-! ## `SMBusBinding.cpp`: Set Endpoint ID -/

/-- What a handler of the base class `MctpBinding` leaves behind when it is called for
an SMBus frame: its return value, the binding-private and the response it was given
pointers to, and the members of `MctpBinding` it may assign. -/
structure SMBusBaseHandlerOutcome where
  ret : Bool
  bindingPrivate : mctp_smbus_pkt_private
  response : List Nat
  ownEid : Nat
  busOwnerEid : Nat
  deriving DecidableEq, Repr

/-- Embeds `SMBusBinding::updateRoutingTable` up to the task it spawns, which is added to
`routingTasks` with the `prvData` it captures; the timer is not part of the embedding. -/
def SMBusBinding.updateRoutingTable (b : SMBusBinding) : SMBusBinding :=
  if b.discoveredFlag ≠ DiscoveryFlags.Discovered then b
  else
    let pktPrv : mctp_smbus_pkt_private :=
      { fd := b.busOwnerFd, mux_hold_timeout := 0, mux_flags := 0,
        slave_addr := b.busOwnerSlaveAddr }
    { b with routingTasks := b.routingTasks ++ [pktPrv] }

/-- Embeds `SMBusBinding::updateDiscoveredFlag`; the D-Bus property is not part of the
embedding. -/
def SMBusBinding.updateDiscoveredFlag (b : SMBusBinding) (flag : DiscoveryFlags) :
    SMBusBinding :=
  let b := { b with discoveredFlag := flag }
  if DiscoveryFlags.Discovered = flag then b.updateRoutingTable else b

/-- What a handler of the SMBus binding leaves behind. -/
structure SMBusHandlerResult where
  ret : Bool
  binding : SMBusBinding
  bindingPrivate : mctp_smbus_pkt_private
  response : List Nat
  deriving DecidableEq, Repr

/-- Embeds `SMBusBinding::handleSetEndpointId`; `base` is the outcome of
`MctpBinding::handleSetEndpointId`. The D-Bus property `Eid` is not part of the
embedding. -/
def SMBusBinding.handleSetEndpointId (L : Libmctp) (b : SMBusBinding)
    (base : SMBusBaseHandlerOutcome) : SMBusHandlerResult :=
  let b := { b with ownEid := base.ownEid, busOwnerEid := base.busOwnerEid }
  if base.ret = false then
    { ret := false, binding := b, bindingPrivate := base.bindingPrivate,
      response := base.response }
  else
    let response := vectorResize base.response L.sizeof_resp_set_eid
    if byteAt response L.offsetof_set_eid_cc = L.MCTP_CTRL_CC_SUCCESS then
      let b := b.updateDiscoveredFlag DiscoveryFlags.Discovered
      let smbusPrivate := base.bindingPrivate
      let b := { b with busOwnerSlaveAddr := smbusPrivate.slave_addr }
      let b := { b with busOwnerFd := smbusPrivate.fd }
      { ret := true, binding := b, bindingPrivate := base.bindingPrivate, response := response }
    else
      { ret := true, binding := b, bindingPrivate := base.bindingPrivate, response := response }

/-! ## Live endpoints -/

/-- The set of EIDs registered and not since unregistered, after one more event. -/
def applyEvent (live : Finset Nat) : Event → Finset Nat
  | Event.unregisterEndpoint eid => live.erase eid
  | Event.registerEndpoint _ eid _ => insert eid live

/-- A binding together with the set of its live endpoints. -/
structure RefreshState where
  binding : PCIeBinding
  live : Finset Nat

/-- A routing refresh whose walk has read `table`: the events of the diff are applied to
the set of live endpoints. -/
def refreshWith (L : Libmctp) (s : RefreshState) (table : List routingTableEntry_t) :
    RefreshState :=
  { binding := (storeRoutingTable L s.binding table).2
    live := (storeRoutingTable L s.binding table).1.foldl applyEvent s.live }

/-- A sequence of routing refreshes, one for each table read. -/
def refreshAll (L : Libmctp) (s : RefreshState) (tables : List (List routingTableEntry_t)) :
    RefreshState :=
  tables.foldl (refreshWith L) s

/-- The EIDs that occur in a table. -/
def tableEids (table : List routingTableEntry_t) : List Nat :=
  table.map fun entry => entry.1

/-! ## Responses on the wire -/

/-- A routing table entry as it stands in a response: the bytes of the packed struct
`get_routing_table_entry`, followed by the bytes of the physical address. -/
structure WireEntry where
  raw : List Nat
  addr : List Nat
  deriving DecidableEq, Repr

/-- The field `starting_eid` of an entry on the wire. -/
def WireEntry.starting_eid (L : Libmctp) (e : WireEntry) : Nat :=
  byteAt e.raw L.offsetof_starting_eid

/-- The field `eid_range_size` of an entry on the wire. -/
def WireEntry.eid_range_size (L : Libmctp) (e : WireEntry) : Nat :=
  byteAt e.raw L.offsetof_eid_range_size

/-- The field `entry_type` of an entry on the wire. -/
def WireEntry.entry_type (L : Libmctp) (e : WireEntry) : Nat :=
  byteAt e.raw L.offsetof_entry_type

/-- The field `phys_transport_binding_id` of an entry on the wire. -/
def WireEntry.phys_transport_binding_id (L : Libmctp) (e : WireEntry) : Nat :=
  byteAt e.raw L.offsetof_phys_transport_binding_id

/-- The field `phys_address_size` of an entry on the wire. -/
def WireEntry.phys_address_size (L : Libmctp) (e : WireEntry) : Nat :=
  byteAt e.raw L.offsetof_phys_address_size

/-- The bytes of a sequence of entries, one after the other. -/
def wireBytes : List WireEntry → List Nat
  | [] => []
  | e :: es => e.raw ++ e.addr ++ wireBytes es

/-- A Get Routing Table response on the wire: the bytes of the header struct
`mctp_ctrl_resp_get_routing_table` and the entries that follow it. -/
structure WireResponse where
  hdr : List Nat
  entries : List WireEntry
  deriving DecidableEq, Repr

/-- The bytes of a response. -/
def WireResponse.bytes (r : WireResponse) : List Nat :=
  r.hdr ++ wireBytes r.entries

/-- An entry is well formed when its struct has the size of `get_routing_table_entry`
and its physical address has as many bytes as its `phys_address_size` says. -/
def WireEntry.WellFormed (L : Libmctp) (e : WireEntry) : Prop :=
  e.raw.length = L.sizeof_routing_table_entry ∧ e.addr.length = e.phys_address_size L

/-- A response is well formed when its header has the size of
`mctp_ctrl_resp_get_routing_table`, `number_of_entries` is the number of entries that
follow, and every entry is well formed. -/
def WireResponse.WellFormed (L : Libmctp) (r : WireResponse) : Prop :=
  r.hdr.length = L.sizeof_resp_get_routing_table ∧
  byteAt r.hdr L.offsetof_number_of_entries = r.entries.length ∧
  ∀ e ∈ r.entries, e.WellFormed L

/-- The physical address of a PCIe entry is a 16-bit BDF: two bytes. -/
def WireEntry.PcieAddrOk (L : Libmctp) (e : WireEntry) : Prop :=
  e.phys_transport_binding_id L = L.MCTP_BINDING_PCIE → e.addr.length = 2

instance (L : Libmctp) (e : WireEntry) : Decidable (e.WellFormed L) := by
  unfold WireEntry.WellFormed; infer_instance

instance (L : Libmctp) (r : WireResponse) : Decidable (r.WellFormed L) := by
  unfold WireResponse.WellFormed; infer_instance

instance (L : Libmctp) (e : WireEntry) : Decidable (e.PcieAddrOk L) := by
  unfold WireEntry.PcieAddrOk; infer_instance

/-- The responses the `while` loop of `readRoutingTable` receives, entered with the
current `entryHandle` and `responseCount`, `requests` requests having been issued
before: the control flow of `readRoutingTableLoop` alone. -/
def responsesReadLoop (L : Libmctp) (net : Nat → Option (List Nat))
    (entryHandle responseCount requests : Nat) : List (List Nat) :=
  match hEnd : isEndOfGetRoutingTableResp entryHandle responseCount with
  | (true, _) => []
  | (false, responseCount') =>
    match net requests with
    | none => []
    | some getRoutingTableEntryResp =>
      getRoutingTableEntryResp ::
        responsesReadLoop L net (byteAt getRoutingTableEntryResp L.offsetof_next_entry_handle)
          responseCount' (requests + 1)
termination_by if responseCount < 256 then 255 - responseCount else 256
decreasing_by
  unfold isEndOfGetRoutingTableResp at hEnd
  split at hEnd
  · simp at hEnd
  · rename_i hne
    simp only [Prod.mk.injEq, true_and] at hEnd
    subst hEnd
    have hlt : (responseCount + 1) % 256 < 256 := Nat.mod_lt _ (by norm_num)
    split_ifs <;> omega

/-- The responses one call of `readRoutingTable` receives when `requests` requests have
been issued before it. -/
def responsesRead (L : Libmctp) (net : Nat → Option (List Nat)) (requests : Nat) :
    List (List Nat) :=
  responsesReadLoop L net 0x00 0 requests

/-- The big-endian value of the two bytes of a PCIe physical address. -/
def WireEntry.bdf (e : WireEntry) : Nat :=
  byteAt e.addr 0 * 256 + byteAt e.addr 1

/-- What the spec says the bus owner's entry `e` adds to the table: nothing unless the
transport is PCIe and the role is not Endpoints; else the tuple of its EID, its decoded
physical address and its entry type, the role BridgeAndEndpoints being rewritten to
Bridge. -/
def busOwnerTuple (L : Libmctp) (e : WireEntry) : Option routingTableEntry_t :=
  if e.phys_transport_binding_id L = L.MCTP_BINDING_PCIE ∧
      L.GET_ROUTING_ENTRY_TYPE (e.entry_type L) ≠ L.MCTP_ROUTING_ENTRY_ENDPOINTS then
    some (e.starting_eid L, e.bdf,
      if L.GET_ROUTING_ENTRY_TYPE (e.entry_type L) = L.MCTP_ROUTING_ENTRY_BRIDGE_AND_ENDPOINTS
      then L.SET_ROUTING_ENTRY_TYPE (e.entry_type L) L.MCTP_ROUTING_ENTRY_BRIDGE % 256
      else e.entry_type L)
  else none

/-- What the spec says the entries a bridge returns add to the table: an entry is
admitted when its EID is not among `seen` (the EIDs of the table and of the entries
admitted before it), its EID range has size 1 and its transport is PCIe; the tuple
carries the physical address of the bridge. -/
def admittedBehindBridge (L : Libmctp) (physAddr : Nat) :
    List Nat → List WireEntry → List routingTableEntry_t
  | _, [] => []
  | seen, e :: es =>
    if e.starting_eid L ∉ seen ∧ e.eid_range_size L = 1 ∧
        e.phys_transport_binding_id L = L.MCTP_BINDING_PCIE then
      (e.starting_eid L, physAddr, e.entry_type L) ::
        admittedBehindBridge L physAddr (e.starting_eid L :: seen) es
    else admittedBehindBridge L physAddr seen es

/-- All entries of a sequence of responses, in order. -/
def allEntries : List WireResponse → List WireEntry
  | [] => []
  | r :: rs => r.entries ++ allEntries rs

/-- The `for` loops of `readRoutingTable` over a sequence of responses, one after the
other: the table and the insertion index they leave. -/
def readRoutingTableResponses (L : Libmctp) (busOwnerEid eid physAddr : Nat) :
    List (List Nat) → List routingTableEntry_t → Nat → List routingTableEntry_t × Nat
  | [], rt, insertIndex => (rt, insertIndex)
  | resp :: rest, rt, insertIndex =>
    readRoutingTableResponses L busOwnerEid eid physAddr rest
      (readRoutingTableResp L busOwnerEid eid physAddr resp rt insertIndex).rt
      (readRoutingTableResp L busOwnerEid eid physAddr resp rt insertIndex).insertIndex

/-! ## The rows of the SMBus walk, and the bytes of a BDF -/

/-- What the spec says the entry `e` of a response adds to the device table of the SMBus
walk: nothing unless the transport is SMBus and the physical address has one byte; else
one row for each EID of the range, with the descriptor of the bus owner and the first
byte of the physical address shifted left by one. EIDs and slave addresses are 8-bit
values. -/
def smbusRowsOfEntry (L : Libmctp) (busOwnerFd : Int) (e : WireEntry) :
    List DeviceTableEntry_t :=
  if e.phys_transport_binding_id L = L.MCTP_BINDING_SMBUS ∧ e.phys_address_size L = 1 then
    (List.range (e.eid_range_size L)).map fun k =>
      ((e.starting_eid L + k) % 256,
        { fd := busOwnerFd, mux_hold_timeout := 0, mux_flags := 0,
          slave_addr := (byteAt e.addr 0 <<< 1) % 256 })
  else []

/-- The function `htobe16` on a little-endian host: the two bytes of a 16-bit value are
swapped. -/
def htobe16 (x : Nat) : Nat := (x % 256) * 256 + (x / 256) % 256

/-- The two bytes a `uint16_t` member of a packed struct occupies in the memory of a
little-endian host, as `populateEntry` of the test helper `provideRoutingTable` leaves
them for `tableEntry.bdf`. -/
def uint16Bytes (x : Nat) : List Nat := [x % 256, (x / 256) % 256]

/-! ## Insertion positions of the bridge walk -/

/-- The insertions `rt.insert(rt.begin() + insertIndex, ..)` that `n` iterations of the
`for` loop of `readRoutingTable` perform from the state `s`: for each of them the
position and the size of `rt` at that moment. An iteration inserts exactly when it
changes `insertIndex`. -/
def insertionsOfEntries (L : Libmctp) (busOwnerEid eid physAddr : Nat)
    (getRoutingTableEntryResp : List Nat) : Nat → EntryLoopState → List (Nat × Nat)
  | 0, _ => []
  | n + 1, s =>
    (if (readRoutingTableEntry L busOwnerEid eid physAddr getRoutingTableEntryResp s).insertIndex
        = s.insertIndex then []
      else [(s.insertIndex, s.rt.length)]) ++
    insertionsOfEntries L busOwnerEid eid physAddr getRoutingTableEntryResp n
      (readRoutingTableEntry L busOwnerEid eid physAddr getRoutingTableEntryResp s)

/-- The insertions of the `for` loops of `readRoutingTable` over a sequence of
responses. -/
def insertionsOfResponses (L : Libmctp) (busOwnerEid eid physAddr : Nat) :
    List (List Nat) → List routingTableEntry_t → Nat → List (Nat × Nat)
  | [], _, _ => []
  | resp :: rest, rt, insertIndex =>
    insertionsOfEntries L busOwnerEid eid physAddr resp
        (byteAt resp L.offsetof_number_of_entries)
        { rt := rt, insertIndex := insertIndex, entryOffset := L.sizeof_resp_get_routing_table } ++
    insertionsOfResponses L busOwnerEid eid physAddr rest
      (readRoutingTableResp L busOwnerEid eid physAddr resp rt insertIndex).rt
      (readRoutingTableResp L busOwnerEid eid physAddr resp rt insertIndex).insertIndex

/-- The insertions of one call of `readRoutingTable`. -/
def insertionsOfRead (L : Libmctp) (busOwnerEid : Nat) (net : Nat → Option (List Nat))
    (rt : List routingTableEntry_t) (requests eid physAddr : Nat) (entryIndex : Int) :
    List (Nat × Nat) :=
  insertionsOfResponses L busOwnerEid eid physAddr (responsesRead L net requests) rt
    (entryIndex + 1).toNat

/-- The insertions of the calls the loop of `processBridgeEntries` makes over the
entries of `rt` that remain. -/
def insertionsOfPassLoop (L : Libmctp) (busOwnerEid : Nat) (net : Nat → Option (List Nat)) :
    List routingTableEntry_t → Nat → WalkState → List (Nat × Nat)
  | [], _, _ => []
  | entry :: rest, entryIndex, s =>
    if !isEntryBridge L entry || isBridgeCalled entry s.calledBridges then
      insertionsOfPassLoop L busOwnerEid net rest (entryIndex + 1) s
    else
      let r := readRoutingTable L busOwnerEid net s.rt s.calledBridges s.requests
        entry.1 entry.2.1 (entryIndex : Int)
      insertionsOfRead L busOwnerEid net s.rt s.requests entry.1 entry.2.1 (entryIndex : Int) ++
        insertionsOfPassLoop L busOwnerEid net rest (entryIndex + 1)
          { rt := r.rt, calledBridges := r.calledBridges, requests := r.requests }

/-- The insertions of the first `fuel` passes of the bridge loop. -/
def insertionsOfWhile (L : Libmctp) (busOwnerEid : Nat) (net : Nat → Option (List Nat)) :
    Nat → WalkState → List (Nat × Nat)
  | 0, _ => []
  | fuel + 1, s =>
    if allBridgesCalled L s.rt s.calledBridges then []
    else
      insertionsOfPassLoop L busOwnerEid net s.rt 0 s ++
        insertionsOfWhile L busOwnerEid net fuel (processBridgeEntries L busOwnerEid net s)

/-- The insertions of the walk of a routing refresh: those of the read from the bus owner
and those of the first `fuel` passes of the bridge loop. -/
def insertionsOfWalk (L : Libmctp) (b : PCIeBinding) (net : Nat → Option (List Nat))
    (fuel : Nat) : List (Nat × Nat) :=
  let r := readRoutingTable L b.busOwnerEid net [] [] 0 b.busOwnerEid b.busOwnerBdf (-1)
  insertionsOfRead L b.busOwnerEid net [] 0 b.busOwnerEid b.busOwnerBdf (-1) ++
    insertionsOfWhile L b.busOwnerEid net fuel
      { rt := r.rt, calledBridges := r.calledBridges, requests := r.requests }

/-! ## The measure of the bridge loop -/

/-- Every entry of a routing table has an 8-bit EID and a 16-bit physical address. -/
def TableInRange (rt : List routingTableEntry_t) : Prop :=
  ∀ entry ∈ rt, entry.1 < 256 ∧ entry.2.1 < 65536

/-- The pairs of a finite set `pairs` that are not among the called bridges. When `pairs`
holds every pair of an 8-bit EID and a 16-bit physical address, these are the bridges a
pass of the bridge loop may still query. -/
def uncalledPairs (pairs : Finset (Nat × Nat)) (calledBridges : List calledBridgeEntry_t) :
    Finset (Nat × Nat) :=
  pairs \ calledBridges.toFinset

/-! ## `utils/Configuration.cpp` -/

/-- The type `ConfigurationField`: the variant of a `bool`, a `uint64_t`, a string, a
vector of `uint64_t` and a vector of strings. -/
inductive ConfigurationField where
  | bool (value : Bool)
  | uint64_t (value : Nat)
  | string (value : String)
  | vector_uint64_t (value : List Nat)
  | vector_string (value : List String)
  deriving DecidableEq, Repr

/-- The type `ConfigurationMap`: the value the unordered map holds for a key, if any. -/
abbrev ConfigurationMap := String → Option ConfigurationField

/-- Embeds `getField<bool>` on a `ConfigurationMap`: the value it stores, `none` when it
returns false. -/
def getField_bool (configuration : ConfigurationMap) (fieldName : String) : Option Bool :=
  match configuration fieldName with
  | some (ConfigurationField.bool value) => some value
  | _ => none

/-- Embeds `getField<uint64_t>` on a `ConfigurationMap`; a `uint64_t` is read modulo
`2 ^ 64`. -/
def getField_uint64_t (configuration : ConfigurationMap) (fieldName : String) : Option Nat :=
  match configuration fieldName with
  | some (ConfigurationField.uint64_t value) => some (value % 2 ^ 64)
  | _ => none

/-- Embeds `getField<std::string>` on a `ConfigurationMap`. -/
def getField_string (configuration : ConfigurationMap) (fieldName : String) : Option String :=
  match configuration fieldName with
  | some (ConfigurationField.string value) => some value
  | _ => none

/-- Embeds `getField<std::vector<uint64_t>>` on a `ConfigurationMap`. -/
def getField_vector_uint64_t (configuration : ConfigurationMap) (fieldName : String) :
    Option (List Nat) :=
  match configuration fieldName with
  | some (ConfigurationField.vector_uint64_t value) => some (value.map fun v => v % 2 ^ 64)
  | _ => none

/-- Embeds `getField<std::vector<std::string>>` on a `ConfigurationMap`. -/
def getField_vector_string (configuration : ConfigurationMap) (fieldName : String) :
    Option (List String) :=
  match configuration fieldName with
  | some (ConfigurationField.vector_string value) => some value
  | _ => none

/-- The pattern `getField(map, first, value) || getField(map, second, value)`: the value
of the first field that is found. -/
def getFieldEither {α : Type} (first second : Option α) : Option α :=
  match first with
  | some value => some value
  | none => second

/-- The table `stringToBindingModeMap`: the value for a key, if any. -/
def stringToBindingModeMap (role : String) : Option BindingModeTypes :=
  if role = "busowner" ∨ role = "BusOwner" then some BindingModeTypes.BusOwner
  else if role = "endpoint" ∨ role = "Endpoint" then some BindingModeTypes.Endpoint
  else if role = "bridge" ∨ role = "Bridge" then some BindingModeTypes.Bridge
  else none

/-- The keys of the table `stringToMediumID`. The enumeration
`MctpPhysicalMediumIdentifiers` is generated code that is not among the sources; a value
of it is known here by the key that maps to it. -/
def stringToMediumIDKeys : List String :=
  ["Smbus", "SmbusI2c", "I2cCompatible", "Smbus3OrI2c400khzCompatible",
    "Smbus3OrI2c1MhzCompatible", "I2c3Mhz4Compatible", "Pcie11", "Pcie2", "Pcie21", "Pcie3",
    "Pcie4", "Pcie5", "PciCompatible", "Usb11Compatible", "Usb20Compatible",
    "Usb30Compatible", "NcSiOverRbt", "KcsLegacy", "KcsPci", "SerialHostLegacy",
    "SerialHostPci", "AsynchronousSerial", "I3cSDR", "I3cHDRDDR"]

/-- The table `stringToMediumID`: the value for a key, if any. -/
def stringToMediumID (physicalMediumID : String) : Option String :=
  if physicalMediumID ∈ stringToMediumIDKeys then some physicalMediumID else none

/-- The exception `std::out_of_range` that `at` throws for a key the table lacks. -/
inductive Exception where
  | out_of_range
  deriving DecidableEq, Repr

/-- The members of `SMBusConfiguration` that `getSMBusConfiguration` assigns. A
`std::set` is a finite set. `routingIntervalSec` is `none` where the function leaves the
member as the constructor has initialised it. -/
structure SMBusConfiguration where
  mediumId : String
  mode : BindingModeTypes
  defaultEid : Nat
  eidPool : Finset Nat
  supportedEndpointSlaveAddress : Finset Nat
  bus : String
  arpMasterSupport : Bool
  bmcSlaveAddr : Nat
  reqToRespTime : Nat
  reqRetryCount : Nat
  scanInterval : Nat
  allowedBuses : Finset String
  routingIntervalSec : Option Nat
  deriving DecidableEq

/-- Embeds `getAllowedBuses` on a `ConfigurationMap`. -/
def getAllowedBuses (map : ConfigurationMap) : Finset String :=
  match getField_vector_string map "AllowedBuses" with
  | some allowedBuses => allowedBuses.toFinset
  | none => ∅

/-- The values of the fields `getSMBusConfiguration` returns `std::nullopt` without. -/
structure RequiredFields where
  physicalMediumID : String
  role : String
  defaultEID : Nat
  bus : String
  arpOwnerSupport : Bool
  bmcReceiverAddress : Nat
  reqToRespTimeMs : Nat
  reqRetryCount : Nat
  deriving DecidableEq, Repr

/-- The first seven `if` statements of `getSMBusConfiguration`: `none` where one of them
returns `std::nullopt`, else the values read. -/
def requiredFields (map : ConfigurationMap) : Option RequiredFields :=
  match getField_string map "PhysicalMediumID" with
  | none => none
  | some physicalMediumID =>
  match getFieldEither (getField_string map "Role") (getField_string map "role") with
  | none => none
  | some role =>
  match getFieldEither (getField_uint64_t map "DefaultEID")
      (getField_uint64_t map "default-eid") with
  | none => none
  | some defaultEID =>
  match getFieldEither (getField_string map "Bus") (getField_string map "bus") with
  | none => none
  | some bus =>
  match getFieldEither (getField_bool map "ARPOwnerSupport")
      (getField_bool map "ARPMasterSupport") with
  | none => none
  | some arpOwnerSupport =>
  match getFieldEither (getField_uint64_t map "BMCReceiverAddress")
      (getField_uint64_t map "BMCSlaveAddress") with
  | none => none
  | some bmcReceiverAddress =>
  match getField_uint64_t map "ReqToRespTimeMs", getField_uint64_t map "ReqRetryCount" with
  | some reqToRespTimeMs, some reqRetryCount =>
    some
      { physicalMediumID := physicalMediumID, role := role, defaultEID := defaultEID,
        bus := bus, arpOwnerSupport := arpOwnerSupport,
        bmcReceiverAddress := bmcReceiverAddress, reqToRespTimeMs := reqToRespTimeMs,
        reqRetryCount := reqRetryCount }
  | _, _ => none

/-- Embeds `getSMBusConfiguration` on a `ConfigurationMap`: the exception it throws or
the value it returns. The type of the member `scanInterval` is declared in
`Configuration.hpp`, which is not among the sources: it is an unsigned type of
`scanIntervalBits` bits. An `unsigned int` has 32 bits. -/
def getSMBusConfiguration (scanIntervalBits : Nat) (map : ConfigurationMap) :
    Except Exception (Option SMBusConfiguration) :=
  match requiredFields map with
  | none => Except.ok none
  | some fields =>
    let scanInterval :=
      match getField_uint64_t map "ScanInterval" with
      | some scanInterval => if scanInterval = 0 then 600 else scanInterval
      | none => 600
    match stringToBindingModeMap fields.role with
    | none => Except.error Exception.out_of_range
    | some mode =>
      let getRoutingInterval :=
        if mode ≠ BindingModeTypes.BusOwner then
          match getField_uint64_t map "GetRoutingInterval" with
          | some getRoutingInterval => getRoutingInterval
          | none => 5
        else 0
      let eidPool :=
        if mode = BindingModeTypes.BusOwner then
          getFieldEither (getField_vector_uint64_t map "EIDPool")
            (getField_vector_uint64_t map "eid-pool")
        else some []
      match eidPool with
      | none => Except.ok none
      | some eidPool =>
        let supportedEndpointSlaveAddress :=
          match getField_vector_uint64_t map "SupportedEndpointSlaveAddress" with
          | some supportedEndpointSlaveAddress => supportedEndpointSlaveAddress
          | none => List.range' 0x08 (0x78 - 0x08)
        let ignoredEndpintSlaveAddress :=
          match getField_vector_uint64_t map "IgnoredEndpointSlaveAddress" with
          | some ignoredEndpintSlaveAddress => ignoredEndpintSlaveAddress
          | none => []
        let endpointSlaveAddress : Finset Nat :=
          (supportedEndpointSlaveAddress.map fun it => it % 256).toFinset
        let endpointSlaveAddress :=
          ignoredEndpintSlaveAddress.foldl (fun s it => s.erase (it % 256)) endpointSlaveAddress
        match stringToMediumID fields.physicalMediumID with
        | none => Except.error Exception.out_of_range
        | some mediumId =>
          Except.ok (some
            { mediumId := mediumId
              mode := mode
              defaultEid := fields.defaultEID % 256
              eidPool :=
                if mode = BindingModeTypes.BusOwner then
                  (eidPool.map fun eid => eid % 256).toFinset
                else ∅
              supportedEndpointSlaveAddress := endpointSlaveAddress
              bus := fields.bus
              arpMasterSupport := fields.arpOwnerSupport
              bmcSlaveAddr := fields.bmcReceiverAddress % 256
              reqToRespTime := fields.reqToRespTimeMs % 2 ^ 32
              reqRetryCount := fields.reqRetryCount % 256
              scanInterval := scanInterval % 2 ^ scanIntervalBits
              allowedBuses := getAllowedBuses map
              routingIntervalSec :=
                if mode ≠ BindingModeTypes.BusOwner then some (getRoutingInterval % 256)
                else none })

/-! ## Example inputs -/

/-- An endpoint binding after discovery: bus owner EID `0x08` at BDF `0xBEEF`, own EID
`0x99`, nothing stored yet. -/
def exampleBinding : PCIeBinding :=
  { bindingModeType := BindingModeTypes.Endpoint, discoveredFlag := DiscoveryFlags.Discovered,
    bdf := 0x1234, busOwnerBdf := 0xBEEF, busOwnerEid := 0x08, ownEid := 0x99,
    routingTable := [] }

/-- A routing table entry with the layout of `libmctp`: the six fields of the struct
(the medium type is 0) and the bytes of the physical address. -/
def exampleEntry (eid_range_size starting_eid entry_type phys_transport_binding_id : Nat)
    (addr : List Nat) : WireEntry :=
  { raw := [eid_range_size, starting_eid, entry_type, phys_transport_binding_id, 0, addr.length]
    addr := addr }

/-- A response with the layout of `libmctp`: control header, completion code, next entry
handle, number of entries, and the entries. -/
def exampleResponse (next_entry_handle : Nat) (entries : List WireEntry) : WireResponse :=
  { hdr := [0, 0, 0, 0, next_entry_handle, entries.length], entries := entries }

/-- A response of the bus owner: a PCIe endpoint, an SMBus entry, a PCIe entry with the
role BridgeAndEndpoints and a PCIe entry with the role Endpoints. -/
def exampleBusOwnerResponse : WireResponse :=
  exampleResponse 0xff
    [exampleEntry 1 0x10 0x00 0x02 [0xA1, 0xB2], exampleEntry 1 0x11 0x00 0x01 [0x33],
     exampleEntry 4 0x12 0x45 0x02 [0x01, 0x02], exampleEntry 4 0x20 0xC0 0x02 [0x03, 0x04]]

/-- The bus owner answers every request with `exampleBusOwnerResponse`. -/
def exampleBusOwnerNet : Nat → Option (List Nat) :=
  fun _ => some exampleBusOwnerResponse.bytes

/-- A response of a bridge: a new endpoint, the same EID again, an EID that is in the
table already, an EID range of size 2, an SMBus entry, and one more new endpoint. -/
def exampleBridgeResponse : WireResponse :=
  exampleResponse 0xff
    [exampleEntry 1 0x21 0x00 0x02 [0xB0, 0x01], exampleEntry 1 0x21 0x00 0x02 [0xB0, 0x01],
     exampleEntry 1 0x30 0x00 0x02 [0xB0, 0x02], exampleEntry 2 0x40 0x00 0x02 [0xB0, 0x03],
     exampleEntry 1 0x23 0x00 0x01 [0x44], exampleEntry 1 0x22 0x00 0x02 [0xB0, 0x04]]

/-- The bridge answers every request with `exampleBridgeResponse`. -/
def exampleBridgeNet : Nat → Option (List Nat) :=
  fun _ => some exampleBridgeResponse.bytes

/-- A bus owner that reports the bridges `0x20` (BDF `0xB000`) and `0x30` (BDF `0xC000`),
the bridge `0x20` that reports the endpoints `0x21` and `0x22`, and the bridge `0x30` that
reports the endpoint `0x31`: the outcomes of the three requests of a refresh. -/
def twoBridgesNet : Nat → Option (List Nat)
  | 0 => some (exampleResponse 0xff
      [exampleEntry 1 0x20 0x80 0x02 [0xB0, 0x00], exampleEntry 1 0x30 0x80 0x02 [0xC0, 0x00]]).bytes
  | 1 => some (exampleResponse 0xff
      [exampleEntry 1 0x21 0x00 0x02 [0xB0, 0x01], exampleEntry 1 0x22 0x00 0x02 [0xB0, 0x02]]).bytes
  | 2 => some (exampleResponse 0xff [exampleEntry 1 0x31 0x00 0x02 [0xC0, 0x01]]).bytes
  | _ => none

/-- A bus owner that reports the EID `0x10` twice, at the BDFs `0x0001` and `0x0002`. -/
def duplicateEidNet : Nat → Option (List Nat) :=
  fun _ => some (exampleResponse 0xff
    [exampleEntry 1 0x10 0x00 0x02 [0x00, 0x01], exampleEntry 1 0x10 0x00 0x02 [0x00, 0x02]]).bytes

/-- A bus owner binding as the constructor leaves it: BDF `0x1234`, no bus owner BDF
recorded. -/
def exampleBusOwner : PCIeBinding :=
  PCIeBinding.construct
    { bindingModeType := BindingModeTypes.BusOwner, discoveredFlag := DiscoveryFlags.Undiscovered,
      bdf := 0, busOwnerBdf := 0, busOwnerEid := 0, ownEid := 0x08, routingTable := [] }
    0x1234

/-- An SMBus binding without a reservation: the root bus is the descriptor 3, the
descriptor 5 is a mux leaf of the bus 7, the EID `0x10` is behind the mux leaf and the
EID `0x11` on the root bus. -/
def exampleSMBus : SMBusBinding :=
  { rsvBWActive := false, reservedEID := 0, ret := 0,
    smbusDeviceTable :=
      [(0x10, { fd := 5, mux_hold_timeout := 0, mux_flags := 0, slave_addr := 0x60 }),
       (0x11, { fd := 3, mux_hold_timeout := 0, mux_flags := 0, slave_addr := 0x62 })],
    muxPortMap := [(5, 7)], reserveBWTimerWaits := [], readyHandlers := [], calls := [],
    outFd := 3, rootDeviceMap := [(3, 0x31)], supportedEndpointSlaveAddress := [0x30, 0x31],
    discoveredFlag := DiscoveryFlags.Undiscovered, busOwnerFd := 0, busOwnerSlaveAddr := 0,
    busOwnerEid := 0, ownEid := 0x09, routingTasks := [] }

/-- The binding-private `getBindingPrivateData` returns for the EID `0x10` of
`exampleSMBus`. -/
def examplePrvt : mctp_smbus_pkt_private :=
  { fd := 5, mux_hold_timeout := 1000, mux_flags := IS_MUX_PORT, slave_addr := 0x60 }

/-- The binding `exampleSMBus` with a reservation for the EID `0x10` and its timer
armed. -/
def exampleReserved : SMBusBinding :=
  { exampleSMBus with
    rsvBWActive := true, reservedEID := 0x10, reserveBWTimerWaits := [examplePrvt] }

/-- The binding of the SMBus mux probe scenario after the scan of the root bus: the root
bus is the descriptor 4, the descriptor 6 is a mux leaf, the supported addresses are
`0x30`, `0x50` and `0x61`, and the root bus has the device `0x50`. -/
def exampleScan : SMBusBinding :=
  { exampleSMBus with
    outFd := 4, muxPortMap := [(6, 3)], rootDeviceMap := [(4, 0x50)],
    supportedEndpointSlaveAddress := [0x30, 0x50, 0x61] }

/-- The probes of the SMBus mux probe scenario: on the root bus only `0x50` answers; on
the mux leaf `0x30` and `0x50` answer the read of a byte and `0x61` the quick write. -/
def exampleProbe : Int → Nat → ProbeOutcome := fun fd it =>
  if fd = 4 then
    { ioctl := 0, i2c_smbus_read_byte := if it = 0x50 then 0 else -1,
      i2c_smbus_write_quick := -1 }
  else
    { ioctl := 0, i2c_smbus_read_byte := if it = 0x30 ∨ it = 0x50 then 0 else -1,
      i2c_smbus_write_quick := if it = 0x61 then 0 else -1 }

/-- A response of an SMBus bus owner: an SMBus entry with a range of two EIDs, a PCIe
entry, an SMBus entry whose physical address has two bytes, and an SMBus entry with one
EID. -/
def exampleSMBusResponse : WireResponse :=
  exampleResponse 0xff
    [exampleEntry 2 0x20 0x00 0x01 [0x31], exampleEntry 1 0x30 0x00 0x02 [0xA1, 0xB2],
     exampleEntry 1 0x40 0x00 0x01 [0x10, 0x11], exampleEntry 1 0x50 0x00 0x01 [0x32]]

/-- A PCIe bus owner that reports an endpoint with the EID `0x00` at the BDF `0x0100` and
an endpoint with the EID `0xFF` at the BDF `0x0200`. -/
def reservedEidNet : Nat → Option (List Nat) :=
  fun _ => some (exampleResponse 0xff
    [exampleEntry 1 0x00 0x00 0x02 [0x01, 0x00], exampleEntry 1 0xFF 0x00 0x02 [0x02, 0x00]]).bytes

/-- An SMBus bus owner that reports an endpoint with the EID `0x00` and an endpoint with
the EID `0xFF`. -/
def reservedEidSMBusNet : Nat → Option (List Nat) :=
  fun _ => some (exampleResponse 0xff
    [exampleEntry 1 0x00 0x00 0x01 [0x31], exampleEntry 1 0xFF 0x00 0x01 [0x32]]).bytes

/-- The routing interval of the configuration `getSMBusConfiguration` has returned, if it
has returned one and has assigned the member. -/
def routingIntervalOf (r : Except Exception (Option SMBusConfiguration)) : Option Nat :=
  match r with
  | Except.ok (some config) => config.routingIntervalSec
  | _ => none

/-- The scan interval of the configuration `getSMBusConfiguration` has returned, if it
has returned one. -/
def scanIntervalOf (r : Except Exception (Option SMBusConfiguration)) : Option Nat :=
  match r with
  | Except.ok (some config) => some config.scanInterval
  | _ => none

/-- A configuration of an SMBus endpoint with all required fields, a routing interval of
300 seconds and no scan interval. -/
def exampleConfigurationMap : ConfigurationMap := fun fieldName =>
  List.lookup fieldName
    [("PhysicalMediumID", ConfigurationField.string "Smbus"),
     ("Role", ConfigurationField.string "Endpoint"),
     ("DefaultEID", ConfigurationField.uint64_t 0x09),
     ("Bus", ConfigurationField.string "/dev/i2c-2"),
     ("ARPMasterSupport", ConfigurationField.bool false),
     ("BMCSlaveAddress", ConfigurationField.uint64_t 0x20),
     ("ReqToRespTimeMs", ConfigurationField.uint64_t 100),
     ("ReqRetryCount", ConfigurationField.uint64_t 2),
     ("GetRoutingInterval", ConfigurationField.uint64_t 300)]

/-- An SMBus bus owner that reports the EID `0x10` twice, at the slave addresses `0x31`
and `0x32`. -/
def duplicateEidSMBusNet : Nat → Option (List Nat) :=
  fun _ => some (exampleResponse 0xff
    [exampleEntry 1 0x10 0x00 0x01 [0x31], exampleEntry 1 0x10 0x00 0x01 [0x32]]).bytes

/-! ## The `while` loop of `readRoutingTable` -/

theorem isEndOfGetRoutingTableResp_true {entryHandle responseCount : Nat}
    (h : entryHandle = 0xff ∨ responseCount = 0xff) :
    isEndOfGetRoutingTableResp entryHandle responseCount = (true, responseCount) := by
  simp [isEndOfGetRoutingTableResp, h]

theorem isEndOfGetRoutingTableResp_false {entryHandle responseCount : Nat}
    (h : ¬ (entryHandle = 0xff ∨ responseCount = 0xff)) :
    isEndOfGetRoutingTableResp entryHandle responseCount =
      (false, (responseCount + 1) % 256) := by
  simp [isEndOfGetRoutingTableResp, h]

/-- The `while` loop of `readRoutingTable`, unfolded once. -/
theorem readRoutingTableLoop_unfold (L : Libmctp) (busOwnerEid eid physAddr : Nat)
    (net : Nat → Option (List Nat)) (entryHandle responseCount : Nat) (s : ReadState) :
    readRoutingTableLoop L busOwnerEid eid physAddr net entryHandle responseCount s =
      if entryHandle = 0xff ∨ responseCount = 0xff then s
      else
        match net s.requests with
        | none =>
          { s with calledBridges := s.calledBridges ++ [(eid, physAddr)],
                   requests := s.requests + 1 }
        | some resp =>
          readRoutingTableLoop L busOwnerEid eid physAddr net
            (byteAt resp L.offsetof_next_entry_handle) ((responseCount + 1) % 256)
            { rt := (readRoutingTableResp L busOwnerEid eid physAddr resp s.rt s.insertIndex).rt,
              calledBridges := s.calledBridges ++ [(eid, physAddr)],
              insertIndex :=
                (readRoutingTableResp L busOwnerEid eid physAddr resp s.rt s.insertIndex).insertIndex,
              requests := s.requests + 1 } := by
  rw [readRoutingTableLoop]
  by_cases h : entryHandle = 0xff ∨ responseCount = 0xff
  · rw [if_pos h]
    split
    · rfl
    · rename_i h2; rw [isEndOfGetRoutingTableResp_true h] at h2; simp at h2
  · rw [if_neg h]
    split
    · rename_i h2; rw [isEndOfGetRoutingTableResp_false h] at h2; simp at h2
    · rename_i c h2
      rw [isEndOfGetRoutingTableResp_false h] at h2
      simp only [Prod.mk.injEq, true_and] at h2
      subst h2
      rfl

/-- The list of responses received, unfolded once. -/
theorem responsesReadLoop_unfold (L : Libmctp) (net : Nat → Option (List Nat))
    (entryHandle responseCount requests : Nat) :
    responsesReadLoop L net entryHandle responseCount requests =
      if entryHandle = 0xff ∨ responseCount = 0xff then []
      else
        match net requests with
        | none => []
        | some resp =>
          resp :: responsesReadLoop L net (byteAt resp L.offsetof_next_entry_handle)
            ((responseCount + 1) % 256) (requests + 1) := by
  rw [responsesReadLoop]
  by_cases h : entryHandle = 0xff ∨ responseCount = 0xff
  · rw [if_pos h]
    split
    · rfl
    · rename_i h2; rw [isEndOfGetRoutingTableResp_true h] at h2; simp at h2
  · rw [if_neg h]
    split
    · rename_i h2; rw [isEndOfGetRoutingTableResp_false h] at h2; simp at h2
    · rename_i c h2
      rw [isEndOfGetRoutingTableResp_false h] at h2
      simp only [Prod.mk.injEq, true_and] at h2
      subst h2
      rfl

/-- The requests one run of the `while` loop issues: their number is bounded by what is
left of the response counter, every request but the last was answered with a next entry
handle other than `0xFF`, and the loop ends on the counter, on the handle `0xFF` or on a
failed request. -/
theorem readRoutingTableLoop_requests (L : Libmctp) (busOwnerEid eid physAddr : Nat)
    (net : Nat → Option (List Nat)) :
    ∀ (n entryHandle responseCount : Nat) (s : ReadState), responseCount + n = 255 →
      let r := readRoutingTableLoop L busOwnerEid eid physAddr net entryHandle responseCount s
      s.requests ≤ r.requests ∧ r.requests ≤ s.requests + n ∧
      (∀ k, s.requests ≤ k → k + 1 < r.requests →
        ∃ resp, net k = some resp ∧ byteAt resp L.offsetof_next_entry_handle ≠ 0xff) ∧
      (r.requests = s.requests + n ∨ (entryHandle = 0xff ∧ r.requests = s.requests) ∨
        (s.requests < r.requests ∧ (net (r.requests - 1) = none ∨
          ∃ resp, net (r.requests - 1) = some resp ∧
            byteAt resp L.offsetof_next_entry_handle = 0xff))) := by
  intro n
  induction n with
  | zero =>
    intro entryHandle responseCount s h
    rw [readRoutingTableLoop_unfold, if_pos (Or.inr (by omega))]
    refine ⟨le_refl _, le_refl _, ?_, Or.inl rfl⟩
    intro k h1 h2; omega
  | succ n ih =>
    intro entryHandle responseCount s h
    rw [readRoutingTableLoop_unfold]
    split_ifs with hEnd
    · rcases hEnd with hEnd | hEnd
      · refine ⟨le_refl _, by omega, ?_, Or.inr (Or.inl ⟨hEnd, rfl⟩)⟩
        intro k h1 h2; omega
      · omega
    · cases hnet : net s.requests with
      | none =>
        refine ⟨by simp, by simp, ?_, Or.inr (Or.inr ⟨by simp, Or.inl (by simpa using hnet)⟩)⟩
        intro k h1 h2; simp at h2; omega
      | some resp =>
        simp only
        have hc : (responseCount + 1) % 256 = responseCount + 1 :=
          Nat.mod_eq_of_lt (by omega)
        rw [hc]
        by_cases hff : byteAt resp L.offsetof_next_entry_handle = 0xff
        · rw [readRoutingTableLoop_unfold, if_pos (Or.inl hff)]
          simp only
          refine ⟨by omega, by omega, ?_, Or.inr (Or.inr ⟨by omega, Or.inr ?_⟩)⟩
          · intro k h1 h2; omega
          · exact ⟨resp, by simpa using hnet, hff⟩
        · obtain ⟨h1, h2, h3, h4⟩ := ih (byteAt resp L.offsetof_next_entry_handle)
            (responseCount + 1)
            { rt := (readRoutingTableResp L busOwnerEid eid physAddr resp s.rt s.insertIndex).rt,
              calledBridges := s.calledBridges ++ [(eid, physAddr)],
              insertIndex :=
                (readRoutingTableResp L busOwnerEid eid physAddr resp s.rt s.insertIndex).insertIndex,
              requests := s.requests + 1 } (by omega)
          dsimp only at h1 h2 h3 h4
          refine ⟨by omega, by omega, ?_, ?_⟩
          · intro k hk1 hk2
            by_cases hk : k = s.requests
            · subst hk
              exact ⟨resp, hnet, hff⟩
            · exact h3 k (by omega) hk2
          · rcases h4 with h4 | h4 | h4
            · left; omega
            · exact absurd h4.1 hff
            · right; right
              exact ⟨by omega, h4.2⟩

/-- The table and the insertion index the `while` loop leaves are those of the `for`
loops over the responses it receives. -/
theorem readRoutingTableLoop_responses (L : Libmctp) (busOwnerEid eid physAddr : Nat)
    (net : Nat → Option (List Nat)) :
    ∀ (n entryHandle responseCount : Nat) (s : ReadState), responseCount + n = 255 →
      let r := readRoutingTableLoop L busOwnerEid eid physAddr net entryHandle responseCount s
      (r.rt, r.insertIndex) =
        readRoutingTableResponses L busOwnerEid eid physAddr
          (responsesReadLoop L net entryHandle responseCount s.requests) s.rt s.insertIndex := by
  intro n
  induction n with
  | zero =>
    intro entryHandle responseCount s h
    rw [readRoutingTableLoop_unfold, responsesReadLoop_unfold, if_pos (Or.inr (by omega)),
      if_pos (Or.inr (by omega))]
    rfl
  | succ n ih =>
    intro entryHandle responseCount s h
    rw [readRoutingTableLoop_unfold, responsesReadLoop_unfold]
    split_ifs with hEnd
    · rfl
    · cases hnet : net s.requests with
      | none => rfl
      | some resp =>
        have hc : (responseCount + 1) % 256 = responseCount + 1 :=
          Nat.mod_eq_of_lt (by omega)
        simp only [hc]
        exact ih (byteAt resp L.offsetof_next_entry_handle) (responseCount + 1)
          { rt := (readRoutingTableResp L busOwnerEid eid physAddr resp s.rt s.insertIndex).rt,
            calledBridges := s.calledBridges ++ [(eid, physAddr)],
            insertIndex :=
              (readRoutingTableResp L busOwnerEid eid physAddr resp s.rt s.insertIndex).insertIndex,
            requests := s.requests + 1 } (by omega)

/-- The table `readRoutingTable` leaves is that of the `for` loops over the responses
the call receives. -/
theorem readRoutingTable_responses (L : Libmctp) (busOwnerEid : Nat)
    (net : Nat → Option (List Nat)) (rt : List routingTableEntry_t)
    (calledBridges : List calledBridgeEntry_t) (requests eid physAddr : Nat) (entryIndex : Int) :
    (readRoutingTable L busOwnerEid net rt calledBridges requests eid physAddr entryIndex).rt =
      (readRoutingTableResponses L busOwnerEid eid physAddr (responsesRead L net requests) rt
        (entryIndex + 1).toNat).1 := by
  have h := readRoutingTableLoop_responses L busOwnerEid eid physAddr net 255 0x00 0
    { rt := rt, calledBridges := calledBridges, insertIndex := (entryIndex + 1).toNat,
      requests := requests } (by norm_num)
  simp only at h
  unfold readRoutingTable responsesRead
  rw [← h]

/-- C7. One call of `PCIeBinding::readRoutingTable` issues at most 255 Get Routing Table
requests, whatever the responses are. `isEndOfGetRoutingTableResp` returns true exactly
when the entry handle or the response counter is `0xFF`, leaves the counter as it is
then, and increments it by one otherwise. Every request of the call but the last was
answered with a next entry handle other than `0xFF`, and the call ends after 255
requests, after a failed request, or after a response whose next entry handle is
`0xFF`. -/
theorem readRoutingTable_at_most_255_requests (L : Libmctp) (busOwnerEid : Nat)
    (net : Nat → Option (List Nat)) (rt : List routingTableEntry_t)
    (calledBridges : List calledBridgeEntry_t) (requests eid physAddr : Nat) (entryIndex : Int) :
    let r := readRoutingTable L busOwnerEid net rt calledBridges requests eid physAddr entryIndex
    (requests ≤ r.requests ∧ r.requests ≤ requests + 255) ∧
    (∀ entryHandle responseCount : Nat,
      ((isEndOfGetRoutingTableResp entryHandle responseCount).1 = true ↔
        (entryHandle = 0xff ∨ responseCount = 0xff)) ∧
      ((isEndOfGetRoutingTableResp entryHandle responseCount).1 = true →
        (isEndOfGetRoutingTableResp entryHandle responseCount).2 = responseCount) ∧
      ((isEndOfGetRoutingTableResp entryHandle responseCount).1 = false →
        responseCount < 256 →
        (isEndOfGetRoutingTableResp entryHandle responseCount).2 = responseCount + 1)) ∧
    (∀ k, requests ≤ k → k + 1 < r.requests →
      ∃ resp, net k = some resp ∧ byteAt resp L.offsetof_next_entry_handle ≠ 0xff) ∧
    (r.requests = requests + 255 ∨
      (requests < r.requests ∧ (net (r.requests - 1) = none ∨
        ∃ resp, net (r.requests - 1) = some resp ∧
          byteAt resp L.offsetof_next_entry_handle = 0xff))) := by
  have h := readRoutingTableLoop_requests L busOwnerEid eid physAddr net 255 0x00 0
    { rt := rt, calledBridges := calledBridges, insertIndex := (entryIndex + 1).toNat,
      requests := requests } (by norm_num)
  obtain ⟨h1, h2, h3, h4⟩ := h
  refine ⟨⟨h1, h2⟩, ?_, h3, ?_⟩
  · intro entryHandle responseCount
    by_cases hEnd : entryHandle = 0xff ∨ responseCount = 0xff
    · rw [isEndOfGetRoutingTableResp_true hEnd]
      simp [hEnd]
    · rw [isEndOfGetRoutingTableResp_false hEnd]
      refine ⟨by simp [hEnd], by simp, ?_⟩
      intro _ hlt
      have : responseCount ≠ 255 := fun hc => hEnd (Or.inr hc)
      exact Nat.mod_eq_of_lt (by omega)
  · rcases h4 with h4 | h4 | h4
    · exact Or.inl h4
    · exact absurd h4.1 (by norm_num)
    · exact Or.inr h4

/-! ## The SMBus walk -/

/-- A bus owner that answers every request with an empty table whose next entry handle
is `0x00` keeps the `while` loop of the SMBus walk running: after any number of
iterations the loop condition still holds. -/
theorem smbusRoutingWalkLoop_never_ends (fd : Int) :
    ∀ (fuel requests : Nat),
      smbusRoutingWalkLoop libmctp fd (fun _ => some [0, 0, 0, 0, 0, 0]) fuel
        { smbusDeviceTableTmp := [], entryHandle := 0, entryHdlCounter := 0,
          requests := requests } =
      SMBusWalk.running
        { smbusDeviceTableTmp := [], entryHandle := 0, entryHdlCounter := 0,
          requests := requests + fuel } := by
  intro fuel
  induction fuel with
  | zero => intro requests; simp [smbusRoutingWalkLoop]
  | succ fuel ih =>
    intro requests
    have h := ih (requests + 1)
    simp only [smbusRoutingWalkLoop, byteAt, libmctp, smbusRoutingTableEntries] at h ⊢
    simp at h ⊢
    rw [h]
    simp; omega

/-- C8. The SMBus walk does not stop on its response counter: `entryHdlCounter` is
incremented after the `while` loop, not in it. Against a bus owner that answers every
request with an empty table and next entry handle `0x00`, the walk is still in its loop
after any number `fuel` of iterations and has issued `fuel` requests by then, more than
255 for `fuel = 256`. -/
theorem smbusRoutingWalk_never_ends (fd : Int) (fuel : Nat) :
    smbusRoutingWalk libmctp fd (fun _ => some [0, 0, 0, 0, 0, 0]) fuel =
      SMBusWalk.running
        { smbusDeviceTableTmp := [], entryHandle := 0, entryHdlCounter := 0,
          requests := fuel } := by
  have h := smbusRoutingWalkLoop_never_ends fd fuel 0
  simpa [smbusRoutingWalk] using h

/-! ## Discovery handlers -/

theorem byteAt_set_resize (v : List Nat) (n i x : Nat) (h : i < n) :
    byteAt ((vectorResize v n).set i x) i = x % 256 := by
  have hlen : (vectorResize v n).length = n := by
    simp [vectorResize]; omega
  simp [byteAt, List.getD_eq_getElem?_getD, List.getElem?_set, hlen, h]

/-- C9. `PCIeBinding::handlePrepareForEndpointDiscovery` returns true exactly when the
role is Endpoint and the routing tag of the frame is BroadcastFromRC. When it returns
true the discovery flag is Undiscovered and nothing else of the binding has changed, the
completion code of the response is success, and the routing tag of the frame is
RouteToRC. When it returns false the binding, the binding-private of the frame and the
response are unchanged. -/
theorem handlePrepareForEndpointDiscovery_spec (L : Libmctp) (hL : L.LayoutOk)
    (b : PCIeBinding) (bindingPrivate : mctp_nupcie_pkt_private) (response : List Nat) :
    let r := handlePrepareForEndpointDiscovery L b bindingPrivate response
    (r.ret = true ↔ b.bindingModeType = BindingModeTypes.Endpoint ∧
        bindingPrivate.routing = L.PCIE_BROADCAST_FROM_RC) ∧
    (r.ret = true →
      r.binding = { b with discoveredFlag := DiscoveryFlags.Undiscovered } ∧
      byteAt r.response L.offsetof_prepare_discovery_cc = L.MCTP_CTRL_CC_SUCCESS % 256 ∧
      r.bindingPrivate =
        { routing := L.PCIE_ROUTE_TO_RC, remote_id := bindingPrivate.remote_id }) ∧
    (r.ret = false → r.binding = b ∧ r.bindingPrivate = bindingPrivate ∧
      r.response = response) := by
  have hcc : L.offsetof_prepare_discovery_cc < L.sizeof_resp_prepare_discovery :=
    hL.2.2.2.2.2.2.2.1
  unfold handlePrepareForEndpointDiscovery
  by_cases h1 : b.bindingModeType = BindingModeTypes.Endpoint
  · by_cases h2 : bindingPrivate.routing = L.PCIE_BROADCAST_FROM_RC
    · simp [h1, h2, changeDiscoveredFlag, byteAt_set_resize _ _ _ _ hcc]
    · simp [h1, h2]
  · simp [h1]

/-- C10. `PCIeBinding::handleEndpointDiscovery` returns true exactly when the discovery
flag is not Discovered and the routing tag of the frame is BroadcastFromRC. When it
returns true `busOwnerBdf` is the `remote_id` of the frame and nothing else of the
binding has changed, the completion code of the response is success, and the routing tag
of the frame is RouteToRC. When it returns false the binding, the binding-private of the
frame and the response are unchanged. -/
theorem handleEndpointDiscovery_spec (L : Libmctp) (hL : L.LayoutOk) (b : PCIeBinding)
    (bindingPrivate : mctp_nupcie_pkt_private) (response : List Nat) :
    let r := handleEndpointDiscovery L b bindingPrivate response
    (r.ret = true ↔ b.discoveredFlag ≠ DiscoveryFlags.Discovered ∧
        bindingPrivate.routing = L.PCIE_BROADCAST_FROM_RC) ∧
    (r.ret = true →
      r.binding = { b with busOwnerBdf := bindingPrivate.remote_id } ∧
      byteAt r.response L.offsetof_endpoint_discovery_cc = L.MCTP_CTRL_CC_SUCCESS % 256 ∧
      r.bindingPrivate =
        { routing := L.PCIE_ROUTE_TO_RC, remote_id := bindingPrivate.remote_id }) ∧
    (r.ret = false → r.binding = b ∧ r.bindingPrivate = bindingPrivate ∧
      r.response = response) := by
  have hcc : L.offsetof_endpoint_discovery_cc < L.sizeof_resp_endpoint_discovery :=
    hL.2.2.2.2.2.2.2.2
  unfold handleEndpointDiscovery
  by_cases h1 : b.discoveredFlag = DiscoveryFlags.Discovered
  · simp [h1]
  · by_cases h2 : bindingPrivate.routing = L.PCIE_BROADCAST_FROM_RC
    · simp [h1, h2, byteAt_set_resize _ _ _ _ hcc]
    · simp [h1, h2]

/-! ## The diff of routing tables -/

theorem findEntry_eq_true_iff (table : List routingTableEntry_t) (x : routingTableEntry_t) :
    findEntry table x = true ↔ x ∈ table := by
  induction table with
  | nil => simp [findEntry]
  | cons e rest ih =>
    by_cases h : e = x
    · simp [findEntry, h]
    · have h' : ¬ x = e := fun hx => h hx.symm
      simp [findEntry, h, h', ih]

theorem findEntry_eq_false_iff (table : List routingTableEntry_t) (x : routingTableEntry_t) :
    findEntry table x = false ↔ x ∉ table := by
  rw [← findEntry_eq_true_iff]; simp

/-- The first loop of the diff unregisters the EID of each stored entry that is not in
the new table. -/
theorem processRemovedEntries_eq (newTable old : List routingTableEntry_t) :
    processRemovedEntries newTable old =
      (old.filter fun e => decide (e ∉ newTable)).map fun e => Event.unregisterEndpoint e.1 := by
  induction old with
  | nil => rfl
  | cons e rest ih =>
    by_cases h : e ∈ newTable
    · have hf : ¬ findEntry newTable e = false := by
        rw [findEntry_eq_false_iff]; exact fun hn => hn h
      simp [processRemovedEntries, hf, h, ih]
    · have hf : findEntry newTable e = false := (findEntry_eq_false_iff _ _).2 h
      simp [processRemovedEntries, hf, h, ih]

/-- The second loop of the diff registers each new entry that is not stored and whose
EID is not `ownEid`. -/
theorem processAddedEntries_eq (L : Libmctp) (b : PCIeBinding)
    (prvData : mctp_nupcie_pkt_private) (newTable : List routingTableEntry_t) :
    processAddedEntries L b prvData newTable =
      (newTable.filter fun e => decide (e ∉ b.routingTable ∧ e.1 ≠ b.ownEid)).map fun e =>
        Event.registerEndpoint { routing := prvData.routing, remote_id := e.2.1 } e.1
          (getBindingMode L b e) := by
  induction newTable with
  | nil => rfl
  | cons e rest ih =>
    by_cases h : e ∈ b.routingTable
    · have hf : ¬ findEntry b.routingTable e = false := by
        rw [findEntry_eq_false_iff]; exact fun hn => hn h
      simp [processAddedEntries, hf, h, ih]
    · have hf : findEntry b.routingTable e = false := (findEntry_eq_false_iff _ _).2 h
      by_cases ho : e.1 = b.ownEid
      · simp [processAddedEntries, hf, h, ho, ih]
      · simp [processAddedEntries, hf, h, ho, ih]

/-- C4. `PCIeBinding::processRoutingTableChanges`, called as `updateRoutingTable` calls
it, first emits `unregisterEndpoint(eid)` for each entry of the stored table that does
not occur as a full tuple in the new table, in the order of the stored table, then
`registerEndpoint` for each entry of the new table that does not occur in the stored
table and whose EID is not `ownEid`, in the order of the new table; the binding-private
of a registration has the routing tag RouteByID and the physical address of the entry as
`remote_id`, and its mode is `getBindingMode` of the entry. It emits nothing else. -/
theorem processRoutingTableChanges_events (L : Libmctp) (b : PCIeBinding)
    (newTable : List routingTableEntry_t) :
    processRoutingTableChanges L b newTable
        { routing := L.PCIE_ROUTE_BY_ID, remote_id := b.busOwnerBdf } =
      ((b.routingTable.filter fun e => decide (e ∉ newTable)).map fun e =>
          Event.unregisterEndpoint e.1) ++
      ((newTable.filter fun e => decide (e ∉ b.routingTable ∧ e.1 ≠ b.ownEid)).map fun e =>
          Event.registerEndpoint { routing := L.PCIE_ROUTE_BY_ID, remote_id := e.2.1 } e.1
            (getBindingMode L b e)) := by
  rw [processRoutingTableChanges, processRemovedEntries_eq, processAddedEntries_eq]

theorem storeRoutingTable_same (L : Libmctp) (b : PCIeBinding) :
    storeRoutingTable L b b.routingTable = ([], b) := by
  simp [storeRoutingTable]

theorem storeRoutingTable_routingTable (L : Libmctp) (b : PCIeBinding)
    (t : List routingTableEntry_t) :
    (storeRoutingTable L b t).2 = { b with routingTable := t } := by
  unfold storeRoutingTable
  by_cases h : t = b.routingTable
  · subst h; simp
  · simp [h]

/-- C6. When the walk of a routing refresh ends (within `fuel` passes of the bridge
loop) with a table equal to the stored `routingTable`, the refresh emits no event and
leaves the binding unchanged. Whenever a refresh has run to its end, a second refresh
over the same responses emits no event and leaves the binding unchanged. -/
theorem updateRoutingTable_idempotent (L : Libmctp) (b : PCIeBinding)
    (net : Nat → Option (List Nat)) (fuel : Nat) (w : WalkState)
    (hw : walkRoutingTable L b net fuel = some w) :
    (w.rt = b.routingTable → updateRoutingTable L b net fuel = some ([], b)) ∧
    (∀ events b1, updateRoutingTable L b net fuel = some (events, b1) →
      updateRoutingTable L b1 net fuel = some ([], b1)) := by
  constructor
  · intro h
    unfold updateRoutingTable
    split_ifs
    · rfl
    · rw [hw]; simp only; rw [h, storeRoutingTable_same]
  · intro events b1 h
    unfold updateRoutingTable at h
    split_ifs at h with hd
    · simp only [Option.some.injEq, Prod.mk.injEq] at h
      obtain ⟨-, rfl⟩ := h
      simp [updateRoutingTable, hd]
    · rw [hw] at h
      simp only [Option.some.injEq] at h
      have hb1 : b1 = { b with routingTable := w.rt } := by
        rw [← storeRoutingTable_routingTable L b w.rt, h]
      have hw1 : walkRoutingTable L b1 net fuel = some w := by
        rw [← hw, hb1]; rfl
      unfold updateRoutingTable
      have hd1 : ¬ b1.discoveredFlag ≠ DiscoveryFlags.Discovered := by
        rw [hb1]; exact hd
      rw [if_neg hd1, hw1]
      simp only
      have : w.rt = b1.routingTable := by rw [hb1]
      rw [this, storeRoutingTable_same]

/-! ## Live endpoints across refreshes -/

theorem mem_foldl_unregister (xs : List routingTableEntry_t) :
    ∀ (live : Finset Nat) (e : Nat),
      e ∈ (xs.map fun x => Event.unregisterEndpoint x.1).foldl applyEvent live ↔
        e ∈ live ∧ ∀ x ∈ xs, x.1 ≠ e := by
  induction xs with
  | nil => intro live e; simp
  | cons x rest ih =>
    intro live e
    simp only [List.map_cons, List.foldl_cons, applyEvent, ih, Finset.mem_erase,
      List.mem_cons, forall_eq_or_imp]
    constructor
    · rintro ⟨⟨h1, h2⟩, h3⟩; exact ⟨h2, fun h => h1 h.symm, h3⟩
    · rintro ⟨h1, h2, h3⟩; exact ⟨⟨fun h => h2 h.symm, h1⟩, h3⟩

theorem mem_foldl_register (f : routingTableEntry_t → mctp_nupcie_pkt_private)
    (g : routingTableEntry_t → BindingModeTypes) (xs : List routingTableEntry_t) :
    ∀ (live : Finset Nat) (e : Nat),
      e ∈ (xs.map fun x => Event.registerEndpoint (f x) x.1 (g x)).foldl applyEvent live ↔
        e ∈ live ∨ ∃ x ∈ xs, x.1 = e := by
  induction xs with
  | nil => intro live e; simp
  | cons x rest ih =>
    intro live e
    simp only [List.map_cons, List.foldl_cons, applyEvent, ih, Finset.mem_insert,
      List.mem_cons, exists_eq_or_imp]
    constructor
    · rintro (⟨h | h⟩ | h)
      · exact Or.inr (Or.inl h.symm)
      · exact Or.inl h
      · exact Or.inr (Or.inr h)
    · rintro (h | h | h)
      · exact Or.inl (Or.inr h)
      · exact Or.inl (Or.inl h.symm)
      · exact Or.inr h

/-- One refresh keeps the live set equal to the EIDs of the stored table without
`ownEid`, when no EID occurs twice in the table stored before. -/
theorem refreshWith_live (L : Libmctp) (s : RefreshState) (table : List routingTableEntry_t)
    (hnodup : (tableEids s.binding.routingTable).Nodup)
    (hlive : s.live = (tableEids s.binding.routingTable).toFinset.erase s.binding.ownEid) :
    (refreshWith L s table).binding = { s.binding with routingTable := table } ∧
    (refreshWith L s table).live = (tableEids table).toFinset.erase s.binding.ownEid := by
  refine ⟨storeRoutingTable_routingTable L s.binding table, ?_⟩
  by_cases heq : table = s.binding.routingTable
  · simp only [refreshWith]
    rw [heq, storeRoutingTable_same]
    simpa using hlive
  · have hev : (storeRoutingTable L s.binding table).1 =
        processRoutingTableChanges L s.binding table
          { routing := L.PCIE_ROUTE_BY_ID, remote_id := s.binding.busOwnerBdf } := by
      simp [storeRoutingTable, heq]
    simp only [refreshWith]
    rw [hev, processRoutingTableChanges, processRemovedEntries_eq, processAddedEntries_eq,
      List.foldl_append]
    ext e
    rw [mem_foldl_register, mem_foldl_unregister, hlive]
    simp only [Finset.mem_erase, List.mem_toFinset, tableEids, List.mem_map, List.mem_filter,
      decide_eq_true_eq, ne_eq]
    constructor
    · rintro (⟨⟨hown, y, hy, hye⟩, hrem⟩ | ⟨x, ⟨hx, -, hxo⟩, hxe⟩)
      · refine ⟨hown, y, ?_, hye⟩
        by_contra hyt
        exact hrem y ⟨hy, hyt⟩ hye
      · exact ⟨fun h => hxo (hxe.trans h), x, hx, hxe⟩
    · rintro ⟨hown, x, hx, hxe⟩
      by_cases hxold : x ∈ s.binding.routingTable
      · left
        refine ⟨⟨hown, x, hxold, hxe⟩, ?_⟩
        rintro y ⟨hy, hyt⟩ hye
        have : y = x :=
          List.inj_on_of_nodup_map hnodup hy hxold (hye.trans hxe.symm)
        exact hyt (this ▸ hx)
      · right
        exact ⟨x, ⟨hx, hxold, fun h => hown (hxe.symm.trans h)⟩, hxe⟩

/-- A sequence of refreshes keeps the live set equal to the EIDs of the stored table
without `ownEid`, when no EID occurs twice in any table but the last. -/
theorem refreshAll_live (L : Libmctp) :
    ∀ (tables : List (List routingTableEntry_t)) (s : RefreshState),
      (tableEids s.binding.routingTable).Nodup →
      s.live = (tableEids s.binding.routingTable).toFinset.erase s.binding.ownEid →
      (∀ t ∈ tables.dropLast, (tableEids t).Nodup) →
      (refreshAll L s tables).binding =
          { s.binding with routingTable := tables.getLastD s.binding.routingTable } ∧
        (refreshAll L s tables).live =
          (tableEids (tables.getLastD s.binding.routingTable)).toFinset.erase
            s.binding.ownEid := by
  intro tables
  induction tables with
  | nil => intro s _ hlive _; exact ⟨rfl, by simpa [refreshAll] using hlive⟩
  | cons t rest ih =>
    intro s hnodup hlive hall
    obtain ⟨hb, hl⟩ := refreshWith_live L s t hnodup hlive
    cases rest with
    | nil => simpa [refreshAll] using ⟨hb, hl⟩
    | cons t2 rest2 =>
      have ht : (tableEids t).Nodup := hall t (by simp [List.dropLast])
      have hrest : ∀ u ∈ (t2 :: rest2).dropLast, (tableEids u).Nodup := by
        intro u hu; exact hall u (by simp [List.dropLast]; exact Or.inr hu)
      have := ih (refreshWith L s t) (by rw [hb]; exact ht) (by rw [hl, hb]) hrest
      rw [hb] at this
      simpa [refreshAll] using this

/-! ## Decoding a response -/

theorem byteAt_append_left (pre rest : List Nat) (i : Nat) (h : i < pre.length) :
    byteAt (pre ++ rest) i = byteAt pre i := by
  simp [byteAt, List.getD_eq_getElem?_getD, List.getElem?_append_left h]

theorem byteAt_append_right (pre rest : List Nat) (i : Nat) :
    byteAt (pre ++ rest) (pre.length + i) = byteAt rest i := by
  simp [byteAt, List.getD_eq_getElem?_getD, List.getElem?_append_right]

theorem byteAt_lt (v : List Nat) (i : Nat) : byteAt v i < 256 :=
  Nat.mod_lt _ (by norm_num)

/-- A field of the struct at offset `pre.length` of the response. -/
theorem byteAt_field (pre raw rest : List Nat) (off : Nat) (h : off < raw.length) :
    byteAt (pre ++ (raw ++ rest)) (pre.length + off) = byteAt raw off := by
  rw [byteAt_append_right, byteAt_append_left _ _ _ h]

theorem be16_or (b0 b1 : Nat) (h0 : b0 < 256) (h1 : b1 < 256) :
    be16toh ((b0 ||| (b1 <<< 8)) % 65536) = b0 * 256 + b1 := by
  have h : b0 ||| (b1 <<< 8) = 2 ^ 8 * b1 + b0 := by
    rw [Nat.or_comm, Nat.shiftLeft_eq, Nat.mul_comm b1 (2 ^ 8)]
    exact (Nat.mul_add_lt_is_or (i := 8) h0 b1).symm
  rw [h, be16toh]
  omega

/-- The five fields `readRoutingTable` reads from the struct that starts at offset
`pre.length` of a response are the fields of the entry that stands there. -/
theorem fields_at (L : Libmctp) (hL : L.LayoutOk) (e : WireEntry)
    (hraw : e.raw.length = L.sizeof_routing_table_entry) (pre rest : List Nat) :
    byteAt (pre ++ (e.raw ++ rest)) (pre.length + L.offsetof_starting_eid) = e.starting_eid L ∧
    byteAt (pre ++ (e.raw ++ rest)) (pre.length + L.offsetof_eid_range_size)
      = e.eid_range_size L ∧
    byteAt (pre ++ (e.raw ++ rest)) (pre.length + L.offsetof_entry_type) = e.entry_type L ∧
    byteAt (pre ++ (e.raw ++ rest)) (pre.length + L.offsetof_phys_transport_binding_id)
      = e.phys_transport_binding_id L ∧
    byteAt (pre ++ (e.raw ++ rest)) (pre.length + L.offsetof_phys_address_size)
      = e.phys_address_size L := by
  obtain ⟨-, -, h1, h2, h3, h4, h5, -, -⟩ := hL
  rw [← hraw] at h1 h2 h3 h4 h5
  exact ⟨byteAt_field _ _ _ _ h2, byteAt_field _ _ _ _ h1, byteAt_field _ _ _ _ h3,
    byteAt_field _ _ _ _ h4, byteAt_field _ _ _ _ h5⟩

/-- The physical address `readRoutingTable` decodes behind the struct of a PCIe entry
with a two-byte address. -/
theorem getRoutingEntryPhysAddr_at (e : WireEntry) (haddr : e.addr.length = 2)
    (pre rest : List Nat) :
    getRoutingEntryPhysAddr (pre ++ (e.raw ++ (e.addr ++ rest))) (pre.length + e.raw.length)
      = e.bdf := by
  have h0 : byteAt (pre ++ (e.raw ++ (e.addr ++ rest))) (pre.length + e.raw.length)
      = byteAt e.addr 0 := by
    rw [← List.append_assoc, ← List.length_append]
    have := byteAt_append_right (pre ++ e.raw) (e.addr ++ rest) 0
    rw [Nat.add_zero] at this
    rw [this, byteAt_append_left _ _ _ (by omega)]
  have h1 : byteAt (pre ++ (e.raw ++ (e.addr ++ rest))) (pre.length + e.raw.length + 1)
      = byteAt e.addr 1 := by
    rw [← List.append_assoc, ← List.length_append]
    rw [byteAt_append_right (pre ++ e.raw) (e.addr ++ rest) 1,
      byteAt_append_left _ _ _ (by omega)]
  rw [getRoutingEntryPhysAddr, h0, h1, be16_or _ _ (byteAt_lt _ _) (byteAt_lt _ _)]
  rfl

/-- One iteration of the `for` loop in a call for the bus owner, on a well-formed
entry. -/
theorem readRoutingTableEntry_busOwner (L : Libmctp) (hL : L.LayoutOk)
    (hne : L.MCTP_ROUTING_ENTRY_BRIDGE_AND_ENDPOINTS ≠ L.MCTP_ROUTING_ENTRY_ENDPOINTS)
    (busOwnerEid physAddr : Nat) (e : WireEntry) (hwf : e.WellFormed L)
    (hpcie : e.PcieAddrOk L) (pre rest : List Nat) (rt : List routingTableEntry_t)
    (insertIndex : Nat) :
    readRoutingTableEntry L busOwnerEid busOwnerEid physAddr
        (pre ++ (e.raw ++ (e.addr ++ rest)))
        { rt := rt, insertIndex := insertIndex, entryOffset := pre.length } =
      { rt := rt ++ (busOwnerTuple L e).toList, insertIndex := insertIndex,
        entryOffset := pre.length + e.raw.length + e.addr.length } := by
  obtain ⟨hraw, haddr⟩ := hwf
  obtain ⟨f1, f2, f3, f4, f5⟩ := fields_at L hL e hraw pre (e.addr ++ rest)
  unfold readRoutingTableEntry
  simp only [f1, f2, f3, f4, f5]
  by_cases hp : e.phys_transport_binding_id L = L.MCTP_BINDING_PCIE
  · have hphys := getRoutingEntryPhysAddr_at e (hpcie hp) pre rest
    rw [hraw] at hphys
    simp only [hphys]
    by_cases hbae : L.GET_ROUTING_ENTRY_TYPE (e.entry_type L)
        = L.MCTP_ROUTING_ENTRY_BRIDGE_AND_ENDPOINTS
    · have hnend : L.GET_ROUTING_ENTRY_TYPE (e.entry_type L)
          ≠ L.MCTP_ROUTING_ENTRY_ENDPOINTS := by rw [hbae]; exact hne
      simp [busOwnerTuple, hp, hbae, hne, hraw, haddr]
    · by_cases hend : L.GET_ROUTING_ENTRY_TYPE (e.entry_type L)
          = L.MCTP_ROUTING_ENTRY_ENDPOINTS
      · simp [busOwnerTuple, hp, hend, hne.symm, hraw, haddr]
      · simp [busOwnerTuple, hp, hbae, hend, hraw, haddr]
  · simp [busOwnerTuple, hp, hraw, haddr]

/-- The `for` loop in a call for the bus owner, over well-formed entries. -/
theorem readRoutingTableEntries_busOwner (L : Libmctp) (hL : L.LayoutOk)
    (hne : L.MCTP_ROUTING_ENTRY_BRIDGE_AND_ENDPOINTS ≠ L.MCTP_ROUTING_ENTRY_ENDPOINTS)
    (busOwnerEid physAddr : Nat) (insertIndex : Nat) :
    ∀ (es : List WireEntry) (pre rest : List Nat) (rt : List routingTableEntry_t),
      (∀ e ∈ es, e.WellFormed L ∧ e.PcieAddrOk L) →
      readRoutingTableEntries L busOwnerEid busOwnerEid physAddr
          (pre ++ (wireBytes es ++ rest)) es.length
          { rt := rt, insertIndex := insertIndex, entryOffset := pre.length } =
        { rt := rt ++ es.filterMap (busOwnerTuple L), insertIndex := insertIndex,
          entryOffset := pre.length + (wireBytes es).length } := by
  intro es
  induction es with
  | nil => intro pre rest rt _; simp [readRoutingTableEntries, wireBytes]
  | cons e es ih =>
    intro pre rest rt hall
    obtain ⟨hwf, hpcie⟩ := hall e (List.mem_cons_self _ _)
    have hstep := readRoutingTableEntry_busOwner L hL hne busOwnerEid physAddr e hwf hpcie
      pre (wireBytes es ++ rest) rt insertIndex
    have hbytes : pre ++ (wireBytes (e :: es) ++ rest)
        = pre ++ (e.raw ++ (e.addr ++ (wireBytes es ++ rest))) := by
      simp [wireBytes]
    have hbytes2 : pre ++ (wireBytes (e :: es) ++ rest)
        = (pre ++ (e.raw ++ e.addr)) ++ (wireBytes es ++ rest) := by
      simp [wireBytes]
    simp only [List.length_cons, readRoutingTableEntries]
    rw [hbytes, hstep, ← hbytes, hbytes2]
    have hlen : pre.length + e.raw.length + e.addr.length = (pre ++ (e.raw ++ e.addr)).length := by
      simp [Nat.add_assoc]
    rw [hlen, ih (pre ++ (e.raw ++ e.addr)) rest _
      (fun x hx => hall x (List.mem_cons_of_mem _ hx))]
    cases hb : busOwnerTuple L e <;>
      simp [List.filterMap_cons, hb, wireBytes, Nat.add_assoc]

/-- The `for` loop over a well-formed response in a call for the bus owner. -/
theorem readRoutingTableResp_busOwner (L : Libmctp) (hL : L.LayoutOk)
    (hne : L.MCTP_ROUTING_ENTRY_BRIDGE_AND_ENDPOINTS ≠ L.MCTP_ROUTING_ENTRY_ENDPOINTS)
    (busOwnerEid physAddr : Nat) (r : WireResponse) (hwf : r.WellFormed L)
    (hpcie : ∀ e ∈ r.entries, e.PcieAddrOk L) (rt : List routingTableEntry_t)
    (insertIndex : Nat) :
    readRoutingTableResp L busOwnerEid busOwnerEid physAddr r.bytes rt insertIndex =
      { rt := rt ++ r.entries.filterMap (busOwnerTuple L), insertIndex := insertIndex,
        entryOffset := r.bytes.length } := by
  obtain ⟨hhdr, hn, hes⟩ := hwf
  have hoff : L.offsetof_number_of_entries < r.hdr.length := by
    rw [hhdr]; exact hL.2.1
  have hcount : byteAt r.bytes L.offsetof_number_of_entries = r.entries.length := by
    rw [WireResponse.bytes, byteAt_append_left _ _ _ hoff, hn]
  have hbytes : r.bytes = r.hdr ++ (wireBytes r.entries ++ []) := by
    simp [WireResponse.bytes]
  unfold readRoutingTableResp
  rw [hcount, ← hhdr]
  conv_lhs => rw [hbytes]
  rw [readRoutingTableEntries_busOwner L hL hne busOwnerEid physAddr insertIndex r.entries
    r.hdr [] rt (fun e he => ⟨hes e he, hpcie e he⟩)]
  simp [WireResponse.bytes]

/-- The `for` loops over a sequence of well-formed responses in a call for the bus
owner. -/
theorem readRoutingTableResponses_busOwner (L : Libmctp) (hL : L.LayoutOk)
    (hne : L.MCTP_ROUTING_ENTRY_BRIDGE_AND_ENDPOINTS ≠ L.MCTP_ROUTING_ENTRY_ENDPOINTS)
    (busOwnerEid physAddr : Nat) (insertIndex : Nat) :
    ∀ (rs : List WireResponse) (rt : List routingTableEntry_t),
      (∀ r ∈ rs, r.WellFormed L ∧ ∀ e ∈ r.entries, e.PcieAddrOk L) →
      readRoutingTableResponses L busOwnerEid busOwnerEid physAddr
          (rs.map WireResponse.bytes) rt insertIndex =
        (rt ++ (allEntries rs).filterMap (busOwnerTuple L), insertIndex) := by
  intro rs
  induction rs with
  | nil => intro rt _; simp [readRoutingTableResponses, allEntries]
  | cons r rs ih =>
    intro rt hall
    obtain ⟨hwf, hpcie⟩ := hall r (List.mem_cons_self _ _)
    simp only [List.map_cons, readRoutingTableResponses]
    rw [readRoutingTableResp_busOwner L hL hne busOwnerEid physAddr r hwf hpcie rt insertIndex]
    simp only
    rw [ih _ (fun x hx => hall x (List.mem_cons_of_mem _ hx))]
    simp [allEntries, List.filterMap_append]

/-! ## Calls of `readRoutingTable` for a bridge -/

theorem isEntryInRoutingTable_iff (eid : Nat) (rt : List routingTableEntry_t) :
    isEntryInRoutingTable eid rt = true ↔ eid ∈ tableEids rt := by
  simp [isEntryInRoutingTable, tableEids]

theorem isActiveEntryBehindBridge_iff (L : Libmctp) (e : WireEntry)
    (rt : List routingTableEntry_t) :
    isActiveEntryBehindBridge L (e.starting_eid L) (e.eid_range_size L)
        (e.phys_transport_binding_id L) rt = true ↔
      e.starting_eid L ∉ tableEids rt ∧ e.eid_range_size L = 1 ∧
        e.phys_transport_binding_id L = L.MCTP_BINDING_PCIE := by
  have h := isEntryInRoutingTable_iff (e.starting_eid L) rt
  unfold isActiveEntryBehindBridge
  rw [Bool.and_eq_true, Bool.and_eq_true, Bool.not_eq_true', beq_iff_eq, beq_iff_eq,
    ← Bool.not_eq_true, h, and_assoc]

/-- One iteration of the `for` loop in a call for a bridge, on a well-formed entry. -/
theorem readRoutingTableEntry_bridge (L : Libmctp) (hL : L.LayoutOk)
    (busOwnerEid eid physAddr : Nat) (heid : eid ≠ busOwnerEid) (e : WireEntry)
    (hwf : e.WellFormed L) (pre rest : List Nat) (rt : List routingTableEntry_t)
    (insertIndex : Nat) :
    readRoutingTableEntry L busOwnerEid eid physAddr (pre ++ (e.raw ++ (e.addr ++ rest)))
        { rt := rt, insertIndex := insertIndex, entryOffset := pre.length } =
      if e.starting_eid L ∉ tableEids rt ∧ e.eid_range_size L = 1 ∧
          e.phys_transport_binding_id L = L.MCTP_BINDING_PCIE then
        { rt := vectorInsert rt insertIndex (e.starting_eid L, physAddr, e.entry_type L),
          insertIndex := insertIndex + 1,
          entryOffset := pre.length + e.raw.length + e.addr.length }
      else
        { rt := rt, insertIndex := insertIndex,
          entryOffset := pre.length + e.raw.length + e.addr.length } := by
  obtain ⟨hraw, haddr⟩ := hwf
  obtain ⟨f1, f2, f3, f4, f5⟩ := fields_at L hL e hraw pre (e.addr ++ rest)
  have hact := isActiveEntryBehindBridge_iff L e rt
  unfold readRoutingTableEntry
  simp only [f1, f2, f3, f4, f5]
  by_cases hp : e.phys_transport_binding_id L = L.MCTP_BINDING_PCIE
  · by_cases ha : e.starting_eid L ∉ tableEids rt ∧ e.eid_range_size L = 1 ∧
        e.phys_transport_binding_id L = L.MCTP_BINDING_PCIE
    · rw [if_pos ha]
      have hA := hact.2 ha
      rw [hp] at hA
      simp [hp, heid, hA, hraw, haddr]
    · rw [if_neg ha]
      have hna : ¬ isActiveEntryBehindBridge L (e.starting_eid L) (e.eid_range_size L)
          (e.phys_transport_binding_id L) rt = true := fun h => ha (hact.1 h)
      simp only [Bool.not_eq_true] at hna
      rw [hp] at hna
      simp [hp, heid, hna, hraw, haddr]
  · have ha : ¬ (e.starting_eid L ∉ tableEids rt ∧ e.eid_range_size L = 1 ∧
        e.phys_transport_binding_id L = L.MCTP_BINDING_PCIE) := fun h => hp h.2.2
    rw [if_neg ha]
    simp [hp, hraw, haddr]

theorem vectorInsert_middle (rt acc : List routingTableEntry_t) (i : Nat) (hi : i ≤ rt.length)
    (x : routingTableEntry_t) :
    vectorInsert (rt.take i ++ acc ++ rt.drop i) (i + acc.length) x =
      rt.take i ++ (acc ++ [x]) ++ rt.drop i := by
  have hlen : (rt.take i ++ acc).length = i + acc.length := by
    simp [List.length_take, Nat.min_eq_left hi]
  unfold vectorInsert
  rw [← hlen, List.take_left', List.drop_left']
  · simp
  · rfl
  · rfl

theorem tableEids_middle (rt acc : List routingTableEntry_t) (i : Nat) (x : Nat) :
    x ∈ tableEids (rt.take i ++ acc ++ rt.drop i) ↔ x ∈ tableEids rt ∨ x ∈ tableEids acc := by
  have h : tableEids rt = tableEids (rt.take i) ++ tableEids (rt.drop i) := by
    unfold tableEids
    rw [← List.map_append, List.take_append_drop]
  rw [h]
  simp only [tableEids, List.map_append, List.mem_append]
  tauto

theorem admittedBehindBridge_congr (L : Libmctp) (physAddr : Nat) :
    ∀ (es : List WireEntry) (s1 s2 : List Nat), (∀ x, x ∈ s1 ↔ x ∈ s2) →
      admittedBehindBridge L physAddr s1 es = admittedBehindBridge L physAddr s2 es := by
  intro es
  induction es with
  | nil => intro s1 s2 _; rfl
  | cons e es ih =>
    intro s1 s2 h
    simp only [admittedBehindBridge, h]
    rw [ih (e.starting_eid L :: s1) (e.starting_eid L :: s2) (by simp [h]), ih s1 s2 h]

/-- The `for` loop in a call for a bridge, over well-formed entries: the admitted
entries are added, in order, behind those the call has inserted before. -/
theorem readRoutingTableEntries_bridge (L : Libmctp) (hL : L.LayoutOk)
    (busOwnerEid eid physAddr : Nat) (heid : eid ≠ busOwnerEid)
    (rt : List routingTableEntry_t) (i : Nat) (hi : i ≤ rt.length) :
    ∀ (es : List WireEntry) (pre rest : List Nat) (acc : List routingTableEntry_t),
      (∀ e ∈ es, e.WellFormed L) →
      readRoutingTableEntries L busOwnerEid eid physAddr
          (pre ++ (wireBytes es ++ rest)) es.length
          { rt := rt.take i ++ acc ++ rt.drop i, insertIndex := i + acc.length,
            entryOffset := pre.length } =
        { rt := rt.take i ++
            (acc ++ admittedBehindBridge L physAddr (tableEids rt ++ tableEids acc) es) ++
            rt.drop i,
          insertIndex := i + (acc ++
            admittedBehindBridge L physAddr (tableEids rt ++ tableEids acc) es).length,
          entryOffset := pre.length + (wireBytes es).length } := by
  intro es
  induction es with
  | nil => intro pre rest acc _; simp [readRoutingTableEntries, wireBytes, admittedBehindBridge]
  | cons e es ih =>
    intro pre rest acc hall
    have hwf := hall e (List.mem_cons_self _ _)
    have hstep := readRoutingTableEntry_bridge L hL busOwnerEid eid physAddr heid e hwf
      pre (wireBytes es ++ rest) (rt.take i ++ acc ++ rt.drop i) (i + acc.length)
    have hbytes : pre ++ (wireBytes (e :: es) ++ rest)
        = pre ++ (e.raw ++ (e.addr ++ (wireBytes es ++ rest))) := by
      simp [wireBytes]
    have hbytes2 : pre ++ (wireBytes (e :: es) ++ rest)
        = (pre ++ (e.raw ++ e.addr)) ++ (wireBytes es ++ rest) := by
      simp [wireBytes]
    have hlen : pre.length + e.raw.length + e.addr.length = (pre ++ (e.raw ++ e.addr)).length := by
      simp [Nat.add_assoc]
    have hmem : e.starting_eid L ∉ tableEids (rt.take i ++ acc ++ rt.drop i) ↔
        e.starting_eid L ∉ tableEids rt ++ tableEids acc := by
      rw [tableEids_middle, List.mem_append]
    simp only [List.length_cons, readRoutingTableEntries]
    rw [hbytes, hstep, ← hbytes, hbytes2, hlen]
    by_cases ha : e.starting_eid L ∉ tableEids rt ++ tableEids acc ∧ e.eid_range_size L = 1 ∧
        e.phys_transport_binding_id L = L.MCTP_BINDING_PCIE
    · have ha' : e.starting_eid L ∉ tableEids (rt.take i ++ acc ++ rt.drop i) ∧
          e.eid_range_size L = 1 ∧ e.phys_transport_binding_id L = L.MCTP_BINDING_PCIE :=
        ⟨hmem.2 ha.1, ha.2⟩
      rw [if_pos ha', vectorInsert_middle rt acc i hi]
      have hidx : i + acc.length + 1 =
          i + (acc ++ [(e.starting_eid L, physAddr, e.entry_type L)]).length := by
        simp [Nat.add_assoc]
      rw [hidx, ih (pre ++ (e.raw ++ e.addr)) rest _
        (fun x hx => hall x (List.mem_cons_of_mem _ hx))]
      have hcongr := admittedBehindBridge_congr L physAddr es
        (tableEids rt ++ tableEids (acc ++ [(e.starting_eid L, physAddr, e.entry_type L)]))
        (e.starting_eid L :: (tableEids rt ++ tableEids acc)) (by
          intro x
          simp only [tableEids, List.map_append, List.map_cons, List.map_nil, List.mem_append,
            List.mem_cons, List.mem_singleton, List.not_mem_nil, or_false]
          tauto)
      rw [hcongr]
      simp only [admittedBehindBridge, if_pos ha]
      simp [wireBytes, Nat.add_assoc]
    · have ha' : ¬ (e.starting_eid L ∉ tableEids (rt.take i ++ acc ++ rt.drop i) ∧
          e.eid_range_size L = 1 ∧ e.phys_transport_binding_id L = L.MCTP_BINDING_PCIE) :=
        fun h => ha ⟨hmem.1 h.1, h.2⟩
      rw [if_neg ha', ih (pre ++ (e.raw ++ e.addr)) rest _
        (fun x hx => hall x (List.mem_cons_of_mem _ hx))]
      simp only [admittedBehindBridge, if_neg ha]
      simp [wireBytes, Nat.add_assoc]

theorem admittedBehindBridge_append (L : Libmctp) (physAddr : Nat) :
    ∀ (es1 : List WireEntry) (seen : List Nat) (es2 : List WireEntry),
      admittedBehindBridge L physAddr seen (es1 ++ es2) =
        admittedBehindBridge L physAddr seen es1 ++
          admittedBehindBridge L physAddr
            (seen ++ tableEids (admittedBehindBridge L physAddr seen es1)) es2 := by
  intro es1
  induction es1 with
  | nil => intro seen es2; simp [admittedBehindBridge, tableEids]
  | cons e es1 ih =>
    intro seen es2
    by_cases ha : e.starting_eid L ∉ seen ∧ e.eid_range_size L = 1 ∧
        e.phys_transport_binding_id L = L.MCTP_BINDING_PCIE
    · simp only [List.cons_append, admittedBehindBridge, if_pos ha, List.append_eq]
      rw [ih]
      have hcongr := admittedBehindBridge_congr L physAddr es2
        (e.starting_eid L :: seen ++
          tableEids (admittedBehindBridge L physAddr (e.starting_eid L :: seen) es1))
        (seen ++ tableEids ((e.starting_eid L, physAddr, e.entry_type L) ::
          admittedBehindBridge L physAddr (e.starting_eid L :: seen) es1)) (by
          intro x
          simp only [tableEids, List.map_cons, List.cons_append, List.mem_append,
            List.mem_cons]
          tauto)
      rw [hcongr]
    · simp only [List.cons_append, admittedBehindBridge, if_neg ha, List.append_eq]
      rw [ih]

/-- The `for` loop over a well-formed response in a call for a bridge. -/
theorem readRoutingTableResp_bridge (L : Libmctp) (hL : L.LayoutOk)
    (busOwnerEid eid physAddr : Nat) (heid : eid ≠ busOwnerEid)
    (rt : List routingTableEntry_t) (i : Nat) (hi : i ≤ rt.length)
    (r : WireResponse) (hwf : r.WellFormed L) (acc : List routingTableEntry_t) :
    readRoutingTableResp L busOwnerEid eid physAddr r.bytes
        (rt.take i ++ acc ++ rt.drop i) (i + acc.length) =
      { rt := rt.take i ++
          (acc ++ admittedBehindBridge L physAddr (tableEids rt ++ tableEids acc) r.entries) ++
          rt.drop i,
        insertIndex := i + (acc ++
          admittedBehindBridge L physAddr (tableEids rt ++ tableEids acc) r.entries).length,
        entryOffset := r.bytes.length } := by
  obtain ⟨hhdr, hn, hes⟩ := hwf
  have hoff : L.offsetof_number_of_entries < r.hdr.length := by
    rw [hhdr]; exact hL.2.1
  have hcount : byteAt r.bytes L.offsetof_number_of_entries = r.entries.length := by
    rw [WireResponse.bytes, byteAt_append_left _ _ _ hoff, hn]
  have hbytes : r.bytes = r.hdr ++ (wireBytes r.entries ++ []) := by
    simp [WireResponse.bytes]
  unfold readRoutingTableResp
  rw [hcount, ← hhdr]
  conv_lhs => rw [hbytes]
  rw [readRoutingTableEntries_bridge L hL busOwnerEid eid physAddr heid rt i hi r.entries
    r.hdr [] acc hes]
  simp [WireResponse.bytes]

/-- The `for` loops over a sequence of well-formed responses in a call for a bridge. -/
theorem readRoutingTableResponses_bridge (L : Libmctp) (hL : L.LayoutOk)
    (busOwnerEid eid physAddr : Nat) (heid : eid ≠ busOwnerEid)
    (rt : List routingTableEntry_t) (i : Nat) (hi : i ≤ rt.length) :
    ∀ (rs : List WireResponse) (acc : List routingTableEntry_t),
      (∀ r ∈ rs, r.WellFormed L) →
      readRoutingTableResponses L busOwnerEid eid physAddr (rs.map WireResponse.bytes)
          (rt.take i ++ acc ++ rt.drop i) (i + acc.length) =
        (rt.take i ++
          (acc ++ admittedBehindBridge L physAddr (tableEids rt ++ tableEids acc)
            (allEntries rs)) ++ rt.drop i,
         i + (acc ++ admittedBehindBridge L physAddr (tableEids rt ++ tableEids acc)
            (allEntries rs)).length) := by
  intro rs
  induction rs with
  | nil => intro acc _; simp [readRoutingTableResponses, allEntries, admittedBehindBridge]
  | cons r rs ih =>
    intro acc hall
    have hwf := hall r (List.mem_cons_self _ _)
    simp only [List.map_cons, readRoutingTableResponses]
    rw [readRoutingTableResp_bridge L hL busOwnerEid eid physAddr heid rt i hi r hwf acc]
    simp only
    rw [ih _ (fun x hx => hall x (List.mem_cons_of_mem _ hx))]
    have hcongr := admittedBehindBridge_congr L physAddr (allEntries rs)
      (tableEids rt ++ tableEids (acc ++
        admittedBehindBridge L physAddr (tableEids rt ++ tableEids acc) r.entries))
      (tableEids rt ++ tableEids acc ++
        tableEids (admittedBehindBridge L physAddr (tableEids rt ++ tableEids acc) r.entries))
      (by intro x; simp only [tableEids, List.map_append, List.mem_append]; tauto)
    rw [hcongr]
    simp only [allEntries, admittedBehindBridge_append, List.append_assoc]

/-- C2. In a call of `PCIeBinding::readRoutingTable` for a bridge whose EID is not that
of the bus owner and whose entry stands at `entryIndex` in the table, over well-formed
responses: an entry is inserted exactly when its `starting_eid` is not in the table yet
(neither in the table the call started with nor among the entries the call inserted
before), its `eid_range_size` is 1 and its transport is PCIe (`admittedBehindBridge`);
the inserted tuple is the `starting_eid`, the physical address of the queried bridge and
the `entry_type`, whatever the address bytes of the entry are; the inserted tuples stand
in response order from position `entryIndex + 1` on, and the rest of the table is
unchanged. -/
theorem readRoutingTable_bridge (L : Libmctp) (hL : L.LayoutOk) (busOwnerEid : Nat)
    (net : Nat → Option (List Nat)) (rt : List routingTableEntry_t)
    (calledBridges : List calledBridgeEntry_t) (requests eid physAddr entryIndex : Nat)
    (rs : List WireResponse)
    (heid : eid ≠ busOwnerEid) (hidx : entryIndex < rt.length)
    (hresp : responsesRead L net requests = rs.map WireResponse.bytes)
    (hwf : ∀ r ∈ rs, r.WellFormed L) :
    (readRoutingTable L busOwnerEid net rt calledBridges requests eid physAddr
        (entryIndex : Int)).rt =
      rt.take (entryIndex + 1) ++
        admittedBehindBridge L physAddr (tableEids rt) (allEntries rs) ++
        rt.drop (entryIndex + 1) := by
  have hnat : ((entryIndex : Int) + 1).toNat = entryIndex + 1 := by omega
  have h := readRoutingTableResponses_bridge L hL busOwnerEid eid physAddr heid rt
    (entryIndex + 1) (by omega) rs [] hwf
  simp only [List.append_nil, List.length_nil, Nat.add_zero, List.nil_append, tableEids,
    List.map_nil] at h
  rw [readRoutingTable_responses, hresp, hnat]
  have h' : rt.take (entryIndex + 1) ++ rt.drop (entryIndex + 1) = rt :=
    List.take_append_drop _ _
  rw [h'] at h
  rw [h]
  rfl

/-- C1. In a call of `PCIeBinding::readRoutingTable` with the EID of the bus owner, over
well-formed responses (every PCIe entry carrying a two-byte address): the tuples appended
to the table are, in response order, those of the entries whose transport is PCIe and
whose role is not Endpoints (`busOwnerTuple`): the `starting_eid`, the big-endian value
of the address bytes and the `entry_type`, the role BridgeAndEndpoints being rewritten to
Bridge. Entries of other transports append nothing; after the `for` loop over a response
the parse offset stands at the end of the response, every entry having advanced it by
the size of the struct and by its `phys_address_size`. The constants of the two roles
BridgeAndEndpoints and Endpoints are taken to differ. -/
theorem readRoutingTable_busOwner (L : Libmctp) (hL : L.LayoutOk)
    (hne : L.MCTP_ROUTING_ENTRY_BRIDGE_AND_ENDPOINTS ≠ L.MCTP_ROUTING_ENTRY_ENDPOINTS)
    (busOwnerEid : Nat)
    (net : Nat → Option (List Nat)) (rt : List routingTableEntry_t)
    (calledBridges : List calledBridgeEntry_t) (requests physAddr : Nat) (entryIndex : Int)
    (rs : List WireResponse)
    (hresp : responsesRead L net requests = rs.map WireResponse.bytes)
    (hwf : ∀ r ∈ rs, r.WellFormed L ∧ ∀ e ∈ r.entries, e.PcieAddrOk L) :
    (readRoutingTable L busOwnerEid net rt calledBridges requests busOwnerEid physAddr
        entryIndex).rt = rt ++ (allEntries rs).filterMap (busOwnerTuple L) ∧
    ∀ r ∈ rs, ∀ (rt1 : List routingTableEntry_t) (insertIndex : Nat),
      (readRoutingTableResp L busOwnerEid busOwnerEid physAddr r.bytes rt1
        insertIndex).entryOffset = r.bytes.length := by
  constructor
  · rw [readRoutingTable_responses, hresp,
      readRoutingTableResponses_busOwner L hL hne busOwnerEid physAddr _ rs rt hwf]
  · intro r hr rt1 insertIndex
    rw [readRoutingTableResp_busOwner L hL hne busOwnerEid physAddr r (hwf r hr).1
      (hwf r hr).2 rt1 insertIndex]

/-! ## Evaluation on the example inputs -/

/-- A call of `readRoutingTable` whose first request is answered with the next entry
handle `0xFF`. -/
theorem readRoutingTable_one_response (L : Libmctp) (busOwnerEid : Nat)
    (net : Nat → Option (List Nat)) (rt : List routingTableEntry_t)
    (calledBridges : List calledBridgeEntry_t) (requests eid physAddr : Nat) (entryIndex : Int)
    (resp : List Nat) (hnet : net requests = some resp)
    (hlast : byteAt resp L.offsetof_next_entry_handle = 0xff) :
    readRoutingTable L busOwnerEid net rt calledBridges requests eid physAddr entryIndex =
      { rt := (readRoutingTableResp L busOwnerEid eid physAddr resp rt (entryIndex + 1).toNat).rt,
        calledBridges := calledBridges ++ [(eid, physAddr)],
        insertIndex :=
          (readRoutingTableResp L busOwnerEid eid physAddr resp rt
            (entryIndex + 1).toNat).insertIndex,
        requests := requests + 1 } := by
  unfold readRoutingTable
  rw [readRoutingTableLoop_unfold, if_neg (by norm_num)]
  simp only [hnet]
  rw [readRoutingTableLoop_unfold, if_pos (Or.inl hlast)]

/-- The responses of a call whose first request is answered with the next entry handle
`0xFF`. -/
theorem responsesRead_one_response (L : Libmctp) (net : Nat → Option (List Nat))
    (requests : Nat) (resp : List Nat) (hnet : net requests = some resp)
    (hlast : byteAt resp L.offsetof_next_entry_handle = 0xff) :
    responsesRead L net requests = [resp] := by
  unfold responsesRead
  rw [responsesReadLoop_unfold, if_neg (by norm_num)]
  simp only [hnet]
  rw [responsesReadLoop_unfold, if_pos (Or.inl hlast)]

/-- The read from the bus owner in the example with two bridges. -/
theorem twoBridges_busOwner_read :
    readRoutingTable libmctp exampleBinding.busOwnerEid twoBridgesNet [] [] 0
        exampleBinding.busOwnerEid exampleBinding.busOwnerBdf (-1) =
      { rt := [(0x20, 0xB000, 0x80), (0x30, 0xC000, 0x80)], calledBridges := [(0x08, 0xBEEF)],
        insertIndex := 0, requests := 1 } := by
  rw [readRoutingTable_one_response libmctp _ twoBridgesNet _ _ 0 _ _ _ _ rfl (by decide)]
  decide

/-- The read from the first bridge in the example with two bridges. -/
theorem twoBridges_first_read :
    readRoutingTable libmctp exampleBinding.busOwnerEid twoBridgesNet
        [(0x20, 0xB000, 0x80), (0x30, 0xC000, 0x80)] [(0x08, 0xBEEF)] 1 0x20 0xB000
        ((0 : Nat) : Int) =
      { rt := [(0x20, 0xB000, 0x80), (0x21, 0xB000, 0), (0x22, 0xB000, 0),
          (0x30, 0xC000, 0x80)],
        calledBridges := [(0x08, 0xBEEF), (0x20, 0xB000)],
        insertIndex := 3, requests := 2 } := by
  rw [readRoutingTable_one_response libmctp _ twoBridgesNet _ _ 1 _ _ _ _ rfl (by decide)]
  decide

/-- The read from the second bridge in the example with two bridges. -/
theorem twoBridges_second_read :
    readRoutingTable libmctp exampleBinding.busOwnerEid twoBridgesNet
        [(0x20, 0xB000, 0x80), (0x21, 0xB000, 0), (0x22, 0xB000, 0), (0x30, 0xC000, 0x80)]
        [(0x08, 0xBEEF), (0x20, 0xB000)] 2 0x30 0xC000 ((0 + 1 : Nat) : Int) =
      { rt := [(0x20, 0xB000, 0x80), (0x21, 0xB000, 0), (0x31, 0xC000, 0), (0x22, 0xB000, 0),
          (0x30, 0xC000, 0x80)],
        calledBridges := [(0x08, 0xBEEF), (0x20, 0xB000), (0x30, 0xC000)],
        insertIndex := 3, requests := 3 } := by
  rw [readRoutingTable_one_response libmctp _ twoBridgesNet _ _ 2 _ _ _ _ rfl (by decide)]
  decide

/-- One pass of `processBridgeEntries` in the example with two bridges. -/
theorem twoBridges_pass :
    processBridgeEntries libmctp exampleBinding.busOwnerEid twoBridgesNet
        { rt := [(0x20, 0xB000, 0x80), (0x30, 0xC000, 0x80)], calledBridges := [(0x08, 0xBEEF)],
          requests := 1 } =
      { rt := [(0x20, 0xB000, 0x80), (0x21, 0xB000, 0), (0x31, 0xC000, 0), (0x22, 0xB000, 0),
          (0x30, 0xC000, 0x80)],
        calledBridges := [(0x08, 0xBEEF), (0x20, 0xB000), (0x30, 0xC000)],
        requests := 3 } := by
  have hb1 : (!isEntryBridge libmctp (0x20, 0xB000, 0x80) ||
      isBridgeCalled (0x20, 0xB000, 0x80) [(0x08, 0xBEEF)]) = false := by decide
  have hb2 : (!isEntryBridge libmctp (0x30, 0xC000, 0x80) ||
      isBridgeCalled (0x30, 0xC000, 0x80) [(0x08, 0xBEEF), (0x20, 0xB000)]) = false := by
    decide
  simp only [processBridgeEntries, processBridgeEntriesLoop, hb1, hb2,
    twoBridges_first_read, twoBridges_second_read, Bool.false_eq_true, if_false]

/-- The walk of a refresh in the example with two bridges. -/
theorem twoBridges_walk :
    walkRoutingTable libmctp exampleBinding twoBridgesNet 1 = some
      { rt := [(0x20, 0xB000, 0x80), (0x21, 0xB000, 0), (0x31, 0xC000, 0), (0x22, 0xB000, 0),
          (0x30, 0xC000, 0x80)],
        calledBridges := [(0x08, 0xBEEF), (0x20, 0xB000), (0x30, 0xC000)],
        requests := 3 } := by
  have ha0 : allBridgesCalled libmctp [(0x20, 0xB000, 0x80), (0x30, 0xC000, 0x80)]
      [(0x08, 0xBEEF)] = false := by decide
  have ha1 : allBridgesCalled libmctp
      [(0x20, 0xB000, 0x80), (0x21, 0xB000, 0), (0x31, 0xC000, 0), (0x22, 0xB000, 0),
        (0x30, 0xC000, 0x80)]
      [(0x08, 0xBEEF), (0x20, 0xB000), (0x30, 0xC000)] = true := by decide
  unfold walkRoutingTable
  rw [twoBridges_busOwner_read]
  simp only [processBridgesWhile, ha0, twoBridges_pass, ha1, Bool.false_eq_true, if_false,
    if_true]

/-- C3. The entries admitted from a bridge do not always stand behind the entry of
that bridge. The bus owner reports the bridges `0x20` and `0x30`; the bridge `0x20`
reports the endpoints `0x21` and `0x22`, the bridge `0x30` the endpoint `0x31`. One pass
of `processBridgeEntries` over the table the bus owner's read has left queries both
bridges and leaves `0x20, 0x21, 0x31, 0x22, 0x30`: the endpoint of the bridge `0x30`
stands between the endpoints of the bridge `0x20` and before the entry of its own
bridge. The index of a bridge is taken in `rt`, the insertion is made in `rtCopy`, which
has grown by then. -/
theorem processBridgeEntries_two_bridges :
    readRoutingTable libmctp exampleBinding.busOwnerEid twoBridgesNet [] [] 0
        exampleBinding.busOwnerEid exampleBinding.busOwnerBdf (-1) =
      { rt := [(0x20, 0xB000, 0x80), (0x30, 0xC000, 0x80)], calledBridges := [(0x08, 0xBEEF)],
        insertIndex := 0, requests := 1 } ∧
    processBridgeEntries libmctp exampleBinding.busOwnerEid twoBridgesNet
        { rt := [(0x20, 0xB000, 0x80), (0x30, 0xC000, 0x80)], calledBridges := [(0x08, 0xBEEF)],
          requests := 1 } =
      { rt := [(0x20, 0xB000, 0x80), (0x21, 0xB000, 0), (0x31, 0xC000, 0), (0x22, 0xB000, 0),
          (0x30, 0xC000, 0x80)],
        calledBridges := [(0x08, 0xBEEF), (0x20, 0xB000), (0x30, 0xC000)],
        requests := 3 } :=
  ⟨twoBridges_busOwner_read, twoBridges_pass⟩

/-! ## The theorems on the example inputs -/

/-- The bus owner's read on `exampleBusOwnerResponse`: the SMBus entry and the entry with
the role Endpoints add nothing, the role BridgeAndEndpoints (`0x45`) becomes Bridge
(`0x85`), and the parse offset ends at the 37 bytes of the response. -/
theorem readRoutingTable_busOwner_witness :
    (readRoutingTable libmctp 0x08 exampleBusOwnerNet [(0x09, 0x0100, 0)] [] 0 0x08 0xBEEF
        (-1)).rt = [(0x09, 0x0100, 0), (0x10, 0xA1B2, 0x00), (0x12, 0x0102, 0x85)] ∧
    (readRoutingTableResp libmctp 0x08 0x08 0xBEEF exampleBusOwnerResponse.bytes [] 0).entryOffset
      = 37 :=
  have h := readRoutingTable_busOwner libmctp (by decide) (by decide) 0x08 exampleBusOwnerNet
    [(0x09, 0x0100, 0)] [] 0 0xBEEF (-1) [exampleBusOwnerResponse]
    (responsesRead_one_response libmctp exampleBusOwnerNet 0 exampleBusOwnerResponse.bytes rfl
      (by decide))
    (by decide)
  ⟨h.1.trans (by decide), (h.2 exampleBusOwnerResponse (by simp) [] 0).trans (by decide)⟩

/-- A bridge's read on `exampleBridgeResponse`: the endpoints `0x21` and `0x22` are
inserted behind the bridge with the address of the bridge; the repeated EID, the EID of
the table, the EID range and the SMBus entry are not. -/
theorem readRoutingTable_bridge_witness :
    (readRoutingTable libmctp 0x08 exampleBridgeNet
        [(0x20, 0xB000, 0x80), (0x30, 0xC000, 0x00)] [(0x08, 0xBEEF)] 1 0x20 0xB000
        ((0 : Nat) : Int)).rt =
      [(0x20, 0xB000, 0x80), (0x21, 0xB000, 0x00), (0x22, 0xB000, 0x00),
        (0x30, 0xC000, 0x00)] :=
  (readRoutingTable_bridge libmctp (by decide) 0x08 exampleBridgeNet
    [(0x20, 0xB000, 0x80), (0x30, 0xC000, 0x00)] [(0x08, 0xBEEF)] 1 0x20 0xB000 0
    [exampleBridgeResponse] (by decide) (by decide)
    (responsesRead_one_response libmctp exampleBridgeNet 1 exampleBridgeResponse.bytes rfl
      (by decide))
    (by decide)).trans (by decide)

/-- A broadcast Prepare for Endpoint Discovery is accepted by the example endpoint. -/
theorem handlePrepareForEndpointDiscovery_spec_witness :
    (handlePrepareForEndpointDiscovery libmctp exampleBinding
        { routing := 3, remote_id := 0xBEEF } []).ret = true ∧
    (handlePrepareForEndpointDiscovery libmctp exampleBinding
        { routing := 3, remote_id := 0xBEEF } []).binding.discoveredFlag
      = DiscoveryFlags.Undiscovered :=
  have h := handlePrepareForEndpointDiscovery_spec libmctp (by decide) exampleBinding
    { routing := 3, remote_id := 0xBEEF } []
  have hret := h.1.2 ⟨rfl, rfl⟩
  ⟨hret, by rw [(h.2.1 hret).1]⟩

/-- A broadcast Endpoint Discovery is accepted by an undiscovered endpoint and records
the BDF of the sender. -/
theorem handleEndpointDiscovery_spec_witness :
    (handleEndpointDiscovery libmctp
        { exampleBinding with discoveredFlag := DiscoveryFlags.Undiscovered, busOwnerBdf := 0 }
        { routing := 3, remote_id := 0xBEEF } []).ret = true ∧
    (handleEndpointDiscovery libmctp
        { exampleBinding with discoveredFlag := DiscoveryFlags.Undiscovered, busOwnerBdf := 0 }
        { routing := 3, remote_id := 0xBEEF } []).binding.busOwnerBdf = 0xBEEF :=
  have h := handleEndpointDiscovery_spec libmctp (by decide)
    { exampleBinding with discoveredFlag := DiscoveryFlags.Undiscovered, busOwnerBdf := 0 }
    { routing := 3, remote_id := 0xBEEF } []
  have hret := h.1.2 ⟨by decide, rfl⟩
  ⟨hret, by rw [(h.2.1 hret).1]⟩

/-- Two refreshes of the example with two bridges: the second emits nothing. -/
theorem updateRoutingTable_idempotent_witness :
    updateRoutingTable libmctp exampleBinding twoBridgesNet 1 =
      some (storeRoutingTable libmctp exampleBinding
        [(0x20, 0xB000, 0x80), (0x21, 0xB000, 0), (0x31, 0xC000, 0), (0x22, 0xB000, 0),
          (0x30, 0xC000, 0x80)]) ∧
    updateRoutingTable libmctp
        (storeRoutingTable libmctp exampleBinding
          [(0x20, 0xB000, 0x80), (0x21, 0xB000, 0), (0x31, 0xC000, 0), (0x22, 0xB000, 0),
            (0x30, 0xC000, 0x80)]).2 twoBridgesNet 1 =
      some ([], (storeRoutingTable libmctp exampleBinding
        [(0x20, 0xB000, 0x80), (0x21, 0xB000, 0), (0x31, 0xC000, 0), (0x22, 0xB000, 0),
          (0x30, 0xC000, 0x80)]).2) :=
  have h := updateRoutingTable_idempotent libmctp exampleBinding twoBridgesNet 1 _
    twoBridges_walk
  have h1 : updateRoutingTable libmctp exampleBinding twoBridgesNet 1 =
      some (storeRoutingTable libmctp exampleBinding
        [(0x20, 0xB000, 0x80), (0x21, 0xB000, 0), (0x31, 0xC000, 0), (0x22, 0xB000, 0),
          (0x30, 0xC000, 0x80)]) := by
    unfold updateRoutingTable
    rw [if_neg (by decide), twoBridges_walk]
  ⟨h1, h.2 _ _ h1⟩

/-! ## The live set across refreshes -/

theorem mem_dropLast_take {α : Type} :
    ∀ (l : List α) (k : Nat) (x : α), x ∈ (l.take k).dropLast → x ∈ l.dropLast := by
  intro l
  induction l with
  | nil => intro k x h; simp at h
  | cons a l ih =>
    intro k x h
    cases k with
    | zero => simp at h
    | succ k =>
      cases l with
      | nil => simp at h
      | cons b l =>
        cases k with
        | zero => simp at h
        | succ k =>
          simp only [List.take_succ_cons, List.dropLast_cons₂, List.mem_cons] at h ⊢
          rcases h with h | h
          · exact Or.inl h
          · exact Or.inr (ih (k + 1) x (by simpa using h))

/-- C5, amended. Starting from an empty routing table and an empty set of live
endpoints, for every sequence of routing refreshes in whose tables, the last one apart,
no EID occurs twice: after each refresh (after the first `k` of them, for every `k`) the
stored table is the table read last, and the set of EIDs registered and not since
unregistered is the set of EIDs of that table without `ownEid`. -/
theorem refreshAll_live_of_nodup (L : Libmctp) (b : PCIeBinding)
    (tables : List (List routingTableEntry_t)) (hb : b.routingTable = [])
    (hnodup : ∀ t ∈ tables.dropLast, (tableEids t).Nodup) :
    ∀ k, k ≤ tables.length →
      (refreshAll L { binding := b, live := ∅ } (tables.take k)).binding.routingTable =
        (tables.take k).getLastD [] ∧
      (refreshAll L { binding := b, live := ∅ } (tables.take k)).live =
        (tableEids ((tables.take k).getLastD [])).toFinset.erase b.ownEid := by
  intro k _
  have h := refreshAll_live L (tables.take k) { binding := b, live := ∅ }
    (by simp [hb, tableEids]) (by simp [hb, tableEids])
    (fun t ht => hnodup t (mem_dropLast_take tables k t ht))
  simp only [hb] at h
  exact ⟨by rw [h.1], h.2⟩

/-- Three refreshes; only the last table holds an EID twice. -/
theorem refreshAll_live_of_nodup_witness :
    (refreshAll libmctp { binding := exampleBinding, live := ∅ }
        [[(0x10, 0x0001, 0), (0x99, 0x0002, 0)], [(0x10, 0x0003, 0), (0x11, 0x0003, 0)],
          [(0x11, 0x0003, 0), (0x11, 0x0004, 0)]]).live = {0x11} :=
  ((refreshAll_live_of_nodup libmctp exampleBinding
    [[(0x10, 0x0001, 0), (0x99, 0x0002, 0)], [(0x10, 0x0003, 0), (0x11, 0x0003, 0)],
      [(0x11, 0x0003, 0), (0x11, 0x0004, 0)]] rfl (by decide) 3 (by decide)).2).trans
    (by decide)

/-- The walk of a refresh against `duplicateEidNet` reads a table in which the EID `0x10`
occurs twice. -/
theorem duplicateEid_walk :
    walkRoutingTable libmctp exampleBinding duplicateEidNet 0 = some
      { rt := [(0x10, 0x0001, 0), (0x10, 0x0002, 0)], calledBridges := [(0x08, 0xBEEF)],
        requests := 1 } := by
  unfold walkRoutingTable
  rw [readRoutingTable_one_response libmctp _ duplicateEidNet _ _ 0 _ _ _ _ rfl (by decide)]
  decide

/-- C5, as stated, fails. The first refresh reads a table in which the EID `0x10` occurs
twice (at two BDFs), the second a table that keeps one of the two entries: the diff
unregisters `0x10` for the entry that is gone and registers nothing, so no endpoint is
live although the new table holds the EID `0x10`, which is not `ownEid`. -/
theorem refreshAll_live_counterexample :
    walkRoutingTable libmctp exampleBinding duplicateEidNet 0 = some
      { rt := [(0x10, 0x0001, 0), (0x10, 0x0002, 0)], calledBridges := [(0x08, 0xBEEF)],
        requests := 1 } ∧
    exampleBinding.routingTable = [] ∧
    (refreshAll libmctp { binding := exampleBinding, live := ∅ }
        [[(0x10, 0x0001, 0), (0x10, 0x0002, 0)], [(0x10, 0x0001, 0)]]).binding.routingTable
      = [(0x10, 0x0001, 0)] ∧
    (refreshAll libmctp { binding := exampleBinding, live := ∅ }
        [[(0x10, 0x0001, 0), (0x10, 0x0002, 0)], [(0x10, 0x0001, 0)]]).live = ∅ ∧
    (refreshAll libmctp { binding := exampleBinding, live := ∅ }
        [[(0x10, 0x0001, 0), (0x10, 0x0002, 0)], [(0x10, 0x0001, 0)]]).live ≠
      (tableEids [(0x10, 0x0001, 0)]).toFinset.erase exampleBinding.ownEid :=
  ⟨duplicateEid_walk, by decide⟩

/-! ## Set Endpoint ID and the discovery flow -/

/-- C11. `PCIeBinding::handleSetEndpointId`, for a frame whose `remote_id` differs from
`busOwnerBdf`, returns false and leaves the binding (the discovery flag and `ownEid`
among it), the binding-private of the frame and the response unchanged. For a frame whose
`remote_id` equals `busOwnerBdf` and which the handler of the base class accepts, it
returns true, the routing tag of the frame is RouteByID, and the discovery flag is set to
Discovered when the completion code of the response is success and left as it was when
it is not: from a flag other than Discovered, the flag is Discovered afterwards exactly
when the completion code is success. -/
theorem handleSetEndpointId_spec (L : Libmctp) (b : PCIeBinding)
    (bindingPrivate : mctp_nupcie_pkt_private) (response : List Nat)
    (base : BaseHandlerOutcome) :
    let r := handleSetEndpointId L b bindingPrivate response base
    (bindingPrivate.remote_id ≠ b.busOwnerBdf →
      r.ret = false ∧ r.binding = b ∧ r.bindingPrivate = bindingPrivate ∧
        r.response = response) ∧
    (bindingPrivate.remote_id = b.busOwnerBdf → base.ret = true →
      r.ret = true ∧ r.bindingPrivate.routing = L.PCIE_ROUTE_BY_ID ∧
      r.response = vectorResize base.response L.sizeof_resp_set_eid ∧
      (byteAt r.response L.offsetof_set_eid_cc = L.MCTP_CTRL_CC_SUCCESS →
        r.binding.discoveredFlag = DiscoveryFlags.Discovered) ∧
      (byteAt r.response L.offsetof_set_eid_cc ≠ L.MCTP_CTRL_CC_SUCCESS →
        r.binding.discoveredFlag = b.discoveredFlag) ∧
      (b.discoveredFlag ≠ DiscoveryFlags.Discovered →
        (r.binding.discoveredFlag = DiscoveryFlags.Discovered ↔
          byteAt r.response L.offsetof_set_eid_cc = L.MCTP_CTRL_CC_SUCCESS))) ∧
    (bindingPrivate.remote_id = b.busOwnerBdf → base.ret = false →
      r.ret = false ∧ r.binding.discoveredFlag = b.discoveredFlag) := by
  unfold handleSetEndpointId
  refine ⟨?_, ?_, ?_⟩
  · intro h; simp [h]
  · intro h hb
    by_cases hcc : byteAt (vectorResize base.response L.sizeof_resp_set_eid)
        L.offsetof_set_eid_cc = L.MCTP_CTRL_CC_SUCCESS
    · simp [h, hb, hcc, changeDiscoveredFlag, afterBaseHandler]
    · simp [h, hb, hcc, changeDiscoveredFlag, afterBaseHandler]
  · intro h hb
    simp [h, hb, afterBaseHandler]

theorem vectorResize_of_length (v : List Nat) (n : Nat) (h : v.length = n) :
    vectorResize v n = v := by
  unfold vectorResize
  subst h
  simp

/-- C12. For a binding in the Endpoint role, a bus owner BDF `bdf` and an EID `e`: the
handlers accept Prepare for Endpoint Discovery (BroadcastFromRC, `bdf`), then Endpoint
Discovery (BroadcastFromRC, `bdf`), then Set Endpoint ID (RouteByID, `bdf`, EID `e`)
which the control library completes with success; afterwards the discovery flag is
Discovered, `ownEid` is `e` and `busOwnerBdf` is `bdf`. The handler of the base class is
`baseHandleSetEndpointId`. -/
theorem discoveryFlow_spec (L : Libmctp) (b : PCIeBinding) (bdf e : Nat)
    (response1 response2 response3 : List Nat)
    (hrole : b.bindingModeType = BindingModeTypes.Endpoint)
    (hlayout : L.offsetof_set_eid_cc < L.sizeof_resp_set_eid)
    (hsuccess : L.MCTP_CTRL_CC_SUCCESS < 256) :
    let r1 := handlePrepareForEndpointDiscovery L b
      { routing := L.PCIE_BROADCAST_FROM_RC, remote_id := bdf } response1
    let r2 := handleEndpointDiscovery L r1.binding
      { routing := L.PCIE_BROADCAST_FROM_RC, remote_id := bdf } response2
    let r3 := handleSetEndpointId L r2.binding
      { routing := L.PCIE_ROUTE_BY_ID, remote_id := bdf } response3
      (baseHandleSetEndpointId L r2.binding { routing := L.PCIE_ROUTE_BY_ID, remote_id := bdf }
        response3 e (some L.MCTP_CTRL_CC_SUCCESS))
    r1.ret = true ∧ r2.ret = true ∧ r3.ret = true ∧
    r3.binding.discoveredFlag = DiscoveryFlags.Discovered ∧ r3.binding.ownEid = e ∧
    r3.binding.busOwnerBdf = bdf := by
  have hmod : L.MCTP_CTRL_CC_SUCCESS % 256 = L.MCTP_CTRL_CC_SUCCESS :=
    Nat.mod_eq_of_lt hsuccess
  have hlen : ∀ v : List Nat, (vectorResize v L.sizeof_resp_set_eid).length
      = L.sizeof_resp_set_eid := by
    intro v; simp [vectorResize]; omega
  have hcc : ∀ v : List Nat,
      byteAt (vectorResize ((vectorResize v L.sizeof_resp_set_eid).set L.offsetof_set_eid_cc
        L.MCTP_CTRL_CC_SUCCESS) L.sizeof_resp_set_eid) L.offsetof_set_eid_cc
        = L.MCTP_CTRL_CC_SUCCESS := by
    intro v
    have h1 : ((vectorResize v L.sizeof_resp_set_eid).set L.offsetof_set_eid_cc
        L.MCTP_CTRL_CC_SUCCESS).length = L.sizeof_resp_set_eid := by
      rw [List.length_set, hlen]
    have h2 : vectorResize ((vectorResize v L.sizeof_resp_set_eid).set L.offsetof_set_eid_cc
        L.MCTP_CTRL_CC_SUCCESS) L.sizeof_resp_set_eid
        = (vectorResize v L.sizeof_resp_set_eid).set L.offsetof_set_eid_cc
          L.MCTP_CTRL_CC_SUCCESS := by
      exact vectorResize_of_length _ _ h1
    rw [h2]
    simp [byteAt, List.getD_eq_getElem?_getD, List.getElem?_set, hlen, hlayout, hmod]
  simp only [handlePrepareForEndpointDiscovery, handleEndpointDiscovery, handleSetEndpointId,
    baseHandleSetEndpointId, changeDiscoveredFlag, afterBaseHandler, hrole, hmod, hcc]
  simp [hcc]

/-- The discovery flow of the test: bus owner BDF `0xBEEF`, assigned EID `0x99`. -/
theorem discoveryFlow_spec_witness :
    (handleSetEndpointId libmctp
      (handleEndpointDiscovery libmctp
        (handlePrepareForEndpointDiscovery libmctp exampleBinding
          { routing := 3, remote_id := 0xBEEF } []).binding
        { routing := 3, remote_id := 0xBEEF } []).binding
      { routing := 2, remote_id := 0xBEEF } []
      (baseHandleSetEndpointId libmctp
        (handleEndpointDiscovery libmctp
          (handlePrepareForEndpointDiscovery libmctp exampleBinding
            { routing := 3, remote_id := 0xBEEF } []).binding
          { routing := 3, remote_id := 0xBEEF } []).binding
        { routing := 2, remote_id := 0xBEEF } [] 0x99 (some 0))).binding.discoveredFlag
      = DiscoveryFlags.Discovered :=
  (discoveryFlow_spec libmctp exampleBinding 0xBEEF 0x99 [] [] [] rfl (by decide)
    (by decide)).2.2.2.1

/-! ## The discovery flag of a bus owner -/

/-- One inbound request or call of `deviceReadyNotify` leaves the role of a bus owner and
its discovery flag as they are, unless it is a Set Endpoint ID that sets the flag. -/
theorem handleInbound_busOwner (L : Libmctp) (b : PCIeBinding) (request : Inbound)
    (hrole : b.bindingModeType = BindingModeTypes.BusOwner)
    (hno : ¬ setsDiscovered L b request) :
    (handleInbound L b request).bindingModeType = BindingModeTypes.BusOwner ∧
    (handleInbound L b request).discoveredFlag = b.discoveredFlag := by
  cases request with
  | PrepareEndpointDiscovery bindingPrivate response =>
    simp [handleInbound, handlePrepareForEndpointDiscovery, hrole]
  | EndpointDiscovery bindingPrivate response =>
    simp only [handleInbound, handleEndpointDiscovery]
    split_ifs <;> simp [hrole]
  | SetEndpointID bindingPrivate response base =>
    simp only [setsDiscovered] at hno
    simp only [handleInbound, handleSetEndpointId]
    by_cases h1 : bindingPrivate.remote_id = b.busOwnerBdf
    · by_cases h2 : base.ret = true
      · have h3 : ¬ byteAt (vectorResize base.response L.sizeof_resp_set_eid)
            L.offsetof_set_eid_cc = L.MCTP_CTRL_CC_SUCCESS := fun h => hno ⟨h1, h2, h⟩
        simp [h1, h2, h3, afterBaseHandler, hrole]
      · simp [h1, h2, afterBaseHandler, hrole]
    · simp [h1, hrole]
  | GetEndpointID base =>
    simp only [handleInbound, handleGetEndpointId]
    split_ifs <;> simp [afterBaseHandler, hrole]
  | GetVersionSupport base =>
    simp only [handleInbound, handleGetVersionSupport]
    split_ifs <;> simp [afterBaseHandler, hrole]
  | GetMessageTypeSupport base =>
    simp only [handleInbound, handleGetMsgTypeSupport]
    split_ifs <;> simp [afterBaseHandler, hrole]
  | GetVdmSupport bindingPrivate selector resp lib =>
    simp [handleInbound, hrole]
  | deviceReadyNotify ready =>
    simp only [handleInbound, deviceReadyNotify]
    cases ready <;> simp [hrole]

theorem handleInbounds_busOwner (L : Libmctp) :
    ∀ (requests : List Inbound) (b : PCIeBinding),
      b.bindingModeType = BindingModeTypes.BusOwner →
      noneSetsDiscovered L b requests →
      (handleInbounds L b requests).discoveredFlag = b.discoveredFlag := by
  intro requests
  induction requests with
  | nil => intro b _ _; rfl
  | cons request rest ih =>
    intro b hrole hno
    obtain ⟨h1, h2⟩ := hno
    obtain ⟨hr, hf⟩ := handleInbound_busOwner L b request hrole h1
    have := ih (handleInbound L b request) hr h2
    simp only [handleInbounds, List.foldl_cons] at this ⊢
    rw [this, hf]

theorem noneSetsDiscovered_take (L : Libmctp) :
    ∀ (requests : List Inbound) (b : PCIeBinding) (k : Nat),
      noneSetsDiscovered L b requests → noneSetsDiscovered L b (requests.take k) := by
  intro requests
  induction requests with
  | nil => intro b k h; simpa using h
  | cons request rest ih =>
    intro b k h
    cases k with
    | zero => simp [noneSetsDiscovered]
    | succ k => exact ⟨h.1, ih _ k h.2⟩

/-- For a binding constructed in the bus owner role and any outcomes of the calls into the
base class, the discovery flag is NotApplicable after construction and after every initial
part of a sequence of requests in which no Set Endpoint ID comes from the recorded
`busOwnerBdf`, is accepted by the base class and is completed with success. -/
theorem busOwner_flag_of_noneSetsDiscovered (L : Libmctp) (init : PCIeBinding) (conf_bdf : Nat)
    (requests : List Inbound)
    (hrole : init.bindingModeType = BindingModeTypes.BusOwner)
    (hno : noneSetsDiscovered L (PCIeBinding.construct init conf_bdf) requests) :
    (PCIeBinding.construct init conf_bdf).discoveredFlag = DiscoveryFlags.NotApplicable ∧
    ∀ k, (handleInbounds L (PCIeBinding.construct init conf_bdf)
      (requests.take k)).discoveredFlag = DiscoveryFlags.NotApplicable := by
  have h0 : (PCIeBinding.construct init conf_bdf).discoveredFlag
      = DiscoveryFlags.NotApplicable := by
    simp [PCIeBinding.construct, hrole]
  have hr : (PCIeBinding.construct init conf_bdf).bindingModeType
      = BindingModeTypes.BusOwner := by
    simp [PCIeBinding.construct, hrole]
  refine ⟨h0, fun k => ?_⟩
  rw [handleInbounds_busOwner L _ _ hr (noneSetsDiscovered_take L _ _ k hno), h0]

/-- The handler `PCIeBinding::handleSetEndpointId` does not look at the role: the flag of
a bus owner rests on the base class. With a base class that accepted the Set Endpoint ID
of a recorded sender and completed it with success, the flag would become Discovered. -/
theorem handleSetEndpointId_busOwner_accepting_base :
    exampleBusOwner.bindingModeType = BindingModeTypes.BusOwner ∧
    exampleBusOwner.discoveredFlag = DiscoveryFlags.NotApplicable ∧
    (handleInbounds libmctp exampleBusOwner
      [Inbound.EndpointDiscovery { routing := 3, remote_id := 0xBEEF } [],
       Inbound.SetEndpointID { routing := 2, remote_id := 0xBEEF } []
        { ret := true, bindingPrivate := { routing := 2, remote_id := 0xBEEF },
          response := [0, 0, 0, 0, 0, 0, 0], ownEid := 0x99, busOwnerEid := 0 }]).discoveredFlag
      = DiscoveryFlags.Discovered := by
  decide

/-- C14. `PCIeBinding::deviceReadyNotify(ready)`, for both values of `ready`, sets the
BDF of the binding to 0, sets the discovery flag to Undiscovered when the role is not
BusOwner and leaves it when the role is BusOwner, and leaves `ownEid`, `routingTable` and
every other member unchanged. -/
theorem deviceReadyNotify_spec (b : PCIeBinding) (ready : Bool) :
    (deviceReadyNotify b ready).bdf = 0 ∧
    (b.bindingModeType ≠ BindingModeTypes.BusOwner →
      (deviceReadyNotify b ready).discoveredFlag = DiscoveryFlags.Undiscovered) ∧
    (b.bindingModeType = BindingModeTypes.BusOwner →
      (deviceReadyNotify b ready).discoveredFlag = b.discoveredFlag) ∧
    (deviceReadyNotify b ready).ownEid = b.ownEid ∧
    (deviceReadyNotify b ready).routingTable = b.routingTable ∧
    deviceReadyNotify b ready =
      { b with
        bdf := 0
        discoveredFlag :=
          if b.bindingModeType ≠ BindingModeTypes.BusOwner then DiscoveryFlags.Undiscovered
          else b.discoveredFlag } := by
  unfold deviceReadyNotify
  by_cases hrole : b.bindingModeType = BindingModeTypes.BusOwner
  · cases ready <;> simp [hrole, changeDiscoveredFlag]
  · cases ready <;> simp [hrole, changeDiscoveredFlag]

/-- C15, amended. When a binding that is not a bus owner goes to Undiscovered, by an
accepted Prepare for Endpoint Discovery or by `deviceReadyNotify`, `ownEid` is retained
and so is the recorded `busOwnerBdf`: an accepted Prepare for Endpoint Discovery changes
the discovery flag only, and `deviceReadyNotify` changes the discovery flag and sets the
BDF of the binding itself to 0. -/
theorem undiscovered_keeps_busOwnerBdf (L : Libmctp) (b : PCIeBinding)
    (hrole : b.bindingModeType ≠ BindingModeTypes.BusOwner) :
    (∀ (bindingPrivate : mctp_nupcie_pkt_private) (response : List Nat),
      (handlePrepareForEndpointDiscovery L b bindingPrivate response).ret = true →
      (handlePrepareForEndpointDiscovery L b bindingPrivate response).binding =
        { b with discoveredFlag := DiscoveryFlags.Undiscovered }) ∧
    (∀ ready : Bool,
      deviceReadyNotify b ready =
        { b with bdf := 0, discoveredFlag := DiscoveryFlags.Undiscovered }) := by
  constructor
  · intro bindingPrivate response h
    unfold handlePrepareForEndpointDiscovery at h ⊢
    split_ifs at h ⊢
    simp_all [changeDiscoveredFlag]
  · intro ready
    unfold deviceReadyNotify
    cases ready <;> simp [hrole, changeDiscoveredFlag]

/-- The example endpoint after `deviceReadyNotify`. -/
theorem undiscovered_keeps_busOwnerBdf_witness :
    (deviceReadyNotify exampleBinding true).ownEid = 0x99 ∧
    (deviceReadyNotify exampleBinding true).busOwnerBdf = 0xBEEF ∧
    (deviceReadyNotify exampleBinding true).bdf = 0 :=
  have h := (undiscovered_keeps_busOwnerBdf libmctp exampleBinding (by decide)).2 true
  ⟨by rw [h]; rfl, by rw [h]; rfl, by rw [h]⟩

/-- C15, as stated, fails. The example endpoint has recorded the bus owner BDF `0xBEEF`;
after an accepted Prepare for Endpoint Discovery, and after `deviceReadyNotify`, it is
Undiscovered and `busOwnerBdf` is still `0xBEEF`, not 0. -/
theorem undiscovered_clears_busOwnerBdf_counterexample :
    exampleBinding.bindingModeType ≠ BindingModeTypes.BusOwner ∧
    (handlePrepareForEndpointDiscovery libmctp exampleBinding
      { routing := 3, remote_id := 0xBEEF } []).ret = true ∧
    (handlePrepareForEndpointDiscovery libmctp exampleBinding
      { routing := 3, remote_id := 0xBEEF } []).binding.discoveredFlag
      = DiscoveryFlags.Undiscovered ∧
    (handlePrepareForEndpointDiscovery libmctp exampleBinding
      { routing := 3, remote_id := 0xBEEF } []).binding.busOwnerBdf ≠ 0 ∧
    (deviceReadyNotify exampleBinding false).discoveredFlag = DiscoveryFlags.Undiscovered ∧
    (deviceReadyNotify exampleBinding false).busOwnerBdf ≠ 0 := by
  decide

/-! ## Lookups in the routing table -/

theorem findEntryByEid_eq_none (table : List routingTableEntry_t) (dstEid : Nat) :
    findEntryByEid table dstEid = none ↔ ∀ entry ∈ table, entry.1 ≠ dstEid := by
  induction table with
  | nil => simp [findEntryByEid]
  | cons e rest ih =>
    by_cases h : e.1 = dstEid
    · simp [findEntryByEid, h]
    · simp [findEntryByEid, h, ih]

theorem findEntryByEid_first (dstEid : Nat) (entry : routingTableEntry_t)
    (post : List routingTableEntry_t) (hentry : entry.1 = dstEid) :
    ∀ pre : List routingTableEntry_t, (∀ x ∈ pre, x.1 ≠ dstEid) →
      findEntryByEid (pre ++ entry :: post) dstEid = some entry := by
  intro pre
  induction pre with
  | nil => intro _; simp [findEntryByEid, hentry]
  | cons x pre ih =>
    intro h
    have hx : x.1 ≠ dstEid := h x (List.mem_cons_self _ _)
    simp only [List.cons_append, findEntryByEid, if_neg hx]
    exact ih (fun y hy => h y (List.mem_cons_of_mem _ hy))

/-- C16. `PCIeBinding::getBindingPrivateData(dstEid)` returns no value exactly when no
entry of `routingTable` has the EID `dstEid`; otherwise it returns the routing tag
RouteByID and, as `remote_id`, the physical address of the first entry of `routingTable`
whose EID is `dstEid`. -/
theorem getBindingPrivateData_spec (L : Libmctp) (b : PCIeBinding) (dstEid : Nat) :
    (getBindingPrivateData L b dstEid = none ↔ ∀ entry ∈ b.routingTable, entry.1 ≠ dstEid) ∧
    (∀ (pre : List routingTableEntry_t) (entry : routingTableEntry_t)
        (post : List routingTableEntry_t),
      b.routingTable = pre ++ entry :: post → (∀ x ∈ pre, x.1 ≠ dstEid) →
      entry.1 = dstEid →
      getBindingPrivateData L b dstEid =
        some { routing := L.PCIE_ROUTE_BY_ID, remote_id := entry.2.1 }) := by
  constructor
  · rw [← findEntryByEid_eq_none]
    unfold getBindingPrivateData
    cases findEntryByEid b.routingTable dstEid <;> simp
  · intro pre entry post htable hpre hentry
    unfold getBindingPrivateData
    rw [htable, findEntryByEid_first dstEid entry post hentry pre hpre]

/-- C17. What `PCIeBinding::getBindingMode(entry)` returns, for every routing entry. It
returns BusOwner when the physical address of the entry equals `busOwnerBdf`, whatever
the role bits are; for any other entry it returns Bridge when the whole `entry_type` byte
equals one of the two bridge constants and Endpoint when it does not. With the values of
the libmctp headers, where `isEntryBridge` reads the role from the bits 7:6 of the byte,
an entry for which `isEntryBridge` holds never gets Bridge: away from `busOwnerBdf` it
gets Endpoint, and the only bytes that get Bridge are `0x01` and `0x02`, which carry the
role Endpoint. -/
theorem getBindingMode_spec (L : Libmctp) (b : PCIeBinding) (entry : routingTableEntry_t) :
    (entry.2.1 = b.busOwnerBdf → getBindingMode L b entry = BindingModeTypes.BusOwner) ∧
    (entry.2.1 ≠ b.busOwnerBdf →
      getBindingMode L b entry =
        if entry.2.2 = L.MCTP_ROUTING_ENTRY_BRIDGE_AND_ENDPOINTS ∨
            entry.2.2 = L.MCTP_ROUTING_ENTRY_BRIDGE then BindingModeTypes.Bridge
        else BindingModeTypes.Endpoint) ∧
    (isEntryBridge libmctp entry = true →
      getBindingMode libmctp b entry ≠ BindingModeTypes.Bridge) ∧
    (isEntryBridge libmctp entry = true → entry.2.1 ≠ b.busOwnerBdf →
      getBindingMode libmctp b entry = BindingModeTypes.Endpoint) ∧
    (entry.2.1 ≠ b.busOwnerBdf → (entry.2.2 = 0x01 ∨ entry.2.2 = 0x02) →
      isEntryBridge libmctp entry = false ∧
      libmctp.GET_ROUTING_ENTRY_TYPE entry.2.2 = libmctp.MCTP_ROUTING_ENTRY_ENDPOINT ∧
      getBindingMode libmctp b entry = BindingModeTypes.Bridge) := by
  have hbridge : isEntryBridge libmctp entry = true →
      ¬ (entry.2.2 = 1 ∨ entry.2.2 = 2) := by
    intro h
    simp only [isEntryBridge, libmctp, Bool.or_eq_true, beq_iff_eq] at h
    omega
  refine ⟨?_, ?_, ?_, ?_, ?_⟩
  · intro h
    simp [getBindingMode, h]
  · intro h
    simp only [getBindingMode, if_neg h]
  · intro h
    have h' := hbridge h
    simp only [getBindingMode, libmctp]
    split_ifs <;> simp
  · intro h hne
    have h' := hbridge h
    simp only [getBindingMode, libmctp, if_neg hne, if_neg h']
  · intro hne h
    refine ⟨?_, ?_, ?_⟩
    · rcases h with h | h <;> simp [isEntryBridge, libmctp, h]
    · rcases h with h | h <;> simp [libmctp, h]
    · simp only [getBindingMode, libmctp, if_neg hne, if_pos h]

/-- The entry of a bridge as a routing table reports it (role Bridge in the bits 7:6,
`entry_type` `0x80`), away from `busOwnerBdf`: `isEntryBridge` holds and `getBindingMode`
returns Endpoint. -/
theorem getBindingMode_spec_witness :
    isEntryBridge libmctp (0x20, 0xB000, 0x80) = true ∧
    getBindingMode libmctp exampleBinding (0x20, 0xB000, 0x80) = BindingModeTypes.Endpoint :=
  ⟨by decide,
    (getBindingMode_spec libmctp exampleBinding (0x20, 0xB000, 0x80)).2.2.2.1 (by decide)
      (by decide)⟩

/-- The comparison with `busOwnerBdf` comes first: the entry with the role Bridge
(`entry_type` `0x80`) at the physical address `busOwnerBdf` gets BusOwner; and the byte
`0x02`, whose role bits say Endpoint, gets Bridge. -/
theorem getBindingMode_examples :
    isEntryBridge libmctp (0x20, 0xBEEF, 0x80) = true ∧
    getBindingMode libmctp exampleBinding (0x20, 0xBEEF, 0x80) = BindingModeTypes.BusOwner ∧
    isEntryBridge libmctp (0x21, 0xB000, 0x02) = false ∧
    getBindingMode libmctp exampleBinding (0x21, 0xB000, 0x02) = BindingModeTypes.Bridge :=
  by decide

/-! ## Bandwidth reservation -/

theorem muxPortMapCount_ne_zero (muxPortMap : List (Int × Int)) (fd : Int) :
    muxPortMapCount muxPortMap fd ≠ 0 ↔ isMuxFd muxPortMap fd := by
  unfold muxPortMapCount isMuxFd
  by_cases h : muxPortMap.any (fun port => port.1 == fd) = true
  · simp only [h, if_true]
    simp only [List.any_eq_true, beq_iff_eq] at h
    simp [h]
  · simp only [h]
    simp only [List.any_eq_true, beq_iff_eq] at h
    simp [h]

/-- The private data the SMBus binding returns for an EID: those of the first row of the
device table with that EID, with the mux flag set exactly for a mux leaf. -/
theorem getBindingPrivateDataLoop_eq (muxPortMap : List (Int × Int)) (dstEid : Nat)
    (table : List DeviceTableEntry_t) :
    getBindingPrivateDataLoop muxPortMap dstEid table =
      (findDeviceByEid table dstEid).map fun device =>
        { fd := device.2.fd
          mux_hold_timeout := if isMuxFd muxPortMap device.2.fd then 1000 else 0
          mux_flags := if isMuxFd muxPortMap device.2.fd then IS_MUX_PORT else 0
          slave_addr := device.2.slave_addr } := by
  induction table with
  | nil => rfl
  | cons device rest ih =>
    by_cases h : device.1 = dstEid
    · by_cases hm : isMuxFd muxPortMap device.2.fd
      · have := (muxPortMapCount_ne_zero muxPortMap device.2.fd).2 hm
        simp [getBindingPrivateDataLoop, findDeviceByEid, h, hm, this]
      · have : ¬ muxPortMapCount muxPortMap device.2.fd ≠ 0 :=
          fun hc => hm ((muxPortMapCount_ne_zero muxPortMap device.2.fd).1 hc)
        simp only [ne_eq, not_not] at this
        simp [getBindingPrivateDataLoop, findDeviceByEid, h, hm, this]
    · simp [getBindingPrivateDataLoop, findDeviceByEid, h, ih]

theorem findDeviceByEid_eq_none (table : List DeviceTableEntry_t) (eid : Nat) :
    findDeviceByEid table eid = none ↔ ∀ device ∈ table, device.1 ≠ eid := by
  induction table with
  | nil => simp [findDeviceByEid]
  | cons d rest ih =>
    by_cases h : d.1 = eid
    · simp [findDeviceByEid, h]
    · simp [findDeviceByEid, h, ih]

/-- C18. `SMBusBinding::reserveBandwidth(eid, timeout)` returns false and changes
nothing (no call of the driver or of `setMuxIdleMode`, no call on the timer, `rsvBWActive`
and `reservedEID` as before) when a reservation is active for another EID, or no row of
the device table has the EID, or the binding-private of the EID has not the mux flag
`IS_MUX_PORT`, which is the case when the descriptor of its first row is not a mux
leaf. -/
theorem reserveBandwidth_rejects (b : SMBusBinding) (eid timeout : Nat) (initPullModel : Int)
    (h : (b.rsvBWActive = true ∧ eid ≠ b.reservedEID) ∨
      (∀ device ∈ b.smbusDeviceTable, device.1 ≠ eid) ∨
      (∃ prvt, b.getBindingPrivateData eid = some prvt ∧ prvt.mux_flags ≠ IS_MUX_PORT) ∨
      (∃ device, findDeviceByEid b.smbusDeviceTable eid = some device ∧
        ¬ isMuxFd b.muxPortMap device.2.fd)) :
    b.reserveBandwidth eid timeout initPullModel = (false, b) := by
  unfold SMBusBinding.reserveBandwidth
  by_cases hbusy : b.rsvBWActive = true ∧ eid ≠ b.reservedEID
  · rw [if_pos hbusy]
  · rw [if_neg hbusy]
    rcases h with h | h | h | h
    · exact absurd h hbusy
    · have hnone : b.getBindingPrivateData eid = none := by
        unfold SMBusBinding.getBindingPrivateData
        rw [getBindingPrivateDataLoop_eq, (findDeviceByEid_eq_none _ _).2 h]
        rfl
      rw [hnone]
    · obtain ⟨prvt, hp, hflags⟩ := h
      rw [hp]
      simp only [if_pos hflags]
    · obtain ⟨device, hd, hmux⟩ := h
      have hp : b.getBindingPrivateData eid = some
          { fd := device.2.fd, mux_hold_timeout := 0, mux_flags := 0,
            slave_addr := device.2.slave_addr } := by
        unfold SMBusBinding.getBindingPrivateData
        rw [getBindingPrivateDataLoop_eq, hd]
        simp [hmux]
      rw [hp]
      simp [IS_MUX_PORT]

/-- The three rejections on the example bindings: another EID holds the reservation, the
EID `0x12` has no row, the EID `0x11` is on the root bus. -/
theorem reserveBandwidth_rejects_witness :
    exampleReserved.reserveBandwidth 0x11 5 0 = (false, exampleReserved) ∧
    exampleSMBus.reserveBandwidth 0x12 5 0 = (false, exampleSMBus) ∧
    exampleSMBus.reserveBandwidth 0x11 5 0 = (false, exampleSMBus) :=
  ⟨reserveBandwidth_rejects exampleReserved 0x11 5 0 (Or.inl (by decide)),
   reserveBandwidth_rejects exampleSMBus 0x12 5 0 (Or.inr (Or.inl (by decide))),
   reserveBandwidth_rejects exampleSMBus 0x11 5 0
    (Or.inr (Or.inr (Or.inr
      ⟨(0x11, { fd := 3, mux_hold_timeout := 0, mux_flags := 0, slave_addr := 0x62 }),
        by decide, by decide⟩)))⟩

/-- C19. With no reservation active and no wait on the timer, for an EID whose row is
on a mux leaf: `reserveBandwidth(eid, T)` for which the driver enters the pull model,
followed by `reserveBandwidth(eid, T')` before the timer expires, returns true both
times; across the pair the enter sequence (`mctp_smbus_init_pull_model`, mux idle mode
Connect) runs once and the timer is set twice, the second time cancelling the one wait
of the first (`ret` is 1); the reservation is active for `eid`. The handler of the
cancelled wait, when the event loop invokes it, makes no call and leaves the reservation
active: it resets `ret` only. -/
theorem reserveBandwidth_twice (b : SMBusBinding) (eid T T' : Nat)
    (initPullModel initPullModel' exitPullModel : Int) (device : DeviceTableEntry_t)
    (hidle : b.rsvBWActive = false) (hwaits : b.reserveBWTimerWaits = [])
    (hready : b.readyHandlers = [])
    (hdevice : findDeviceByEid b.smbusDeviceTable eid = some device)
    (hmux : isMuxFd b.muxPortMap device.2.fd) (hinit : 0 ≤ initPullModel) :
    let prvt : mctp_smbus_pkt_private :=
      { fd := device.2.fd, mux_hold_timeout := 1000, mux_flags := IS_MUX_PORT,
        slave_addr := device.2.slave_addr }
    let r1 := b.reserveBandwidth eid T initPullModel
    let r2 := r1.2.reserveBandwidth eid T' initPullModel'
    let b3 := r2.2.runReadyHandler exitPullModel
    (r1.1 = true ∧ r2.1 = true) ∧
    r2.2.calls = b.calls ++
      [SMBusCall.mctp_smbus_init_pull_model prvt,
        SMBusCall.setMuxIdleMode MuxIdleModes.muxIdleModeConnect,
        SMBusCall.expires_after (T * 1000), SMBusCall.async_wait,
        SMBusCall.expires_after (T' * 1000), SMBusCall.async_wait] ∧
    (r1.2.ret = 0 ∧ r2.2.ret = 1) ∧
    (r2.2.reserveBWTimerWaits = [prvt] ∧
      r2.2.readyHandlers = [(WaitError.operation_aborted, prvt)]) ∧
    (r2.2.rsvBWActive = true ∧ r2.2.reservedEID = eid) ∧
    (b3.calls = r2.2.calls ∧ b3.rsvBWActive = true ∧ b3.reservedEID = eid ∧
      b3.reserveBWTimerWaits = [prvt] ∧ b3.readyHandlers = [] ∧ b3.ret = 0) := by
  have hp : b.getBindingPrivateData eid = some
      { fd := device.2.fd, mux_hold_timeout := 1000, mux_flags := IS_MUX_PORT,
        slave_addr := device.2.slave_addr } := by
    unfold SMBusBinding.getBindingPrivateData
    rw [getBindingPrivateDataLoop_eq, hdevice]
    simp [hmux]
  have hinit' : ¬ initPullModel < 0 := by omega
  simp only [SMBusBinding.reserveBandwidth, SMBusBinding.getBindingPrivateData] at hp ⊢
  simp [hidle, hp, hinit', SMBusBinding.startTimerAndReleaseBW, SMBusBinding.cancelWaits,
    hwaits, hready, SMBusBinding.runReadyHandler, SMBusBinding.reserveBWTimerHandler]

/-- Two reservations for the EID `0x10` of the example binding. -/
theorem reserveBandwidth_twice_witness :
    ((exampleSMBus.reserveBandwidth 0x10 2 0).2.reserveBandwidth 0x10 3 0).2.calls =
      [SMBusCall.mctp_smbus_init_pull_model examplePrvt,
        SMBusCall.setMuxIdleMode MuxIdleModes.muxIdleModeConnect,
        SMBusCall.expires_after 2000, SMBusCall.async_wait,
        SMBusCall.expires_after 3000, SMBusCall.async_wait] :=
  (reserveBandwidth_twice exampleSMBus 0x10 2 3 0 0 0
    (0x10, { fd := 5, mux_hold_timeout := 0, mux_flags := 0, slave_addr := 0x60 })
    rfl rfl rfl (by decide) (by decide) (by decide)).2.1

/-- C20, amended. For an active reservation with one wait on the timer, `ret` 0 and no
handler ready: when the timer expires, or when `releaseBandwidth` of the reserved EID
cancels it (returning true), the handler of the wait runs the exit path once: mux idle
mode Disconnect is written and `mctp_smbus_exit_pull_model` is called once, and no wait
or handler is left. Afterwards `rsvBWActive` is false and `reservedEID` is 0 if the
driver call did not fail; if it failed both are as before. -/
theorem reservation_exit_path (b : SMBusBinding) (prvt : mctp_smbus_pkt_private)
    (exitPullModel : Int)
    (hactive : b.rsvBWActive = true) (hret : b.ret = 0)
    (hwaits : b.reserveBWTimerWaits = [prvt]) (hready : b.readyHandlers = []) :
    let fired := b.timerExpires.runReadyHandler exitPullModel
    let released := b.releaseBandwidth b.reservedEID
    let cancelled := released.2.runReadyHandler exitPullModel
    (fired.calls = b.calls ++
        [SMBusCall.setMuxIdleMode MuxIdleModes.muxIdleModeDisconnect,
          SMBusCall.mctp_smbus_exit_pull_model prvt] ∧
      fired.reserveBWTimerWaits = [] ∧ fired.readyHandlers = [] ∧
      (0 ≤ exitPullModel → fired.rsvBWActive = false ∧ fired.reservedEID = 0) ∧
      (exitPullModel < 0 → fired.rsvBWActive = true ∧ fired.reservedEID = b.reservedEID)) ∧
    (released.1 = true ∧
      cancelled.calls = b.calls ++
        [SMBusCall.cancel, SMBusCall.setMuxIdleMode MuxIdleModes.muxIdleModeDisconnect,
          SMBusCall.mctp_smbus_exit_pull_model prvt] ∧
      cancelled.reserveBWTimerWaits = [] ∧ cancelled.readyHandlers = [] ∧
      (0 ≤ exitPullModel → cancelled.rsvBWActive = false ∧ cancelled.reservedEID = 0) ∧
      (exitPullModel < 0 →
        cancelled.rsvBWActive = true ∧ cancelled.reservedEID = b.reservedEID)) := by
  by_cases hexit : exitPullModel < 0
  · have h0 : ¬ 0 ≤ exitPullModel := by omega
    simp [SMBusBinding.timerExpires, SMBusBinding.runReadyHandler,
      SMBusBinding.reserveBWTimerHandler, SMBusBinding.releaseBandwidth,
      SMBusBinding.cancelWaits, hactive, hret, hwaits, hready, hexit, h0]
  · have h0 : 0 ≤ exitPullModel := by omega
    simp [SMBusBinding.timerExpires, SMBusBinding.runReadyHandler,
      SMBusBinding.reserveBWTimerHandler, SMBusBinding.releaseBandwidth,
      SMBusBinding.cancelWaits, hactive, hret, hwaits, hready, hexit, h0]

/-- The timer of the example reservation expires and the driver call succeeds. -/
theorem reservation_exit_path_witness :
    (exampleReserved.timerExpires.runReadyHandler 0).calls =
      [SMBusCall.setMuxIdleMode MuxIdleModes.muxIdleModeDisconnect,
        SMBusCall.mctp_smbus_exit_pull_model examplePrvt] ∧
    (exampleReserved.timerExpires.runReadyHandler 0).rsvBWActive = false ∧
    (exampleReserved.timerExpires.runReadyHandler 0).reservedEID = 0 :=
  have h := (reservation_exit_path exampleReserved examplePrvt 0 rfl rfl rfl rfl).1
  ⟨h.1, h.2.2.2.1 (by decide)⟩

/-- C20, as stated, fails. The timer of the example reservation expires and
`mctp_smbus_exit_pull_model` fails: the exit path has run (mux idle mode Disconnect, one
call of the driver), but `rsvBWActive` is still true and `reservedEID` is still
`0x10`. -/
theorem reservation_exit_path_counterexample :
    exampleReserved.rsvBWActive = true ∧
    (exampleReserved.timerExpires.runReadyHandler (-1)).calls =
      [SMBusCall.setMuxIdleMode MuxIdleModes.muxIdleModeDisconnect,
        SMBusCall.mctp_smbus_exit_pull_model examplePrvt] ∧
    (exampleReserved.timerExpires.runReadyHandler (-1)).rsvBWActive = true ∧
    (exampleReserved.timerExpires.runReadyHandler (-1)).reservedEID = 0x10 := by
  decide

/-! ## Lookups in the device table, the bytes of a BDF, and Get VDM Support -/

theorem getEIDFromDeviceTableLoop_eq (bp : mctp_smbus_pkt_private) (eid : Nat) :
    ∀ table : List DeviceTableEntry_t,
      getEIDFromDeviceTableLoop bp eid table =
        ((table.find? fun row => decide ((row.2.fd, row.2.slave_addr) = (bp.fd, bp.slave_addr))).map
          fun row => row.1).getD eid := by
  intro table
  induction table with
  | nil => rfl
  | cons row rest ih =>
    unfold getEIDFromDeviceTableLoop
    by_cases h : row.2.slave_addr = bp.slave_addr ∧ row.2.fd = bp.fd
    · simp [h, List.find?_cons]
    · have h' : ¬ (row.2.fd = bp.fd ∧ row.2.slave_addr = bp.slave_addr) := fun hh => h ⟨hh.2, hh.1⟩
      simp only [h, if_false, List.find?_cons, Prod.mk.injEq, h', decide_False, ih]

/-- C22. `SMBusBinding::getEIDFromDeviceTable` returns the EID of the first row of the
device table whose `(fd, slave_addr)` equals that of the binding-private it is given, and
the EID `0x00` when no row matches; two binding-privates with the same `fd` and the same
`slave_addr` give the same result whatever their `mux_flags` and `mux_hold_timeout` are;
and `isBindingDataSame` returns true exactly when `fd` and `slave_addr` agree. -/
theorem getEIDFromDeviceTable_spec (L : Libmctp) (hNull : L.MCTP_EID_NULL = 0x00)
    (b : SMBusBinding) (bp bp' : mctp_smbus_pkt_private) :
    b.getEIDFromDeviceTable L bp =
      ((b.smbusDeviceTable.find? fun row =>
        decide ((row.2.fd, row.2.slave_addr) = (bp.fd, bp.slave_addr))).map
          fun row => row.1).getD 0x00 ∧
    (bp'.fd = bp.fd → bp'.slave_addr = bp.slave_addr →
      b.getEIDFromDeviceTable L bp' = b.getEIDFromDeviceTable L bp) ∧
    (∀ dataMain dataTmp : mctp_smbus_pkt_private,
      isBindingDataSame dataMain dataTmp = true ↔
        (dataMain.fd = dataTmp.fd ∧ dataMain.slave_addr = dataTmp.slave_addr)) := by
  refine ⟨?_, ?_, ?_⟩
  · rw [SMBusBinding.getEIDFromDeviceTable, getEIDFromDeviceTableLoop_eq, hNull]
  · intro h1 h2
    rw [SMBusBinding.getEIDFromDeviceTable, SMBusBinding.getEIDFromDeviceTable,
      getEIDFromDeviceTableLoop_eq, getEIDFromDeviceTableLoop_eq, h1, h2]
  · intro dataMain dataTmp
    simp [isBindingDataSame]

/-- The lookup in the device table of `exampleSMBus`: the mux flags and the timeout of
the binding-private do not matter, and an address the table lacks gives the EID 0. -/
theorem getEIDFromDeviceTable_spec_witness :
    exampleSMBus.getEIDFromDeviceTable libmctp
        { fd := 5, mux_hold_timeout := 1000, mux_flags := 0x80, slave_addr := 0x60 } = 0x10 ∧
    exampleSMBus.getEIDFromDeviceTable libmctp
        { fd := 5, mux_hold_timeout := 0, mux_flags := 0, slave_addr := 0x60 } = 0x10 ∧
    exampleSMBus.getEIDFromDeviceTable libmctp
        { fd := 5, mux_hold_timeout := 0, mux_flags := 0, slave_addr := 0x62 } = 0x00 :=
  ⟨((getEIDFromDeviceTable_spec libmctp rfl exampleSMBus
      { fd := 5, mux_hold_timeout := 1000, mux_flags := 0x80, slave_addr := 0x60 }
      { fd := 5, mux_hold_timeout := 0, mux_flags := 0, slave_addr := 0x60 }).1).trans
      (by decide),
    by decide, by decide⟩

/-- C26. For every 16-bit BDF, the two bytes `htobe16` leaves in memory are the high
byte and the low byte of the BDF, in this order, and `PCIeBinding::getRoutingEntryPhysAddr`
applied to a response that holds them at `entryOffset` returns the BDF; on every response
it returns `resp[entryOffset] * 256 + resp[entryOffset + 1]`. -/
theorem getRoutingEntryPhysAddr_roundtrip (bdf : Nat) (hbdf : bdf < 65536)
    (pre rest : List Nat) :
    uint16Bytes (htobe16 bdf) = [bdf / 256, bdf % 256] ∧
    getRoutingEntryPhysAddr (pre ++ (uint16Bytes (htobe16 bdf) ++ rest)) pre.length = bdf ∧
    ∀ (resp : List Nat) (entryOffset : Nat),
      getRoutingEntryPhysAddr resp entryOffset =
        byteAt resp entryOffset * 256 + byteAt resp (entryOffset + 1) := by
  have hgen : ∀ (resp : List Nat) (entryOffset : Nat),
      getRoutingEntryPhysAddr resp entryOffset =
        byteAt resp entryOffset * 256 + byteAt resp (entryOffset + 1) := by
    intro resp entryOffset
    rw [getRoutingEntryPhysAddr, be16_or _ _ (byteAt_lt _ _) (byteAt_lt _ _)]
  have hbytes : uint16Bytes (htobe16 bdf) = [bdf / 256, bdf % 256] := by
    have hhi : bdf / 256 < 256 := by omega
    have hlo : bdf % 256 < 256 := Nat.mod_lt _ (by norm_num)
    simp only [uint16Bytes, htobe16, Nat.mod_eq_of_lt hhi]
    generalize bdf / 256 = hi at hhi ⊢
    generalize bdf % 256 = lo at hlo ⊢
    congr 1
    · omega
    · congr 1; omega
  refine ⟨hbytes, ?_, hgen⟩
  rw [hgen, hbytes]
  have h0 := byteAt_append_right pre ([bdf / 256, bdf % 256] ++ rest) 0
  have h1 := byteAt_append_right pre ([bdf / 256, bdf % 256] ++ rest) 1
  rw [Nat.add_zero] at h0
  rw [h0, h1]
  simp only [byteAt, List.cons_append, List.getD_cons_zero, List.getD_cons_succ]
  omega

/-- The BDF `0xA1B2` of the second scenario of the spec. -/
theorem getRoutingEntryPhysAddr_roundtrip_witness :
    getRoutingEntryPhysAddr ([0, 0, 0, 0, 0xff, 1, 1, 0x10, 0, 2, 0, 2] ++
      (uint16Bytes (htobe16 0xA1B2) ++ [])) 12 = 0xA1B2 :=
  (getRoutingEntryPhysAddr_roundtrip 0xA1B2 (by decide)
    [0, 0, 0, 0, 0xff, 1, 1, 0x10, 0, 2, 0, 2] []).2.1

/-- C29. `PCIeBinding::handleGetVdmSupport`, for a database of `N` sets and a request
with the selector `i`, when the library call succeeds: the handler returns true and the
routing of the response is RouteToRC. If `i < N` the response carries the vendor ID
format, the vendor ID and the command set type of the set `i`, and its selector is `i + 1`
(a `uint8_t`) when `i + 1 < N` and `0xFF` when `i` is the last index; the response keeps its
full size. If `i ≥ N` the completion code is the error code and the response is cut down to
the control header and the completion code. When the library call fails the handler
returns false. -/
theorem handleGetVdmSupport_spec (L : Libmctp) (vendorIdNoMoreSets : Nat)
    (hNoMore : vendorIdNoMoreSets = 0xFF) (vdmSetDatabase : List VdmSet)
    (bindingPrivate : mctp_nupcie_pkt_private) (i : Nat) (hi : i < 256)
    (resp lib : mctp_pci_ctrl_resp_get_vdm_support) :
    let r := handleGetVdmSupport L vendorIdNoMoreSets vdmSetDatabase bindingPrivate i resp
      (some lib)
    r.ret = true ∧ r.bindingPrivate.routing = L.PCIE_ROUTE_TO_RC ∧
    r.bindingPrivate.remote_id = bindingPrivate.remote_id ∧
    (∀ h : i < vdmSetDatabase.length,
      r.resp.vendor_id_format = vdmSetDatabase[i].vendorIdFormat ∧
      r.resp.vendor_id_data = vdmSetDatabase[i].vendorId ∧
      r.resp.command_set_type = vdmSetDatabase[i].commandSetType ∧
      r.resp.vendor_id_set_selector =
        (if i + 1 < vdmSetDatabase.length then (i + 1) % 256 else 0xFF) ∧
      r.resp.completion_code = lib.completion_code ∧
      r.responseSize = L.sizeof_pci_resp_get_vdm_support) ∧
    (vdmSetDatabase.length ≤ i →
      r.resp.completion_code = L.MCTP_CTRL_CC_ERROR_UNSUPPORTED_CMD ∧
      r.responseSize = L.sizeof_ctrl_msg_hdr + 1) ∧
    (handleGetVdmSupport L vendorIdNoMoreSets vdmSetDatabase bindingPrivate i resp none).ret
      = false := by
  have hmod : i % 256 = i := Nat.mod_eq_of_lt hi
  intro r
  by_cases hlt : i < vdmSetDatabase.length
  · have hget : vdmSetDatabase.getD i ⟨0, 0, 0⟩ = vdmSetDatabase[i] := by
      simp [List.getD_eq_getElem?_getD, List.getElem?_eq_getElem hlt]
    have hnot : ¬ (i + 1 > vdmSetDatabase.length) := by omega
    have hr : r =
        { ret := true, bindingPrivate := { bindingPrivate with routing := L.PCIE_ROUTE_TO_RC },
          resp := { lib with
            vendor_id_set_selector :=
              if i + 1 = vdmSetDatabase.length then 0xFF else (i + 1) % 256
            vendor_id_format := vdmSetDatabase[i].vendorIdFormat
            vendor_id_data := vdmSetDatabase[i].vendorId
            command_set_type := vdmSetDatabase[i].commandSetType },
          responseSize := L.sizeof_pci_resp_get_vdm_support } := by
      simp only [r, handleGetVdmSupport, hmod, hnot, if_false, hget, hNoMore]
    rw [hr]
    refine ⟨rfl, rfl, rfl, ?_, fun h => absurd hlt (by omega), rfl⟩
    intro _
    refine ⟨rfl, rfl, rfl, ?_, rfl, rfl⟩
    by_cases hlast : i + 1 = vdmSetDatabase.length
    · simp [hlast]
    · have h2 : i + 1 < vdmSetDatabase.length := by omega
      simp only [hlast, if_false, h2, if_true]
  · have hgt : i + 1 > vdmSetDatabase.length := by omega
    have hr : r =
        { ret := true, bindingPrivate := { bindingPrivate with routing := L.PCIE_ROUTE_TO_RC },
          resp := { lib with completion_code := L.MCTP_CTRL_CC_ERROR_UNSUPPORTED_CMD },
          responseSize := L.sizeof_ctrl_msg_hdr + 1 } := by
      simp only [r, handleGetVdmSupport, hmod, hgt, if_true]
    rw [hr]
    exact ⟨rfl, rfl, rfl, fun h => absurd h hlt, fun _ => ⟨rfl, rfl⟩, rfl⟩

/-- A database of two sets: the selector 0 is answered with the first set and the next
selector 1, the selector 1 with the second set and the selector `0xFF`, and the selector 2
with the error code and a response of four bytes. -/
theorem handleGetVdmSupport_spec_witness :
    (handleGetVdmSupport libmctp 0xFF [⟨0, 0x8086, 0x1234⟩, ⟨1, 0x1AB4, 0x0001⟩]
        { routing := 2, remote_id := 0xBEEF } 1 ⟨0, 0, 0, 0, 0⟩ (some ⟨0, 0, 0, 0, 0⟩)).resp
      = ⟨0, 0xFF, 1, 0x1AB4, 0x0001⟩ ∧
    (handleGetVdmSupport libmctp 0xFF [⟨0, 0x8086, 0x1234⟩, ⟨1, 0x1AB4, 0x0001⟩]
        { routing := 2, remote_id := 0xBEEF } 0 ⟨0, 0, 0, 0, 0⟩ (some ⟨0, 0, 0, 0, 0⟩)).resp
      = ⟨0, 1, 0, 0x8086, 0x1234⟩ ∧
    (handleGetVdmSupport libmctp 0xFF [⟨0, 0x8086, 0x1234⟩, ⟨1, 0x1AB4, 0x0001⟩]
        { routing := 2, remote_id := 0xBEEF } 2 ⟨0, 0, 0, 0, 0⟩
        (some ⟨0, 0, 0, 0, 0⟩)).responseSize = 4 ∧
    (handleGetVdmSupport libmctp 0xFF [⟨0, 0x8086, 0x1234⟩, ⟨1, 0x1AB4, 0x0001⟩]
        { routing := 2, remote_id := 0xBEEF } 1 ⟨0, 0, 0, 0, 0⟩
        (some ⟨0, 0, 0, 0, 0⟩)).bindingPrivate.routing = 0 :=
  have h := handleGetVdmSupport_spec libmctp 0xFF rfl [⟨0, 0x8086, 0x1234⟩, ⟨1, 0x1AB4, 0x0001⟩]
    { routing := 2, remote_id := 0xBEEF } 1 (by decide) ⟨0, 0, 0, 0, 0⟩ ⟨0, 0, 0, 0, 0⟩
  ⟨by decide, by decide, by decide, h.2.1⟩

/-! ## Scanning the ports -/

theorem mem_setInsert (x p : Int × Nat) :
    ∀ s : List (Int × Nat), p ∈ setInsert s x ↔ p = x ∨ p ∈ s := by
  intro s
  induction s with
  | nil => simp [setInsert]
  | cons y ys ih =>
    unfold setInsert
    split_ifs with h1 h2
    · subst h1
      simp only [List.mem_cons]
      tauto
    · simp only [List.mem_cons]
    · simp only [List.mem_cons, ih]
      tauto

theorem mem_scanPortAdd (b : SMBusBinding) (scanFd : Int) (it : Nat)
    (deviceMap : List (Int × Nat)) (p : Int × Nat) :
    p ∈ scanPortAdd b scanFd it deviceMap ↔
      p ∈ deviceMap ∨
        (p = (scanFd, it) ∧ (scanFd ≠ b.outFd → (b.outFd, it) ∉ b.rootDeviceMap)) := by
  unfold scanPortAdd setCount
  by_cases hfd : scanFd ≠ b.outFd
  · by_cases hroot : (b.outFd, it) ∈ b.rootDeviceMap
    · simp only [hfd, hroot, if_true, ne_eq, not_false_eq_true, one_ne_zero, and_self,
        not_true_eq_false, imp_false, and_false, or_false]
    · simp only [hfd, hroot, if_false, ne_eq, not_false_eq_true, not_true_eq_false, and_false,
        mem_setInsert, imp_self, and_true]
      tauto
  · simp only [hfd, false_and, if_false, mem_setInsert, false_implies, and_true]
    tauto

/-- The elements of the device map after the loop of `scanPort`. -/
theorem mem_scanPortLoop (b : SMBusBinding) (scanFd : Int) (probe : Nat → ProbeOutcome)
    (p : Int × Nat) :
    ∀ (addrs : List Nat) (deviceMap : List (Int × Nat)),
      p ∈ scanPortLoop b scanFd probe addrs deviceMap ↔
        p ∈ deviceMap ∨
          (p.1 = scanFd ∧ p.2 ∈ addrs ∧ answersProbe p.2 (probe p.2) ∧
            (scanFd ≠ b.outFd → (b.outFd, p.2) ∉ b.rootDeviceMap)) := by
  intro addrs
  induction addrs with
  | nil => intro deviceMap; simp [scanPortLoop]
  | cons it rest ih =>
    intro deviceMap
    have hskip : ¬ answersProbe it (probe it) →
        (p ∈ scanPortLoop b scanFd probe rest deviceMap ↔
          p ∈ deviceMap ∨
            (p.1 = scanFd ∧ p.2 ∈ it :: rest ∧ answersProbe p.2 (probe p.2) ∧
              (scanFd ≠ b.outFd → (b.outFd, p.2) ∉ b.rootDeviceMap))) := by
      intro hno
      rw [ih]
      constructor
      · rintro (h | ⟨h1, h2, h3, h4⟩)
        · exact Or.inl h
        · exact Or.inr ⟨h1, List.mem_cons_of_mem _ h2, h3, h4⟩
      · rintro (h | ⟨h1, h2, h3, h4⟩)
        · exact Or.inl h
        · rcases List.mem_cons.mp h2 with h2 | h2
          · rw [h2] at h3; exact absurd h3 hno
          · exact Or.inr ⟨h1, h2, h3, h4⟩
    have hadd : answersProbe it (probe it) →
        (p ∈ scanPortLoop b scanFd probe rest (scanPortAdd b scanFd it deviceMap) ↔
          p ∈ deviceMap ∨
            (p.1 = scanFd ∧ p.2 ∈ it :: rest ∧ answersProbe p.2 (probe p.2) ∧
              (scanFd ≠ b.outFd → (b.outFd, p.2) ∉ b.rootDeviceMap))) := by
      intro hyes
      rw [ih, mem_scanPortAdd]
      constructor
      · rintro ((h | ⟨h, hroot⟩) | ⟨h1, h2, h3, h4⟩)
        · exact Or.inl h
        · subst h
          exact Or.inr ⟨rfl, List.mem_cons_self _ _, hyes, hroot⟩
        · exact Or.inr ⟨h1, List.mem_cons_of_mem _ h2, h3, h4⟩
      · rintro (h | ⟨h1, h2, h3, h4⟩)
        · exact Or.inl (Or.inl h)
        · rcases List.mem_cons.mp h2 with h2 | h2
          · refine Or.inl (Or.inr ⟨?_, ?_⟩)
            · exact Prod.ext h1 h2
            · rw [← h2]; exact h4
          · exact Or.inr ⟨h1, h2, h3, h4⟩
    unfold scanPortLoop
    by_cases hio : (probe it).ioctl < 0
    · rw [if_pos hio]
      exact hskip (by unfold answersProbe; omega)
    · rw [if_neg hio]
      by_cases hee : (it ≥ 0x30 ∧ it ≤ 0x37) ∨ (it ≥ 0x50 ∧ it ≤ 0x5F)
      · rw [if_pos hee]
        by_cases hrd : (probe it).i2c_smbus_read_byte < 0
        · rw [if_pos hrd]
          refine hskip ?_
          unfold answersProbe
          rw [if_pos hee]
          omega
        · rw [if_neg hrd]
          refine hadd ?_
          unfold answersProbe
          rw [if_pos hee]
          omega
      · rw [if_neg hee]
        by_cases hwr : (probe it).i2c_smbus_write_quick < 0
        · rw [if_pos hwr]
          refine hskip ?_
          unfold answersProbe
          rw [if_neg hee]
          omega
        · rw [if_neg hwr]
          refine hadd ?_
          unfold answersProbe
          rw [if_neg hee]
          omega

/-- What the loop of `scanMuxBus` adds stands under a mux port and is not an address of
the root bus. -/
theorem mem_scanMuxBusLoop (b : SMBusBinding) (probe : Int → Nat → ProbeOutcome)
    (p : Int × Nat) :
    ∀ (ports : List (Int × Int)) (deviceMap : List (Int × Nat)),
      (∀ port ∈ ports, port.1 ≠ b.outFd) →
      p ∈ scanMuxBusLoop b probe ports deviceMap →
      p ∈ deviceMap ∨ ((∃ port ∈ ports, port.1 = p.1) ∧ (b.outFd, p.2) ∉ b.rootDeviceMap) := by
  intro ports
  induction ports with
  | nil => intro deviceMap _ h; exact Or.inl h
  | cons port rest ih =>
    intro deviceMap hne h
    obtain ⟨muxFd, muxPort⟩ := port
    simp only [scanMuxBusLoop] at h
    rcases ih _ (fun q hq => hne q (List.mem_cons_of_mem _ hq)) h with h | ⟨⟨q, hq, hq1⟩, hroot⟩
    · unfold SMBusBinding.scanPort at h
      split_ifs at h with hneg
      · exact Or.inl h
      · rw [mem_scanPortLoop] at h
        rcases h with h | ⟨h1, _, _, h4⟩
        · exact Or.inl h
        · have hfd : muxFd ≠ b.outFd := hne (muxFd, muxPort) (List.mem_cons_self _ _)
          exact Or.inr ⟨⟨(muxFd, muxPort), List.mem_cons_self _ _, h1.symm⟩, h4 hfd⟩
    · exact Or.inr ⟨⟨q, List.mem_cons_of_mem _ hq, hq1⟩, hroot⟩

/-- C24. `SMBusBinding::scanPort(scanFd, deviceMap)` for a descriptor that is not
negative and differs from `outFd`, whatever the probes return: the device map holds
afterwards what it held before and the pairs `(scanFd, a)` for the supported addresses
`a` that answer their probe and for which `(outFd, a)` is not in `rootDeviceMap`. Hence
an address recorded for the root bus is not added under `scanFd`; a negative descriptor
leaves the device map as it is; and what `scanMuxBus` adds, when no mux port is `outFd`,
stands under a mux port and is not an address recorded for the root bus. -/
theorem scanPort_spec (b : SMBusBinding) (scanFd : Int) (probe : Nat → ProbeOutcome)
    (deviceMap : List (Int × Nat)) :
    (0 ≤ scanFd → scanFd ≠ b.outFd → ∀ p : Int × Nat,
      (p ∈ b.scanPort scanFd probe deviceMap ↔
        p ∈ deviceMap ∨
          (p.1 = scanFd ∧ p.2 ∈ b.supportedEndpointSlaveAddress ∧
            answersProbe p.2 (probe p.2) ∧ (b.outFd, p.2) ∉ b.rootDeviceMap))) ∧
    (scanFd ≠ b.outFd → ∀ a : Nat, (b.outFd, a) ∈ b.rootDeviceMap →
      (scanFd, a) ∈ b.scanPort scanFd probe deviceMap → (scanFd, a) ∈ deviceMap) ∧
    (scanFd < 0 → b.scanPort scanFd probe deviceMap = deviceMap) ∧
    (∀ probes : Int → Nat → ProbeOutcome, (∀ port ∈ b.muxPortMap, port.1 ≠ b.outFd) →
      ∀ p ∈ b.scanMuxBus probes deviceMap,
        p ∈ deviceMap ∨ (isMuxFd b.muxPortMap p.1 ∧ (b.outFd, p.2) ∉ b.rootDeviceMap)) := by
  refine ⟨?_, ?_, ?_, ?_⟩
  · intro h0 hne p
    unfold SMBusBinding.scanPort
    rw [if_neg (by omega), mem_scanPortLoop]
    simp only [hne, ne_eq, not_false_eq_true, true_implies]
  · intro hne a hroot h
    unfold SMBusBinding.scanPort at h
    split_ifs at h with hneg
    · exact h
    · rw [mem_scanPortLoop] at h
      rcases h with h | ⟨_, _, _, h4⟩
      · exact h
      · exact absurd hroot (h4 hne)
  · intro hneg
    unfold SMBusBinding.scanPort
    rw [if_pos hneg]
  · intro probes hne p hp
    exact mem_scanMuxBusLoop b probes p b.muxPortMap deviceMap hne hp

/-- The SMBus mux probe scenario: the scan of the root bus records `0x50`; the scan of
the mux leaves records `0x30` and `0x61` under the leaf, and `0x50`, which answers on the
leaf too, is not recorded a second time. -/
theorem scanPort_spec_witness :
    { exampleScan with rootDeviceMap := [] }.scanPort 4 (exampleProbe 4) [] = [(4, 0x50)] ∧
    exampleScan.scanMuxBus exampleProbe [] = [(6, 0x30), (6, 0x61)] ∧
    answersProbe 0x50 (exampleProbe 6 0x50) ∧
    (6, 0x50) ∉ exampleScan.scanPort 6 (exampleProbe 6) [] :=
  ⟨by decide, by decide, by decide, fun h =>
    List.not_mem_nil _
      ((scanPort_spec exampleScan 6 (exampleProbe 6) []).2.1 (by decide) 0x50 (by decide) h)⟩

/-! ## The rows of the SMBus walk -/

theorem pushEidRange_eq (starting_eid : Nat) (pvt : mctp_smbus_pkt_private) :
    ∀ (count eidRange : Nat) (table : List DeviceTableEntry_t),
      pushEidRange starting_eid pvt count eidRange table =
        table ++ (List.range count).map fun k => ((starting_eid + (eidRange + k)) % 256, pvt) := by
  intro count
  induction count with
  | zero => intro eidRange table; simp [pushEidRange]
  | succ count ih =>
    intro eidRange table
    rw [pushEidRange, ih, List.range_succ_eq_map]
    simp only [List.map_cons, List.map_map, List.append_assoc, List.singleton_append,
      Nat.add_zero]
    congr 2
    apply List.map_congr_left
    intro k _
    simp only [Function.comp, Nat.succ_eq_add_one]
    congr 2
    omega

/-- One iteration of the `for` loop of the SMBus walk on a well-formed entry. -/
theorem smbusRoutingTableEntry_wire (L : Libmctp) (hL : L.LayoutOk) (busOwnerFd : Int)
    (e : WireEntry) (hwf : e.WellFormed L) (pre rest : List Nat)
    (table : List DeviceTableEntry_t) :
    smbusRoutingTableEntry L busOwnerFd (pre ++ (e.raw ++ (e.addr ++ rest)))
        { smbusDeviceTableTmp := table, phyAddrOffset := pre.length } =
      { smbusDeviceTableTmp := table ++ smbusRowsOfEntry L busOwnerFd e,
        phyAddrOffset := pre.length + L.sizeof_routing_table_entry + e.phys_address_size L } := by
  obtain ⟨hraw, haddr⟩ := hwf
  obtain ⟨f1, f2, f3, f4, f5⟩ := fields_at L hL e hraw pre (e.addr ++ rest)
  unfold smbusRoutingTableEntry
  simp only [f1, f2, f3, f4, f5]
  by_cases hs : e.phys_transport_binding_id L = L.MCTP_BINDING_SMBUS ∧ e.phys_address_size L = 1
  · have h0 : byteAt (pre ++ (e.raw ++ (e.addr ++ rest))) (pre.length + L.sizeof_routing_table_entry)
        = byteAt e.addr 0 := by
      rw [← hraw, ← List.append_assoc, ← List.length_append]
      have := byteAt_append_right (pre ++ e.raw) (e.addr ++ rest) 0
      rw [Nat.add_zero] at this
      rw [this, byteAt_append_left _ _ _ (by rw [haddr, hs.2]; norm_num)]
    rw [if_pos hs, h0, pushEidRange_eq]
    simp only [smbusRowsOfEntry, hs, and_self, if_true, Nat.zero_add]
  · rw [if_neg hs]
    simp only [smbusRowsOfEntry, hs, if_false, List.append_nil]

/-- The `for` loop of the SMBus walk over well-formed entries. -/
theorem smbusRoutingTableEntries_wire (L : Libmctp) (hL : L.LayoutOk) (busOwnerFd : Int) :
    ∀ (es : List WireEntry) (pre rest : List Nat) (table : List DeviceTableEntry_t),
      (∀ e ∈ es, e.WellFormed L) →
      smbusRoutingTableEntries L busOwnerFd (pre ++ (wireBytes es ++ rest)) es.length
          { smbusDeviceTableTmp := table, phyAddrOffset := pre.length } =
        { smbusDeviceTableTmp := table ++ es.flatMap (smbusRowsOfEntry L busOwnerFd),
          phyAddrOffset := pre.length + (wireBytes es).length } := by
  intro es
  induction es with
  | nil => intro pre rest table _; simp [smbusRoutingTableEntries, wireBytes]
  | cons e es ih =>
    intro pre rest table hall
    have hwf := hall e (List.mem_cons_self _ _)
    have hstep := smbusRoutingTableEntry_wire L hL busOwnerFd e hwf pre (wireBytes es ++ rest)
      table
    have hbytes : pre ++ (wireBytes (e :: es) ++ rest)
        = pre ++ (e.raw ++ (e.addr ++ (wireBytes es ++ rest))) := by
      simp [wireBytes]
    have hbytes2 : pre ++ (wireBytes (e :: es) ++ rest)
        = (pre ++ (e.raw ++ e.addr)) ++ (wireBytes es ++ rest) := by
      simp [wireBytes]
    simp only [List.length_cons, smbusRoutingTableEntries]
    rw [hbytes, hstep, ← hbytes, hbytes2]
    have hlen : pre.length + L.sizeof_routing_table_entry + e.phys_address_size L
        = (pre ++ (e.raw ++ e.addr)).length := by
      simp [hwf.1, hwf.2, Nat.add_assoc]
    rw [hlen, ih (pre ++ (e.raw ++ e.addr)) rest _
      (fun x hx => hall x (List.mem_cons_of_mem _ hx))]
    simp [List.flatMap_cons, wireBytes, Nat.add_assoc]

/-- The `for` loop of the SMBus walk over a well-formed response. -/
theorem smbusRoutingTableEntries_response (L : Libmctp) (hL : L.LayoutOk) (busOwnerFd : Int)
    (r : WireResponse) (hwf : r.WellFormed L) (table : List DeviceTableEntry_t) :
    smbusRoutingTableEntries L busOwnerFd r.bytes (byteAt r.bytes L.offsetof_number_of_entries)
        { smbusDeviceTableTmp := table, phyAddrOffset := L.sizeof_resp_get_routing_table } =
      { smbusDeviceTableTmp := table ++ r.entries.flatMap (smbusRowsOfEntry L busOwnerFd),
        phyAddrOffset := r.bytes.length } := by
  obtain ⟨hhdr, hn, hes⟩ := hwf
  have hoff : L.offsetof_number_of_entries < r.hdr.length := by
    rw [hhdr]; exact hL.2.1
  have hcount : byteAt r.bytes L.offsetof_number_of_entries = r.entries.length := by
    rw [WireResponse.bytes, byteAt_append_left _ _ _ hoff, hn]
  have hbytes : r.bytes = r.hdr ++ (wireBytes r.entries ++ []) := by
    simp [WireResponse.bytes]
  rw [hcount, ← hhdr]
  conv_lhs => rw [hbytes]
  rw [smbusRoutingTableEntries_wire L hL busOwnerFd r.entries r.hdr [] table hes]
  simp [WireResponse.bytes]

/-- The `while` loop of the SMBus walk over a sequence of well-formed responses of which
the last, and only the last, carries the next entry handle `0xFF`. -/
theorem smbusRoutingWalkLoop_wire (L : Libmctp) (hL : L.LayoutOk) (busOwnerFd : Int)
    (net : Nat → Option (List Nat)) (last : WireResponse) (hlast : last.WellFormed L)
    (hff : byteAt last.hdr L.offsetof_next_entry_handle = 0xff) :
    ∀ (init : List WireResponse) (s : SMBusWalkState) (extra : Nat),
      s.entryHandle ≠ 0xff → s.entryHdlCounter < 0xff →
      (∀ r ∈ init, r.WellFormed L ∧ byteAt r.hdr L.offsetof_next_entry_handle ≠ 0xff) →
      (∀ k (h : k < (init ++ [last]).length),
        net (s.requests + k) = some ((init ++ [last])[k]).bytes) →
      smbusRoutingWalkLoop L busOwnerFd net ((init ++ [last]).length + extra) s =
        SMBusWalk.finished
          { smbusDeviceTableTmp := s.smbusDeviceTableTmp ++
              (allEntries (init ++ [last])).flatMap (smbusRowsOfEntry L busOwnerFd),
            entryHandle := 0xff, entryHdlCounter := s.entryHdlCounter,
            requests := s.requests + (init ++ [last]).length } := by
  have hhandle : ∀ r : WireResponse, r.WellFormed L →
      byteAt r.bytes L.offsetof_next_entry_handle = byteAt r.hdr L.offsetof_next_entry_handle := by
    intro r hr
    rw [WireResponse.bytes, byteAt_append_left _ _ _ (by rw [hr.1]; exact hL.1)]
  intro init
  induction init with
  | nil =>
    intro s extra h1 h2 _ hnet
    have h0 := hnet 0 (by simp)
    simp only [List.nil_append, List.getElem_cons_zero, Nat.add_zero] at h0
    simp only [List.nil_append, List.length_singleton]
    rw [Nat.add_comm 1 extra, smbusRoutingWalkLoop, if_pos ⟨h1, h2⟩]
    simp only [h0]
    rw [smbusRoutingTableEntries_response L hL busOwnerFd last hlast, hhandle last hlast, hff]
    cases extra with
    | zero => simp [smbusRoutingWalkLoop, allEntries]
    | succ extra => simp [smbusRoutingWalkLoop, allEntries]
  | cons r init ih =>
    intro s extra h1 h2 hall hnet
    obtain ⟨hr, hrne⟩ := hall r (List.mem_cons_self _ _)
    have h0 := hnet 0 (by simp)
    simp only [List.cons_append, List.getElem_cons_zero, Nat.add_zero] at h0
    have hlen : ((r :: init) ++ [last]).length + extra = ((init ++ [last]).length + extra) + 1 := by
      simp; omega
    rw [hlen, smbusRoutingWalkLoop, if_pos ⟨h1, h2⟩]
    simp only [h0]
    rw [smbusRoutingTableEntries_response L hL busOwnerFd r hr, hhandle r hr]
    rw [ih ⟨s.smbusDeviceTableTmp ++ r.entries.flatMap (smbusRowsOfEntry L busOwnerFd),
      byteAt r.hdr L.offsetof_next_entry_handle, s.entryHdlCounter, s.requests + 1⟩
      extra hrne h2 (fun x hx => hall x (List.mem_cons_of_mem _ hx))]
    · simp [allEntries, Nat.add_assoc, Nat.add_comm 1]
    · intro k hk
      have := hnet (k + 1) (by simp at hk ⊢; omega)
      simp only [List.cons_append, List.getElem_cons_succ] at this
      rw [← this]
      congr 1
      simp only
      omega

/-- C23. The device table the SMBus routing walk builds. One iteration of the `for` loop
on an entry of a response appends the rows of that entry and moves the parse offset
behind the struct and the `phys_address_size` bytes of the address, whether or not the
entry has added rows. The rows of an entry are those of `smbusRowsOfEntry`: none unless
the transport is SMBus and `phys_address_size` is 1, else one row
`(starting_eid + k, {fd = busOwnerFd, slave_addr = first address byte << 1})` for each
`k` below `eid_range_size`, EID and slave address being 8-bit values. Against a bus owner
that answers with a sequence of responses of which the last, and only the last, carries
the next entry handle `0xFF`, the walk ends with the rows of all entries, in the order
of the responses. -/
theorem smbusRoutingWalk_rows (L : Libmctp) (hL : L.LayoutOk) (busOwnerFd : Int) :
    (∀ e : WireEntry, e.WellFormed L →
      ∀ (pre rest : List Nat) (table : List DeviceTableEntry_t),
        smbusRoutingTableEntry L busOwnerFd (pre ++ (e.raw ++ (e.addr ++ rest)))
            { smbusDeviceTableTmp := table, phyAddrOffset := pre.length } =
          { smbusDeviceTableTmp := table ++ smbusRowsOfEntry L busOwnerFd e,
            phyAddrOffset :=
              pre.length + L.sizeof_routing_table_entry + e.phys_address_size L }) ∧
    (∀ (net : Nat → Option (List Nat)) (init : List WireResponse) (last : WireResponse)
        (extra : Nat),
      last.WellFormed L → byteAt last.hdr L.offsetof_next_entry_handle = 0xff →
      (∀ r ∈ init, r.WellFormed L ∧ byteAt r.hdr L.offsetof_next_entry_handle ≠ 0xff) →
      (∀ k (h : k < (init ++ [last]).length), net k = some ((init ++ [last])[k]).bytes) →
      smbusRoutingWalk L busOwnerFd net ((init ++ [last]).length + extra) =
        SMBusWalk.finished
          { smbusDeviceTableTmp :=
              (allEntries (init ++ [last])).flatMap (smbusRowsOfEntry L busOwnerFd),
            entryHandle := 0xff, entryHdlCounter := 0,
            requests := (init ++ [last]).length }) := by
  refine ⟨fun e hwf pre rest table =>
    smbusRoutingTableEntry_wire L hL busOwnerFd e hwf pre rest table, ?_⟩
  intro net init last extra hlast hff hinit hnet
  have h := smbusRoutingWalkLoop_wire L hL busOwnerFd net last hlast hff init
    { smbusDeviceTableTmp := [], entryHandle := 0x00, entryHdlCounter := 0x00, requests := 0 }
    extra (by norm_num) (by norm_num) hinit (fun k hk => by simpa using hnet k hk)
  simpa [smbusRoutingWalk] using h

/-- The walk on `exampleSMBusResponse`: two rows for the range of the first entry, none
for the PCIe entry nor for the SMBus entry with a two-byte address, one row for the last
entry. -/
theorem smbusRoutingWalk_rows_witness :
    smbusRoutingWalk libmctp 3 (fun _ => some exampleSMBusResponse.bytes) 1 =
      SMBusWalk.finished
        { smbusDeviceTableTmp :=
            [(0x20, { fd := 3, mux_hold_timeout := 0, mux_flags := 0, slave_addr := 0x62 }),
             (0x21, { fd := 3, mux_hold_timeout := 0, mux_flags := 0, slave_addr := 0x62 }),
             (0x50, { fd := 3, mux_hold_timeout := 0, mux_flags := 0, slave_addr := 0x64 })],
          entryHandle := 0xff, entryHdlCounter := 0, requests := 1 } :=
  ((smbusRoutingWalk_rows libmctp (by decide) 3).2 (fun _ => some exampleSMBusResponse.bytes)
    [] exampleSMBusResponse 0 (by decide) (by decide) (by simp)
    (fun k hk => by
      have hk0 : k = 0 := by simpa using hk
      subst hk0
      rfl)).trans (by decide)

/-! ## The EIDs a refresh registers -/

theorem isDeviceEntryPresent_iff (deviceEntry : DeviceTableEntry_t) :
    ∀ table : List DeviceTableEntry_t,
      isDeviceEntryPresent deviceEntry table = true ↔ ∃ row ∈ table, row.1 = deviceEntry.1 := by
  intro table
  induction table with
  | nil => simp [isDeviceEntryPresent]
  | cons row rest ih =>
    unfold isDeviceEntryPresent
    by_cases h : row.1 = deviceEntry.1
    · simp [h]
    · simp only [h, if_false, ih, List.mem_cons, exists_eq_or_imp, false_or]

theorem isDeviceEntryPresent_eq_false_iff (deviceEntry : DeviceTableEntry_t)
    (table : List DeviceTableEntry_t) :
    isDeviceEntryPresent deviceEntry table = false ↔ ¬ ∃ row ∈ table, row.1 = deviceEntry.1 := by
  rw [← isDeviceEntryPresent_iff]
  simp

/-- The first loop of the SMBus diff makes no registration. -/
theorem smbusProcessRemovedEntries_eq (newTable : List DeviceTableEntry_t) :
    ∀ old : List DeviceTableEntry_t,
      smbusProcessRemovedEntries newTable old =
        (old.filter fun row => decide (¬ ∃ new ∈ newTable, new.1 = row.1)).map fun row =>
          SMBusEvent.unregisterEndpoint row.1 := by
  intro old
  induction old with
  | nil => rfl
  | cons row rest ih =>
    by_cases h : ∃ new ∈ newTable, new.1 = row.1
    · have hf : ¬ isDeviceEntryPresent row newTable = false := by
        rw [isDeviceEntryPresent_eq_false_iff]; exact fun hn => hn h
      simp [smbusProcessRemovedEntries, hf, h, ih]
    · have hf : isDeviceEntryPresent row newTable = false :=
        (isDeviceEntryPresent_eq_false_iff _ _).2 h
      simp [smbusProcessRemovedEntries, hf, h, ih]

/-- The second loop of the SMBus diff registers each row of the new table whose EID the
stored table lacks. -/
theorem smbusProcessAddedEntries_eq (b : SMBusBinding) (prvData : mctp_smbus_pkt_private) :
    ∀ newTable : List DeviceTableEntry_t,
      smbusProcessAddedEntries b prvData newTable =
        (newTable.filter fun row =>
          decide (¬ ∃ old ∈ b.smbusDeviceTable, old.1 = row.1)).map fun row =>
            SMBusEvent.registerEndpoint prvData row.1 (some BindingModeTypes.Endpoint) := by
  intro newTable
  induction newTable with
  | nil => rfl
  | cons row rest ih =>
    by_cases h : ∃ old ∈ b.smbusDeviceTable, old.1 = row.1
    · have hf : ¬ isDeviceEntryPresent row b.smbusDeviceTable = false := by
        rw [isDeviceEntryPresent_eq_false_iff]; exact fun hn => hn h
      simp [smbusProcessAddedEntries, hf, h, ih]
    · have hf : isDeviceEntryPresent row b.smbusDeviceTable = false :=
        (isDeviceEntryPresent_eq_false_iff _ _).2 h
      simp [smbusProcessAddedEntries, hf, h, ih]

/-- C25, amended. The diff of a routing refresh registers an EID exactly when the new
table has an entry with that EID which the stored table lacks: for the PCIe binding an
entry whose full tuple is not stored and whose EID is not `ownEid`, for the SMBus
binding a row whose EID no stored row has. Neither binding treats the EIDs `0x00` and
`0xFF` apart: they are registered exactly when the bus owner or a bridge reports them
so, and never when no entry of the new table carries them. -/
theorem registerEndpoint_eids (L : Libmctp) (b : PCIeBinding)
    (newTable : List routingTableEntry_t) (prvData : mctp_nupcie_pkt_private)
    (sb : SMBusBinding) (newRows : List DeviceTableEntry_t)
    (smbusPrvData : mctp_smbus_pkt_private) :
    (∀ eid : Nat,
      (∃ p m, Event.registerEndpoint p eid m ∈ processRoutingTableChanges L b newTable prvData) ↔
        (eid ≠ b.ownEid ∧ ∃ entry ∈ newTable, entry.1 = eid ∧ entry ∉ b.routingTable)) ∧
    (∀ eid : Nat,
      (∃ p m, SMBusEvent.registerEndpoint p eid m ∈
          sb.processRoutingTableChanges newRows smbusPrvData) ↔
        ((∃ row ∈ newRows, row.1 = eid) ∧ ¬ ∃ old ∈ sb.smbusDeviceTable, old.1 = eid)) ∧
    (∀ eid : Nat, (∀ entry ∈ newTable, entry.1 ≠ eid) →
      ∀ p m, Event.registerEndpoint p eid m ∉ processRoutingTableChanges L b newTable prvData) ∧
    (∀ eid : Nat, (∀ row ∈ newRows, row.1 ≠ eid) →
      ∀ p m, SMBusEvent.registerEndpoint p eid m ∉
        sb.processRoutingTableChanges newRows smbusPrvData) := by
  have h1 : ∀ eid : Nat,
      (∃ p m, Event.registerEndpoint p eid m ∈ processRoutingTableChanges L b newTable prvData) ↔
        (eid ≠ b.ownEid ∧ ∃ entry ∈ newTable, entry.1 = eid ∧ entry ∉ b.routingTable) := by
    intro eid
    rw [processRoutingTableChanges, processRemovedEntries_eq, processAddedEntries_eq]
    simp only [List.mem_append, List.mem_map, List.mem_filter, decide_eq_true_eq, reduceCtorEq,
      and_false, exists_false, false_or, Event.registerEndpoint.injEq]
    constructor
    · rintro ⟨p, m, e, ⟨he, hne, hown⟩, -, heid, -⟩
      subst heid
      exact ⟨hown, e, he, rfl, hne⟩
    · rintro ⟨hown, e, he, heid, hne⟩
      subst heid
      exact ⟨_, _, e, ⟨he, hne, hown⟩, rfl, rfl, rfl⟩
  have h2 : ∀ eid : Nat,
      (∃ p m, SMBusEvent.registerEndpoint p eid m ∈
          sb.processRoutingTableChanges newRows smbusPrvData) ↔
        ((∃ row ∈ newRows, row.1 = eid) ∧ ¬ ∃ old ∈ sb.smbusDeviceTable, old.1 = eid) := by
    intro eid
    rw [SMBusBinding.processRoutingTableChanges, smbusProcessRemovedEntries_eq,
      smbusProcessAddedEntries_eq]
    simp only [List.mem_append, List.mem_map, List.mem_filter, decide_eq_true_eq, reduceCtorEq,
      and_false, exists_false, false_or, SMBusEvent.registerEndpoint.injEq]
    constructor
    · rintro ⟨p, m, row, ⟨hrow, hno⟩, -, heid, -⟩
      subst heid
      exact ⟨⟨row, hrow, rfl⟩, hno⟩
    · rintro ⟨⟨row, hrow, heid⟩, hno⟩
      subst heid
      exact ⟨_, _, row, ⟨hrow, hno⟩, rfl, rfl, rfl⟩
  refine ⟨h1, h2, ?_, ?_⟩
  · intro eid hno p m hmem
    obtain ⟨_, entry, he, heid, _⟩ := (h1 eid).1 ⟨p, m, hmem⟩
    exact hno entry he heid
  · intro eid hno p m hmem
    obtain ⟨⟨row, hrow, heid⟩, _⟩ := (h2 eid).1 ⟨p, m, hmem⟩
    exact hno row hrow heid

/-- The walk of a refresh against `reservedEidNet` reads a table with the EIDs `0x00` and
`0xFF`. -/
theorem reservedEid_walk :
    walkRoutingTable libmctp exampleBinding reservedEidNet 0 = some
      { rt := [(0x00, 0x0100, 0), (0xFF, 0x0200, 0)], calledBridges := [(0x08, 0xBEEF)],
        requests := 1 } := by
  unfold walkRoutingTable
  rw [readRoutingTable_one_response libmctp _ reservedEidNet _ _ 0 _ _ _ _ rfl (by decide)]
  decide

/-- C25, as stated, fails. A PCIe bus owner that reports an endpoint with the EID `0x00`
and one with the EID `0xFF` makes the refresh of the example endpoint (own EID `0x99`)
call `registerEndpoint` for both; an SMBus bus owner that does so makes the routing task
of the SMBus binding call `registerEndpoint` for both. -/
theorem registerEndpoint_reserved_counterexample :
    updateRoutingTable libmctp exampleBinding reservedEidNet 0 = some
      ([Event.registerEndpoint { routing := 2, remote_id := 0x0100 } 0x00
          BindingModeTypes.Endpoint,
        Event.registerEndpoint { routing := 2, remote_id := 0x0200 } 0xFF
          BindingModeTypes.Endpoint],
        { exampleBinding with routingTable := [(0x00, 0x0100, 0), (0xFF, 0x0200, 0)] }) ∧
    Option.map Prod.fst
      (SMBusBinding.routingTask libmctp { exampleSMBus with smbusDeviceTable := [] }
        { fd := 3, mux_hold_timeout := 0, mux_flags := 0, slave_addr := 0x20 }
        reservedEidSMBusNet 1) = some
      [SMBusEvent.registerEndpoint
          { fd := 3, mux_hold_timeout := 0, mux_flags := 0, slave_addr := 0x20 } 0x00
          (some BindingModeTypes.Endpoint),
        SMBusEvent.registerEndpoint
          { fd := 3, mux_hold_timeout := 0, mux_flags := 0, slave_addr := 0x20 } 0xFF
          (some BindingModeTypes.Endpoint)] := by
  refine ⟨?_, by decide⟩
  unfold updateRoutingTable
  rw [if_neg (by decide), reservedEid_walk]
  decide

/-! ## The SMBus configuration -/

theorem getField_uint64_t_lt (map : ConfigurationMap) (fieldName : String) (v : Nat)
    (h : getField_uint64_t map fieldName = some v) : v < 2 ^ 64 := by
  unfold getField_uint64_t at h
  split at h
  · simp only [Option.some.injEq] at h
    rw [← h]
    exact Nat.mod_lt _ (by norm_num)
  · simp at h

/-- C27, amended. `getSMBusConfiguration` on a configuration map that has all required
fields, the member `scanInterval` holding any `uint64_t`. If the role is not a key of
`stringToBindingModeMap`, the function throws. Else, if the role is BusOwner and neither
`EIDPool` nor `eid-pool` is present, it returns no configuration. Else, if the medium is a
key of `stringToMediumID`, it returns a configuration: its `scanInterval` is the
configured `ScanInterval` when that is present and not zero and 600 otherwise, and when
the role is not BusOwner its routing interval is the configured `GetRoutingInterval`
modulo 256 when that is present and 5 otherwise. -/
theorem getSMBusConfiguration_spec (scanIntervalBits : Nat) (hbits : 64 ≤ scanIntervalBits)
    (map : ConfigurationMap) (fields : RequiredFields)
    (hreq : requiredFields map = some fields) :
    (stringToBindingModeMap fields.role = none →
      getSMBusConfiguration scanIntervalBits map = Except.error Exception.out_of_range) ∧
    (stringToBindingModeMap fields.role = some BindingModeTypes.BusOwner →
      getField_vector_uint64_t map "EIDPool" = none →
      getField_vector_uint64_t map "eid-pool" = none →
      getSMBusConfiguration scanIntervalBits map = Except.ok none) ∧
    (∀ (mode : BindingModeTypes) (mediumId : String),
      stringToBindingModeMap fields.role = some mode →
      stringToMediumID fields.physicalMediumID = some mediumId →
      (mode = BindingModeTypes.BusOwner →
        getField_vector_uint64_t map "EIDPool" ≠ none ∨
          getField_vector_uint64_t map "eid-pool" ≠ none) →
      ∃ config, getSMBusConfiguration scanIntervalBits map = Except.ok (some config) ∧
        config.mode = mode ∧
        config.scanInterval =
          (match getField_uint64_t map "ScanInterval" with
            | some scanInterval => if scanInterval = 0 then 600 else scanInterval
            | none => 600) ∧
        (mode ≠ BindingModeTypes.BusOwner →
          config.routingIntervalSec =
            some (match getField_uint64_t map "GetRoutingInterval" with
              | some getRoutingInterval => getRoutingInterval % 256
              | none => 5))) := by
  have hscan : ∀ x : Nat, x < 2 ^ 64 → x % 2 ^ scanIntervalBits = x := by
    intro x hx
    apply Nat.mod_eq_of_lt
    exact lt_of_lt_of_le hx (Nat.pow_le_pow_right (by norm_num) hbits)
  have hscan' : (match getField_uint64_t map "ScanInterval" with
        | some scanInterval => if scanInterval = 0 then 600 else scanInterval
        | none => 600) % 2 ^ scanIntervalBits =
      (match getField_uint64_t map "ScanInterval" with
        | some scanInterval => if scanInterval = 0 then 600 else scanInterval
        | none => 600) := by
    apply hscan
    cases hs : getField_uint64_t map "ScanInterval" with
    | none => norm_num
    | some v =>
      have := getField_uint64_t_lt map _ v hs
      simp only
      split_ifs
      · norm_num
      · exact this
  refine ⟨?_, ?_, ?_⟩
  · intro hmode
    simp only [getSMBusConfiguration, hreq, hmode]
  · intro hmode h1 h2
    simp only [getSMBusConfiguration, hreq, hmode, h1, h2, getFieldEither, if_true]
  · intro mode mediumId hmode hmedium hpool
    by_cases hbo : mode = BindingModeTypes.BusOwner
    · subst hbo
      have hp : ∃ pool, getFieldEither (getField_vector_uint64_t map "EIDPool")
          (getField_vector_uint64_t map "eid-pool") = some pool := by
        rcases hpool rfl with h | h
        · obtain ⟨pool, hpool⟩ := Option.ne_none_iff_exists'.mp h
          exact ⟨pool, by simp [getFieldEither, hpool]⟩
        · cases h1 : getField_vector_uint64_t map "EIDPool" with
          | some pool => exact ⟨pool, by simp [getFieldEither]⟩
          | none =>
            obtain ⟨pool, hpool⟩ := Option.ne_none_iff_exists'.mp h
            exact ⟨pool, by simp [getFieldEither, hpool]⟩
      obtain ⟨pool, hp⟩ := hp
      simp only [getSMBusConfiguration, hreq, hmode, hmedium, hp, if_true]
      exact ⟨_, rfl, rfl, hscan', fun h => absurd rfl h⟩
    · simp only [getSMBusConfiguration, hreq, hmode, hmedium, hbo, if_false]
      refine ⟨_, rfl, rfl, hscan', ?_⟩
      intro _
      simp only [ne_eq, hbo, not_false_eq_true, if_true]
      cases getField_uint64_t map "GetRoutingInterval" <;> rfl

/-- The example configuration: no scan interval is configured, so it is 600, and the
routing interval of 300 seconds is returned as 44. -/
theorem getSMBusConfiguration_spec_witness :
    scanIntervalOf (getSMBusConfiguration 64 exampleConfigurationMap) = some 600 ∧
    routingIntervalOf (getSMBusConfiguration 64 exampleConfigurationMap) = some 44 := by
  obtain ⟨config, h1, -, h3, h4⟩ :=
    (getSMBusConfiguration_spec 64 (le_refl 64) exampleConfigurationMap
      { physicalMediumID := "Smbus", role := "Endpoint", defaultEID := 0x09, bus := "/dev/i2c-2",
        arpOwnerSupport := false, bmcReceiverAddress := 0x20, reqToRespTimeMs := 100,
        reqRetryCount := 2 }
      (by decide)).2.2 BindingModeTypes.Endpoint "Smbus" (by decide) (by decide)
      (fun h => absurd h (by decide))
  rw [h1]
  exact ⟨by rw [scanIntervalOf, h3]; decide, by rw [routingIntervalOf, h4 (by decide)]; decide⟩

/-- C27, as stated, fails. The example configuration has all required fields, the role
Endpoint and `GetRoutingInterval = 300`: the routing interval returned is 44, the value
of `static_cast<uint8_t>(300)`. With the role `Responder`, which is not a key of
`stringToBindingModeMap`, the function throws and no scan interval results. -/
theorem getSMBusConfiguration_counterexample :
    (requiredFields exampleConfigurationMap).isSome = true ∧
    getField_uint64_t exampleConfigurationMap "GetRoutingInterval" = some 300 ∧
    routingIntervalOf (getSMBusConfiguration 64 exampleConfigurationMap) = some 44 ∧
    (requiredFields fun fieldName =>
      if fieldName = "Role" then some (ConfigurationField.string "Responder")
      else exampleConfigurationMap fieldName).isSome = true ∧
    scanIntervalOf (getSMBusConfiguration 64 fun fieldName =>
      if fieldName = "Role" then some (ConfigurationField.string "Responder")
      else exampleConfigurationMap fieldName) = none := by
  decide

/-! ## Set Endpoint ID on SMBus -/

/-- C28. `SMBusBinding::handleSetEndpointId` on a Set Endpoint ID that the base handler
accepts and that completes with success: the handler returns true, the flag is
Discovered, and `busOwnerFd` and `busOwnerSlaveAddr` hold the descriptor and the slave
address of the binding-private of the frame. The routing task the transition spawns,
however, has captured the `busOwnerFd` and `busOwnerSlaveAddr` the binding held before
the call: `updateDiscoveredFlag` runs `updateRoutingTable` before the two members are
assigned. Only a later call of `updateRoutingTable` addresses the sender of the Set
Endpoint ID. -/
theorem smbus_handleSetEndpointId_spec (L : Libmctp) (b : SMBusBinding)
    (base : SMBusBaseHandlerOutcome) (hret : base.ret = true)
    (hcc : byteAt (vectorResize base.response L.sizeof_resp_set_eid) L.offsetof_set_eid_cc
      = L.MCTP_CTRL_CC_SUCCESS) :
    (b.handleSetEndpointId L base).ret = true ∧
    (b.handleSetEndpointId L base).binding.discoveredFlag = DiscoveryFlags.Discovered ∧
    (b.handleSetEndpointId L base).binding.busOwnerFd = base.bindingPrivate.fd ∧
    (b.handleSetEndpointId L base).binding.busOwnerSlaveAddr = base.bindingPrivate.slave_addr ∧
    (b.handleSetEndpointId L base).binding.routingTasks =
      b.routingTasks ++
        [{ fd := b.busOwnerFd, mux_hold_timeout := 0, mux_flags := 0,
           slave_addr := b.busOwnerSlaveAddr }] ∧
    (b.handleSetEndpointId L base).binding.updateRoutingTable.routingTasks =
      (b.handleSetEndpointId L base).binding.routingTasks ++
        [{ fd := base.bindingPrivate.fd, mux_hold_timeout := 0, mux_flags := 0,
           slave_addr := base.bindingPrivate.slave_addr }] := by
  simp [SMBusBinding.handleSetEndpointId, hret, hcc, SMBusBinding.updateDiscoveredFlag,
    SMBusBinding.updateRoutingTable]

/-- The example binding has recorded no bus owner (descriptor 0, slave address 0). A Set
Endpoint ID that arrives from the slave address `0x20` on the descriptor 3 and completes
with success records this sender, but the routing task it spawns is addressed to the
descriptor 0 and the slave address 0. -/
theorem smbus_handleSetEndpointId_spec_witness :
    (exampleSMBus.handleSetEndpointId libmctp
        { ret := true,
          bindingPrivate := { fd := 3, mux_hold_timeout := 0, mux_flags := 0, slave_addr := 0x20 },
          response := [0, 0, 0, 0, 0, 0x09, 0], ownEid := 0x09,
          busOwnerEid := 0x08 }).binding.routingTasks =
      [{ fd := 0, mux_hold_timeout := 0, mux_flags := 0, slave_addr := 0 }] ∧
    (exampleSMBus.handleSetEndpointId libmctp
        { ret := true,
          bindingPrivate := { fd := 3, mux_hold_timeout := 0, mux_flags := 0, slave_addr := 0x20 },
          response := [0, 0, 0, 0, 0, 0x09, 0], ownEid := 0x09,
          busOwnerEid := 0x08 }).binding.busOwnerFd = 3 ∧
    (exampleSMBus.handleSetEndpointId libmctp
        { ret := true,
          bindingPrivate := { fd := 3, mux_hold_timeout := 0, mux_flags := 0, slave_addr := 0x20 },
          response := [0, 0, 0, 0, 0, 0x09, 0], ownEid := 0x09,
          busOwnerEid := 0x08 }).binding.busOwnerSlaveAddr = 0x20 :=
  have h := smbus_handleSetEndpointId_spec libmctp exampleSMBus
    { ret := true,
      bindingPrivate := { fd := 3, mux_hold_timeout := 0, mux_flags := 0, slave_addr := 0x20 },
      response := [0, 0, 0, 0, 0, 0x09, 0], ownEid := 0x09, busOwnerEid := 0x08 } rfl (by decide)
  ⟨h.2.2.2.2.1, h.2.2.1, h.2.2.2.1⟩

/-! ## The EIDs of the SMBus device table -/

theorem noSharedEid_append (table : List DeviceTableEntry_t) (entry : DeviceTableEntry_t) :
    NoSharedEid (table ++ [entry]) ↔ NoSharedEid table ∧ ¬ ∃ row ∈ table, row.1 = entry.1 := by
  unfold NoSharedEid
  rw [List.map_append, List.nodup_append]
  simp only [List.map_cons, List.map_nil, List.nodup_cons, List.not_mem_nil, not_false_eq_true,
    List.nodup_nil, and_self, true_and, List.disjoint_singleton, List.mem_map, not_exists,
    not_and]

theorem noSharedEid_filter (table : List DeviceTableEntry_t) (p : DeviceTableEntry_t → Bool)
    (h : NoSharedEid table) : NoSharedEid (table.filter p) := by
  unfold NoSharedEid at h ⊢
  exact h.sublist ((List.filter_sublist table).map _)

theorem mem_removeDeviceTableEntry (b : SMBusBinding) (eid : Nat) (row : DeviceTableEntry_t) :
    row ∈ (b.removeDeviceTableEntry eid).smbusDeviceTable ↔
      row ∈ b.smbusDeviceTable ∧ row.1 ≠ eid := by
  simp [SMBusBinding.removeDeviceTableEntry]

/-- One iteration of the registration loop keeps the EIDs of the device table distinct
unless it takes the branch `deviceUpdated`, which leaves a second row with the EID that
`registerEndpoint` has returned. -/
theorem initEndpointDiscoveryDevice_noSharedEid (L : Libmctp) (ctrlTxRetryDelay : Nat)
    (b : SMBusBinding) (device : Int × Nat) (outcome : DeviceOutcome)
    (h : NoSharedEid b.smbusDeviceTable) :
    NoSharedEid (b.initEndpointDiscoveryDevice L ctrlTxRetryDelay device outcome).2.smbusDeviceTable
      ↔ ¬ deviceMoved L ctrlTxRetryDelay b device outcome := by
  unfold SMBusBinding.initEndpointDiscoveryDevice deviceMoved
  by_cases hgood : outcome.isDeviceGoodForInit = false
  · simp [hgood, h]
  · have hgood' : outcome.isDeviceGoodForInit = true := by simpa using hgood
    cases hreg : outcome.registerEndpoint with
    | none => simp [hgood', h]
    | some eid =>
      by_cases hnull : eid = L.MCTP_EID_NULL
      · simp [hgood', hnull, h]
      · by_cases hpres : ∃ row ∈ b.smbusDeviceTable, row.1 = eid
        · have hp : isDeviceEntryPresent (eid, b.deviceBindingPrivate ctrlTxRetryDelay device)
              b.smbusDeviceTable = true := (isDeviceEntryPresent_iff _ _).2 hpres
          by_cases hsame : eid = b.getEIDFromDeviceTable L
              (b.deviceBindingPrivate ctrlTxRetryDelay device)
          · simp [hgood', hnull, hp, ← hsame, h, hpres]
          · have hrow : ∃ row ∈ (b.removeDeviceTableEntry (b.getEIDFromDeviceTable L
                (b.deviceBindingPrivate ctrlTxRetryDelay device))).smbusDeviceTable,
                row.1 = eid := by
              obtain ⟨row, hrow, heid⟩ := hpres
              exact ⟨row, (mem_removeDeviceTableEntry _ _ _).2 ⟨hrow, by rw [heid]; exact hsame⟩,
                heid⟩
            have hdup : ¬ NoSharedEid ((b.removeDeviceTableEntry (b.getEIDFromDeviceTable L
                (b.deviceBindingPrivate ctrlTxRetryDelay device))).smbusDeviceTable ++
                [(eid, b.deviceBindingPrivate ctrlTxRetryDelay device)]) := by
              rw [noSharedEid_append]
              exact fun hh => hh.2 hrow
            have hpres' : ∃ x, (eid, x) ∈ b.smbusDeviceTable := by
              obtain ⟨⟨e, x⟩, hr, he⟩ := hpres
              simp only at he
              subst he
              exact ⟨x, hr⟩
            simp [hgood', hnull, hp, hsame, hdup, hpres']
        · have hp : isDeviceEntryPresent (eid, b.deviceBindingPrivate ctrlTxRetryDelay device)
              b.smbusDeviceTable = false := (isDeviceEntryPresent_eq_false_iff _ _).2 hpres
          have hnd : NoSharedEid (b.smbusDeviceTable ++
              [(eid, b.deviceBindingPrivate ctrlTxRetryDelay device)]) :=
            (noSharedEid_append _ _).2 ⟨h, hpres⟩
          have hpres' : ∀ x, (eid, x) ∉ b.smbusDeviceTable :=
            fun x hx => hpres ⟨(eid, x), hx, rfl⟩
          simp [hgood', hnull, hp, hnd, hpres']

/-- The registration loop keeps the EIDs of the device table distinct when no iteration
takes the branch `deviceUpdated`. -/
theorem initEndpointDiscoveryLoop_noSharedEid (L : Libmctp) (ctrlTxRetryDelay : Nat) :
    ∀ (devices : List ((Int × Nat) × DeviceOutcome)) (b : SMBusBinding),
      NoSharedEid b.smbusDeviceTable →
      (∀ pre device outcome post, devices = pre ++ (device, outcome) :: post →
        ¬ deviceMoved L ctrlTxRetryDelay
          (SMBusBinding.initEndpointDiscoveryLoop L ctrlTxRetryDelay b pre).2 device outcome) →
      NoSharedEid
        (SMBusBinding.initEndpointDiscoveryLoop L ctrlTxRetryDelay b devices).2.smbusDeviceTable := by
  intro devices
  induction devices with
  | nil => intro b h _; exact h
  | cons x rest ih =>
    intro b h hno
    obtain ⟨device, outcome⟩ := x
    have h1 := (initEndpointDiscoveryDevice_noSharedEid L ctrlTxRetryDelay b device outcome h).2
      (hno [] device outcome rest rfl)
    simp only [SMBusBinding.initEndpointDiscoveryLoop]
    refine ih _ h1 ?_
    intro pre d o post hrest
    have := hno ((device, outcome) :: pre) d o post (by rw [hrest]; rfl)
    simpa only [SMBusBinding.initEndpointDiscoveryLoop] using this

/-- C21, amended. In the SMBus device table no two rows share an EID: this holds for the
empty table, and for a binding for which it holds it is preserved by
`addUnknownEIDToDeviceTable`, by `removeDeviceTableEntry`, by an iteration of the
registration loop of `initEndpointDiscovery` exactly when the iteration does not take
the branch `deviceUpdated`, by the loop when no iteration takes that branch, and by the
end of the routing task exactly when the table built by the walk, if it replaces the
stored one, has no two rows with the same EID. -/
theorem deviceTable_noSharedEid (L : Libmctp) (ctrlTxRetryDelay : Nat) (b : SMBusBinding)
    (h : NoSharedEid b.smbusDeviceTable) :
    NoSharedEid [] ∧
    (∀ (eid : Nat) (bindingPrivate : Option mctp_smbus_pkt_private),
      NoSharedEid (b.addUnknownEIDToDeviceTable eid bindingPrivate).smbusDeviceTable) ∧
    (∀ eid : Nat, NoSharedEid (b.removeDeviceTableEntry eid).smbusDeviceTable) ∧
    (∀ (device : Int × Nat) (outcome : DeviceOutcome),
      NoSharedEid
          (b.initEndpointDiscoveryDevice L ctrlTxRetryDelay device outcome).2.smbusDeviceTable ↔
        ¬ deviceMoved L ctrlTxRetryDelay b device outcome) ∧
    (∀ devices : List ((Int × Nat) × DeviceOutcome),
      (∀ pre device outcome post, devices = pre ++ (device, outcome) :: post →
        ¬ deviceMoved L ctrlTxRetryDelay
          (SMBusBinding.initEndpointDiscoveryLoop L ctrlTxRetryDelay b pre).2 device outcome) →
      NoSharedEid
        (SMBusBinding.initEndpointDiscoveryLoop L ctrlTxRetryDelay b devices).2.smbusDeviceTable) ∧
    (∀ (smbusDeviceTableTmp : List DeviceTableEntry_t) (prvData : mctp_smbus_pkt_private),
      NoSharedEid (b.storeDeviceTable smbusDeviceTableTmp prvData).2.smbusDeviceTable ↔
        (isDeviceTableChanged b.smbusDeviceTable smbusDeviceTableTmp = true →
          NoSharedEid smbusDeviceTableTmp)) := by
  refine ⟨List.nodup_nil, ?_, ?_, ?_, ?_, ?_⟩
  · intro eid bindingPrivate
    cases bindingPrivate with
    | none => exact h
    | some bindingPtr =>
      unfold SMBusBinding.addUnknownEIDToDeviceTable
      by_cases hany : b.smbusDeviceTable.any (fun eidEntry => eidEntry.1 == eid) = true
      · simp only [hany, if_true]
        exact h
      · simp only [hany, Bool.false_eq_true, if_false]
        rw [noSharedEid_append]
        refine ⟨h, ?_⟩
        rintro ⟨row, hrow, heid⟩
        apply hany
        rw [List.any_eq_true]
        exact ⟨row, hrow, by simpa using heid⟩
  · intro eid
    exact noSharedEid_filter _ _ h
  · intro device outcome
    exact initEndpointDiscoveryDevice_noSharedEid L ctrlTxRetryDelay b device outcome h
  · intro devices hno
    exact initEndpointDiscoveryLoop_noSharedEid L ctrlTxRetryDelay devices b h hno
  · intro tmp prvData
    unfold SMBusBinding.storeDeviceTable
    by_cases hch : isDeviceTableChanged b.smbusDeviceTable tmp = true
    · simp [hch]
    · simp [hch, h]

/-- The example binding: a device that answers at a new address with a new EID gets a
row, and the EIDs of the table stay distinct; so they do when the routing task replaces
the table by two rows with different EIDs. -/
theorem deviceTable_noSharedEid_witness :
    NoSharedEid
        (exampleSMBus.initEndpointDiscoveryDevice libmctp 1000 (5, 0x33)
          { isDeviceGoodForInit := true, registerEndpoint := some 0x12 }).2.smbusDeviceTable ∧
    NoSharedEid
        (exampleSMBus.storeDeviceTable
          [(0x20, { fd := 3, mux_hold_timeout := 0, mux_flags := 0, slave_addr := 0x62 }),
           (0x21, { fd := 3, mux_hold_timeout := 0, mux_flags := 0, slave_addr := 0x64 })]
          { fd := 3, mux_hold_timeout := 0, mux_flags := 0,
            slave_addr := 0x20 }).2.smbusDeviceTable :=
  have h := deviceTable_noSharedEid libmctp 1000 exampleSMBus (by decide)
  ⟨(h.2.2.2.1 _ _).2 (by decide), (h.2.2.2.2.2 _ _).2 (fun _ => by decide)⟩

/-- C21, as stated, fails. In the example binding the EID `0x10` is held by the device at
the slave address `0x60` behind the mux leaf 5. A device answers at the address `0x31`
(8-bit `0x62`) of that leaf, where the table has no row, and `registerEndpoint` returns
its EID `0x10`, which the table holds: the iteration takes the branch `deviceUpdated`,
erases the rows with the EID 0 (none) and appends a second row with the EID `0x10`. And a
bus owner that reports the EID `0x10` twice makes the routing task store a table with
two rows for `0x10`. -/
theorem deviceTable_sharedEid_counterexample :
    NoSharedEid exampleSMBus.smbusDeviceTable ∧
    (exampleSMBus.initEndpointDiscoveryDevice libmctp 1000 (5, 0x31)
        { isDeviceGoodForInit := true, registerEndpoint := some 0x10 }).2.smbusDeviceTable =
      [(0x10, { fd := 5, mux_hold_timeout := 0, mux_flags := 0, slave_addr := 0x60 }),
       (0x11, { fd := 3, mux_hold_timeout := 0, mux_flags := 0, slave_addr := 0x62 }),
       (0x10, { fd := 5, mux_hold_timeout := 1000, mux_flags := 0x80, slave_addr := 0x62 })] ∧
    ¬ NoSharedEid
      (exampleSMBus.initEndpointDiscoveryDevice libmctp 1000 (5, 0x31)
        { isDeviceGoodForInit := true, registerEndpoint := some 0x10 }).2.smbusDeviceTable ∧
    Option.map (fun r => r.2.smbusDeviceTable)
        (SMBusBinding.routingTask libmctp { exampleSMBus with busOwnerFd := 3 }
          { fd := 3, mux_hold_timeout := 0, mux_flags := 0, slave_addr := 0x20 }
          duplicateEidSMBusNet 1) = some
      [(0x10, { fd := 3, mux_hold_timeout := 0, mux_flags := 0, slave_addr := 0x62 }),
       (0x10, { fd := 3, mux_hold_timeout := 0, mux_flags := 0, slave_addr := 0x64 })] ∧
    ¬ NoSharedEid
      [(0x10, { fd := 3, mux_hold_timeout := 0, mux_flags := 0, slave_addr := 0x62 }),
       (0x10, { fd := 3, mux_hold_timeout := 0, mux_flags := 0, slave_addr := 0x64 })] := by
  decide

/-! ## Invariants of the bridge walk -/

theorem getRoutingEntryPhysAddr_lt (resp : List Nat) (entryOffset : Nat) :
    getRoutingEntryPhysAddr resp entryOffset < 65536 := by
  rw [getRoutingEntryPhysAddr, be16_or _ _ (byteAt_lt _ _) (byteAt_lt _ _)]
  have h0 := byteAt_lt resp entryOffset
  have h1 := byteAt_lt resp (entryOffset + 1)
  omega

theorem mem_vectorInsert (rt : List routingTableEntry_t) (i : Nat) (x y : routingTableEntry_t) :
    y ∈ vectorInsert rt i x ↔ y = x ∨ y ∈ rt := by
  unfold vectorInsert
  rw [List.mem_append, List.mem_cons]
  constructor
  · rintro (h | h | h)
    · exact Or.inr (List.mem_of_mem_take h)
    · exact Or.inl h
    · exact Or.inr (List.mem_of_mem_drop h)
  · rintro (h | h)
    · exact Or.inr (Or.inl h)
    · rw [← List.take_append_drop i rt, List.mem_append] at h
      rcases h with h | h
      · exact Or.inl h
      · exact Or.inr (Or.inr h)

theorem length_vectorInsert (rt : List routingTableEntry_t) (i : Nat) (x : routingTableEntry_t) :
    (vectorInsert rt i x).length = rt.length + 1 := by
  unfold vectorInsert
  rw [List.length_append, List.length_cons, ← Nat.add_assoc, ← List.length_append,
    List.take_append_drop]

/-- One iteration of the `for` loop of `readRoutingTable` keeps the entries of the table
in range, keeps the insertion index within the table, and does not shrink the table. -/
theorem readRoutingTableEntry_inv (L : Libmctp) (busOwnerEid eid physAddr : Nat)
    (resp : List Nat) (s : EntryLoopState) :
    ((eid = busOwnerEid ∨ physAddr < 65536) → TableInRange s.rt →
      TableInRange (readRoutingTableEntry L busOwnerEid eid physAddr resp s).rt) ∧
    (s.insertIndex ≤ s.rt.length →
      (readRoutingTableEntry L busOwnerEid eid physAddr resp s).insertIndex ≤
        (readRoutingTableEntry L busOwnerEid eid physAddr resp s).rt.length) ∧
    s.rt.length ≤ (readRoutingTableEntry L busOwnerEid eid physAddr resp s).rt.length := by
  unfold readRoutingTableEntry
  simp only
  split_ifs with h1 h2 h3 h4
  · exact ⟨fun _ h => h, fun h => h, le_refl _⟩
  · refine ⟨?_, ?_, ?_⟩
    · intro _ hin e he
      rcases List.mem_append.mp he with he | he
      · exact hin e he
      · rw [List.mem_singleton.mp he]
        exact ⟨byteAt_lt _ _, getRoutingEntryPhysAddr_lt _ _⟩
    · intro h; simp only [List.length_append, List.length_singleton]; omega
    · simp only [List.length_append, List.length_singleton]; omega
  · refine ⟨?_, ?_, ?_⟩
    · intro _ hin e he
      rcases List.mem_append.mp he with he | he
      · exact hin e he
      · rw [List.mem_singleton.mp he]
        exact ⟨byteAt_lt _ _, getRoutingEntryPhysAddr_lt _ _⟩
    · intro h; simp only [List.length_append, List.length_singleton]; omega
    · simp only [List.length_append, List.length_singleton]; omega
  · refine ⟨?_, ?_, ?_⟩
    · intro hor hin e he
      rcases (mem_vectorInsert _ _ _ _).mp he with he | he
      · rw [he]
        rcases hor with hor | hor
        · exact absurd hor h4.1
        · exact ⟨byteAt_lt _ _, hor⟩
      · exact hin e he
    · intro h; simp only [length_vectorInsert]; omega
    · simp only [length_vectorInsert]; omega
  · exact ⟨fun _ h => h, fun h => h, le_refl _⟩

/-- The `for` loop of `readRoutingTable` keeps the entries of the table in range, keeps
the insertion index within the table, and does not shrink the table. -/
theorem readRoutingTableEntries_inv (L : Libmctp) (busOwnerEid eid physAddr : Nat)
    (resp : List Nat) :
    ∀ (n : Nat) (s : EntryLoopState),
      ((eid = busOwnerEid ∨ physAddr < 65536) → TableInRange s.rt →
        TableInRange (readRoutingTableEntries L busOwnerEid eid physAddr resp n s).rt) ∧
      (s.insertIndex ≤ s.rt.length →
        (readRoutingTableEntries L busOwnerEid eid physAddr resp n s).insertIndex ≤
          (readRoutingTableEntries L busOwnerEid eid physAddr resp n s).rt.length) ∧
      s.rt.length ≤ (readRoutingTableEntries L busOwnerEid eid physAddr resp n s).rt.length := by
  intro n
  induction n with
  | zero => intro s; exact ⟨fun _ h => h, fun h => h, le_refl _⟩
  | succ n ih =>
    intro s
    obtain ⟨a1, a2, a3⟩ := readRoutingTableEntry_inv L busOwnerEid eid physAddr resp s
    obtain ⟨b1, b2, b3⟩ := ih (readRoutingTableEntry L busOwnerEid eid physAddr resp s)
    simp only [readRoutingTableEntries]
    exact ⟨fun hor hin => b1 hor (a1 hor hin), fun h => b2 (a2 h), le_trans a3 b3⟩

/-- The `for` loops of `readRoutingTable` over a sequence of responses keep the entries
of the table in range, keep the insertion index within the table, and do not shrink the
table. -/
theorem readRoutingTableResponses_inv (L : Libmctp) (busOwnerEid eid physAddr : Nat) :
    ∀ (resps : List (List Nat)) (rt : List routingTableEntry_t) (insertIndex : Nat),
      ((eid = busOwnerEid ∨ physAddr < 65536) → TableInRange rt →
        TableInRange
          (readRoutingTableResponses L busOwnerEid eid physAddr resps rt insertIndex).1) ∧
      (insertIndex ≤ rt.length →
        (readRoutingTableResponses L busOwnerEid eid physAddr resps rt insertIndex).2 ≤
          (readRoutingTableResponses L busOwnerEid eid physAddr resps rt insertIndex).1.length) ∧
      rt.length ≤
        (readRoutingTableResponses L busOwnerEid eid physAddr resps rt insertIndex).1.length := by
  intro resps
  induction resps with
  | nil => intro rt insertIndex; exact ⟨fun _ h => h, fun h => h, le_refl _⟩
  | cons resp rest ih =>
    intro rt insertIndex
    obtain ⟨a1, a2, a3⟩ := readRoutingTableEntries_inv L busOwnerEid eid physAddr resp
      (byteAt resp L.offsetof_number_of_entries)
      { rt := rt, insertIndex := insertIndex, entryOffset := L.sizeof_resp_get_routing_table }
    obtain ⟨b1, b2, b3⟩ := ih
      (readRoutingTableResp L busOwnerEid eid physAddr resp rt insertIndex).rt
      (readRoutingTableResp L busOwnerEid eid physAddr resp rt insertIndex).insertIndex
    simp only [readRoutingTableResponses]
    exact ⟨fun hor hin => b1 hor (a1 hor hin), fun h => b2 (a2 h), le_trans a3 b3⟩

/-- The bridges called after the `while` loop of `readRoutingTable`. -/
theorem readRoutingTableLoop_calledBridges (L : Libmctp) (busOwnerEid eid physAddr : Nat)
    (net : Nat → Option (List Nat)) (x : calledBridgeEntry_t) :
    ∀ (n entryHandle responseCount : Nat) (s : ReadState), responseCount + n = 255 →
      (x ∈ (readRoutingTableLoop L busOwnerEid eid physAddr net entryHandle responseCount
          s).calledBridges ↔
        x ∈ s.calledBridges ∨
          (x = (eid, physAddr) ∧ ¬ (entryHandle = 0xff ∨ responseCount = 0xff))) := by
  intro n
  induction n with
  | zero =>
    intro entryHandle responseCount s h
    have hc : entryHandle = 0xff ∨ responseCount = 0xff := Or.inr (by omega)
    rw [readRoutingTableLoop_unfold, if_pos hc]
    simp [hc]
  | succ n ih =>
    intro entryHandle responseCount s h
    rw [readRoutingTableLoop_unfold]
    split_ifs with hEnd
    · simp [hEnd]
    · cases hnet : net s.requests with
      | none =>
        simp only [List.mem_append, List.mem_singleton, hEnd, not_false_eq_true, and_true]
      | some resp =>
        have hc : (responseCount + 1) % 256 = responseCount + 1 :=
          Nat.mod_eq_of_lt (by omega)
        simp only [hc]
        rw [ih _ (responseCount + 1) _ (by omega)]
        simp only [List.mem_append, List.mem_singleton, hEnd, not_false_eq_true, and_true]
        tauto

/-- The bridges called after a call of `readRoutingTable`: those called before, and the
endpoint the call has queried. -/
theorem readRoutingTable_calledBridges (L : Libmctp) (busOwnerEid : Nat)
    (net : Nat → Option (List Nat)) (rt : List routingTableEntry_t)
    (calledBridges : List calledBridgeEntry_t) (requests eid physAddr : Nat) (entryIndex : Int)
    (x : calledBridgeEntry_t) :
    x ∈ (readRoutingTable L busOwnerEid net rt calledBridges requests eid physAddr
        entryIndex).calledBridges ↔ x ∈ calledBridges ∨ x = (eid, physAddr) := by
  unfold readRoutingTable
  rw [readRoutingTableLoop_calledBridges L busOwnerEid eid physAddr net x 255 0x00 0 _
    (by norm_num)]
  simp

/-- A call of `readRoutingTable` keeps the entries of the table in range and does not
shrink the table. -/
theorem readRoutingTable_inv (L : Libmctp) (busOwnerEid : Nat)
    (net : Nat → Option (List Nat)) (rt : List routingTableEntry_t)
    (calledBridges : List calledBridgeEntry_t) (requests eid physAddr : Nat) (entryIndex : Int) :
    ((eid = busOwnerEid ∨ physAddr < 65536) → TableInRange rt →
      TableInRange (readRoutingTable L busOwnerEid net rt calledBridges requests eid physAddr
        entryIndex).rt) ∧
    rt.length ≤ (readRoutingTable L busOwnerEid net rt calledBridges requests eid physAddr
      entryIndex).rt.length := by
  rw [readRoutingTable_responses]
  obtain ⟨a1, -, a3⟩ := readRoutingTableResponses_inv L busOwnerEid eid physAddr
    (responsesRead L net requests) rt (entryIndex + 1).toNat
  exact ⟨a1, a3⟩

/-! ## Termination of the bridge loop -/

theorem isBridgeCalled_iff (routingEntry : routingTableEntry_t)
    (calledBridges : List calledBridgeEntry_t) :
    isBridgeCalled routingEntry calledBridges = true ↔
      (routingEntry.1, routingEntry.2.1) ∈ calledBridges := by
  unfold isBridgeCalled
  rw [List.any_eq_true]
  constructor
  · rintro ⟨bridge, hb, h⟩
    simp only [Bool.and_eq_true, beq_iff_eq] at h
    have : bridge = (routingEntry.1, routingEntry.2.1) := Prod.ext h.1.symm h.2.symm
    rw [← this]; exact hb
  · intro h
    exact ⟨_, h, by simp⟩

theorem allBridgesCalled_iff (L : Libmctp) (calledBridges : List calledBridgeEntry_t) :
    ∀ rt : List routingTableEntry_t,
      allBridgesCalled L rt calledBridges = true ↔
        ∀ e ∈ rt, isEntryBridge L e = true → isBridgeCalled e calledBridges = true := by
  intro rt
  induction rt with
  | nil => simp [allBridgesCalled]
  | cons entry rest ih =>
    unfold allBridgesCalled
    by_cases h : (isEntryBridge L entry && !isBridgeCalled entry calledBridges) = true
    · rw [if_pos h]
      simp only [Bool.and_eq_true, Bool.not_eq_true', ] at h
      simp only [Bool.false_eq_true, List.mem_cons, forall_eq_or_imp, false_iff, not_and]
      intro hc
      rw [hc h.1] at h
      exact absurd h.2 (by simp)
    · rw [if_neg h, ih]
      simp only [Bool.and_eq_true, Bool.not_eq_true', not_and, Bool.not_eq_false] at h
      simp only [List.mem_cons, forall_eq_or_imp]
      exact ⟨fun hr => ⟨h, hr⟩, fun hr => hr.2⟩

/-- The loop of `processBridgeEntries` over the entries that remain: the table stays in
range and does not shrink, the bridges called before stay called, every bridge among the
entries is called afterwards, and whatever is called afterwards was called before or is
a bridge among the entries. -/
theorem processBridgeEntriesLoop_inv (L : Libmctp) (busOwnerEid : Nat)
    (net : Nat → Option (List Nat)) :
    ∀ (rest : List routingTableEntry_t) (entryIndex : Nat) (s : WalkState),
      TableInRange rest →
      (TableInRange s.rt →
        TableInRange (processBridgeEntriesLoop L busOwnerEid net rest entryIndex s).rt) ∧
      s.rt.length ≤ (processBridgeEntriesLoop L busOwnerEid net rest entryIndex s).rt.length ∧
      (∀ x, x ∈ s.calledBridges →
        x ∈ (processBridgeEntriesLoop L busOwnerEid net rest entryIndex s).calledBridges) ∧
      (∀ e ∈ rest, isEntryBridge L e = true →
        isBridgeCalled e
          (processBridgeEntriesLoop L busOwnerEid net rest entryIndex s).calledBridges = true) := by
  intro rest
  induction rest with
  | nil =>
    intro entryIndex s _
    exact ⟨fun h => h, le_refl _, fun _ h => h, fun e he => absurd he (List.not_mem_nil _)⟩
  | cons entry rest ih =>
    intro entryIndex s hrest
    have hrest' : TableInRange rest := fun e he => hrest e (List.mem_cons_of_mem _ he)
    unfold processBridgeEntriesLoop
    by_cases h : (!isEntryBridge L entry || isBridgeCalled entry s.calledBridges) = true
    · rw [if_pos h]
      obtain ⟨i1, i2, i3, i4⟩ := ih (entryIndex + 1) s hrest'
      refine ⟨i1, i2, i3, ?_⟩
      intro e he hb
      rcases List.mem_cons.mp he with he | he
      · subst he
        simp only [Bool.or_eq_true, Bool.not_eq_true', hb, Bool.true_eq_false, false_or] at h
        rw [isBridgeCalled_iff] at h ⊢
        exact i3 _ h
      · exact i4 e he hb
    · rw [if_neg h]
      simp only
      obtain ⟨r1, r2⟩ := readRoutingTable_inv L busOwnerEid net s.rt s.calledBridges s.requests
        entry.1 entry.2.1 (entryIndex : Int)
      have hc := readRoutingTable_calledBridges L busOwnerEid net s.rt s.calledBridges
        s.requests entry.1 entry.2.1 (entryIndex : Int)
      obtain ⟨i1, i2, i3, i4⟩ := ih (entryIndex + 1)
        { rt := (readRoutingTable L busOwnerEid net s.rt s.calledBridges s.requests
            entry.1 entry.2.1 (entryIndex : Int)).rt,
          calledBridges := (readRoutingTable L busOwnerEid net s.rt s.calledBridges s.requests
            entry.1 entry.2.1 (entryIndex : Int)).calledBridges,
          requests := (readRoutingTable L busOwnerEid net s.rt s.calledBridges s.requests
            entry.1 entry.2.1 (entryIndex : Int)).requests } hrest'
      refine ⟨?_, le_trans r2 i2, ?_, ?_⟩
      · intro hin
        exact i1 (r1 (Or.inr (hrest entry (List.mem_cons_self _ _)).2) hin)
      · intro x hx
        exact i3 x ((hc x).2 (Or.inl hx))
      · intro e he hb
        rcases List.mem_cons.mp he with he | he
        · subst he
          rw [isBridgeCalled_iff]
          exact i3 _ ((hc _).2 (Or.inr rfl))
        · exact i4 e he hb

/-- A pass of `processBridgeEntries` on a table in range. -/
theorem processBridgeEntries_inv (L : Libmctp) (busOwnerEid : Nat)
    (net : Nat → Option (List Nat)) (s : WalkState) (h : TableInRange s.rt) :
    TableInRange (processBridgeEntries L busOwnerEid net s).rt ∧
    (∀ x, x ∈ s.calledBridges → x ∈ (processBridgeEntries L busOwnerEid net s).calledBridges) ∧
    (∀ e ∈ s.rt, isEntryBridge L e = true →
      isBridgeCalled e (processBridgeEntries L busOwnerEid net s).calledBridges = true) := by
  obtain ⟨i1, -, i3, i4⟩ := processBridgeEntriesLoop_inv L busOwnerEid net s.rt 0 s h
  exact ⟨i1 h, i3, i4⟩

theorem card_sdiff_lt_of_called (U : Finset (Nat × Nat)) (before after : List (Nat × Nat))
    (x : Nat × Nat) (hxU : x ∈ U) (hxb : x ∉ before) (hxa : x ∈ after)
    (hsub : ∀ y ∈ before, y ∈ after) :
    (U \ after.toFinset).card < (U \ before.toFinset).card := by
  apply Finset.card_lt_card
  have hs : U \ after.toFinset ⊆ U \ before.toFinset := by
    intro y hy
    obtain ⟨hy1, hy2⟩ := Finset.mem_sdiff.mp hy
    exact Finset.mem_sdiff.mpr ⟨hy1, fun hc =>
      hy2 (List.mem_toFinset.mpr (hsub y (List.mem_toFinset.mp hc)))⟩
  rw [Finset.ssubset_iff_of_subset hs]
  exact ⟨x, Finset.mem_sdiff.mpr ⟨hxU, fun hc => hxb (List.mem_toFinset.mp hc)⟩,
    fun hmem => (Finset.mem_sdiff.mp hmem).2 (List.mem_toFinset.mpr hxa)⟩

/-- A pass of `processBridgeEntries` that the bridge loop runs calls a pair that was not
called before: fewer pairs remain uncalled. -/
theorem uncalledPairs_processBridgeEntries (L : Libmctp) (busOwnerEid : Nat)
    (net : Nat → Option (List Nat)) (pairs : Finset (Nat × Nat))
    (hpairs : ∀ x : Nat × Nat, x.1 < 256 → x.2 < 65536 → x ∈ pairs)
    (s : WalkState) (h : TableInRange s.rt)
    (hnot : allBridgesCalled L s.rt s.calledBridges = false) :
    (uncalledPairs pairs (processBridgeEntries L busOwnerEid net s).calledBridges).card <
      (uncalledPairs pairs s.calledBridges).card := by
  obtain ⟨-, i2, i3⟩ := processBridgeEntries_inv L busOwnerEid net s h
  have hex : ∃ e ∈ s.rt, isEntryBridge L e = true ∧ isBridgeCalled e s.calledBridges ≠ true := by
    by_contra hcon
    have : allBridgesCalled L s.rt s.calledBridges = true := by
      rw [allBridgesCalled_iff]
      intro e he hb
      by_contra hc
      exact hcon ⟨e, he, hb, hc⟩
    rw [this] at hnot
    exact absurd hnot (by simp)
  obtain ⟨e, he, hb, hnc⟩ := hex
  exact card_sdiff_lt_of_called pairs _ _ (e.1, e.2.1) (hpairs _ (h e he).1 (h e he).2)
    (fun hc => hnc ((isBridgeCalled_iff _ _).2 hc))
    ((isBridgeCalled_iff _ _).1 (i3 e he hb)) i2

/-- The bridge loop ends: with as many passes as pairs remain uncalled it returns. -/
theorem processBridgesWhile_some (L : Libmctp) (busOwnerEid : Nat)
    (net : Nat → Option (List Nat)) (pairs : Finset (Nat × Nat))
    (hpairs : ∀ x : Nat × Nat, x.1 < 256 → x.2 < 65536 → x ∈ pairs) :
    ∀ (fuel : Nat) (s : WalkState), TableInRange s.rt →
      (uncalledPairs pairs s.calledBridges).card ≤ fuel →
      ∃ w, processBridgesWhile L busOwnerEid net fuel s = some w := by
  intro fuel
  induction fuel with
  | zero =>
    intro s h hfuel
    by_cases hall : allBridgesCalled L s.rt s.calledBridges = true
    · exact ⟨s, by simp [processBridgesWhile, hall]⟩
    · have hnot : allBridgesCalled L s.rt s.calledBridges = false := by simpa using hall
      have := uncalledPairs_processBridgeEntries L busOwnerEid net pairs hpairs s h hnot
      omega
  | succ fuel ih =>
    intro s h hfuel
    by_cases hall : allBridgesCalled L s.rt s.calledBridges = true
    · exact ⟨s, by simp [processBridgesWhile, hall]⟩
    · have hnot : allBridgesCalled L s.rt s.calledBridges = false := by simpa using hall
      have hlt := uncalledPairs_processBridgeEntries L busOwnerEid net pairs hpairs s h hnot
      obtain ⟨w, hw⟩ := ih (processBridgeEntries L busOwnerEid net s)
        (processBridgeEntries_inv L busOwnerEid net s h).1 (by omega)
      exact ⟨w, by simp [processBridgesWhile, hnot, hw]⟩

/-- The bridge loop ends within `2 ^ 24` passes. -/
theorem processBridgesWhile_terminates (L : Libmctp) (busOwnerEid : Nat)
    (net : Nat → Option (List Nat)) (s : WalkState) (h : TableInRange s.rt) :
    ∃ w, processBridgesWhile L busOwnerEid net 16777216 s = some w := by
  apply processBridgesWhile_some L busOwnerEid net (Finset.range 256 ×ˢ Finset.range 65536)
    ?_ 16777216 s h ?_
  · intro x h1 h2
    rw [Finset.mem_product, Finset.mem_range, Finset.mem_range]
    exact ⟨h1, h2⟩
  · have hc : (Finset.range 256 ×ˢ Finset.range 65536).card = 16777216 := by
      rw [Finset.card_product, Finset.card_range, Finset.card_range]
    unfold uncalledPairs
    rw [← hc]
    exact Finset.card_le_card Finset.sdiff_subset

/-- On exit of the bridge loop every bridge of the table has been called. -/
theorem processBridgesWhile_allBridgesCalled (L : Libmctp) (busOwnerEid : Nat)
    (net : Nat → Option (List Nat)) :
    ∀ (fuel : Nat) (s w : WalkState), processBridgesWhile L busOwnerEid net fuel s = some w →
      allBridgesCalled L w.rt w.calledBridges = true := by
  intro fuel
  induction fuel with
  | zero =>
    intro s w hw
    unfold processBridgesWhile at hw
    split_ifs at hw with hall
    simp only [Option.some.injEq] at hw
    rw [← hw]; exact hall
  | succ fuel ih =>
    intro s w hw
    unfold processBridgesWhile at hw
    split_ifs at hw with hall
    · simp only [Option.some.injEq] at hw
      rw [← hw]; exact hall
    · exact ih _ w hw

/-- More passes than the bridge loop needs do not change what it returns. -/
theorem processBridgesWhile_mono (L : Libmctp) (busOwnerEid : Nat)
    (net : Nat → Option (List Nat)) :
    ∀ (fuel : Nat) (s w : WalkState), processBridgesWhile L busOwnerEid net fuel s = some w →
      ∀ extra, processBridgesWhile L busOwnerEid net (fuel + extra) s = some w := by
  intro fuel
  induction fuel with
  | zero =>
    intro s w hw extra
    unfold processBridgesWhile at hw
    split_ifs at hw with hall
    cases extra with
    | zero => simp [processBridgesWhile, hall, hw]
    | succ extra => simpa [processBridgesWhile, hall] using hw
  | succ fuel ih =>
    intro s w hw extra
    unfold processBridgesWhile at hw
    have he : fuel + 1 + extra = (fuel + extra) + 1 := by omega
    rw [he]
    split_ifs at hw with hall
    · simpa [processBridgesWhile, hall] using hw
    · simp only [processBridgesWhile, hall, Bool.false_eq_true, if_false]
      exact ih _ w hw extra

/-! ## Insertion positions and the bridge loop -/

theorem insertionsOfEntries_bounds (L : Libmctp) (busOwnerEid eid physAddr : Nat)
    (resp : List Nat) :
    ∀ (n : Nat) (s : EntryLoopState), s.insertIndex ≤ s.rt.length →
      ∀ p ∈ insertionsOfEntries L busOwnerEid eid physAddr resp n s, p.1 ≤ p.2 := by
  intro n
  induction n with
  | zero => intro s _ p hp; simp [insertionsOfEntries] at hp
  | succ n ih =>
    intro s hs p hp
    simp only [insertionsOfEntries, List.mem_append] at hp
    rcases hp with hp | hp
    · split_ifs at hp with hsame
      · simp at hp
      · rw [List.mem_singleton.mp hp]
        exact hs
    · exact ih _ ((readRoutingTableEntry_inv L busOwnerEid eid physAddr resp s).2.1 hs) p hp

theorem insertionsOfResponses_bounds (L : Libmctp) (busOwnerEid eid physAddr : Nat) :
    ∀ (resps : List (List Nat)) (rt : List routingTableEntry_t) (insertIndex : Nat),
      insertIndex ≤ rt.length →
      ∀ p ∈ insertionsOfResponses L busOwnerEid eid physAddr resps rt insertIndex, p.1 ≤ p.2 := by
  intro resps
  induction resps with
  | nil => intro rt insertIndex _ p hp; simp [insertionsOfResponses] at hp
  | cons resp rest ih =>
    intro rt insertIndex hs p hp
    simp only [insertionsOfResponses, List.mem_append] at hp
    rcases hp with hp | hp
    · exact insertionsOfEntries_bounds L busOwnerEid eid physAddr resp _ _ hs p hp
    · refine ih _ _ ?_ p hp
      exact (readRoutingTableEntries_inv L busOwnerEid eid physAddr resp
        (byteAt resp L.offsetof_number_of_entries)
        { rt := rt, insertIndex := insertIndex,
          entryOffset := L.sizeof_resp_get_routing_table }).2.1 hs

theorem insertionsOfPassLoop_bounds (L : Libmctp) (busOwnerEid : Nat)
    (net : Nat → Option (List Nat)) :
    ∀ (rest : List routingTableEntry_t) (entryIndex : Nat) (s : WalkState),
      entryIndex + rest.length ≤ s.rt.length →
      ∀ p ∈ insertionsOfPassLoop L busOwnerEid net rest entryIndex s, p.1 ≤ p.2 := by
  intro rest
  induction rest with
  | nil => intro entryIndex s _ p hp; simp [insertionsOfPassLoop] at hp
  | cons entry rest ih =>
    intro entryIndex s hs p hp
    simp only [List.length_cons] at hs
    unfold insertionsOfPassLoop at hp
    split_ifs at hp with h
    · exact ih (entryIndex + 1) s (by omega) p hp
    · simp only [List.mem_append] at hp
      rcases hp with hp | hp
      · refine insertionsOfResponses_bounds L busOwnerEid entry.1 entry.2.1 _ s.rt _ ?_ p hp
        have : ((entryIndex : Int) + 1).toNat = entryIndex + 1 := by omega
        rw [this]; omega
      · refine ih (entryIndex + 1) _ ?_ p hp
        have := (readRoutingTable_inv L busOwnerEid net s.rt s.calledBridges s.requests
          entry.1 entry.2.1 (entryIndex : Int)).2
        simp only
        omega

theorem insertionsOfWhile_bounds (L : Libmctp) (busOwnerEid : Nat)
    (net : Nat → Option (List Nat)) :
    ∀ (fuel : Nat) (s : WalkState),
      ∀ p ∈ insertionsOfWhile L busOwnerEid net fuel s, p.1 ≤ p.2 := by
  intro fuel
  induction fuel with
  | zero => intro s p hp; simp [insertionsOfWhile] at hp
  | succ fuel ih =>
    intro s p hp
    unfold insertionsOfWhile at hp
    split_ifs at hp with hall
    · simp at hp
    · rcases List.mem_append.mp hp with hp | hp
      · exact insertionsOfPassLoop_bounds L busOwnerEid net s.rt 0 s (by omega) p hp
      · exact ih _ p hp

/-- The loop of `processBridgeEntries` over the entries that remain keeps the bridges
called before and calls every bridge among the entries. -/
theorem processBridgeEntriesLoop_called (L : Libmctp) (busOwnerEid : Nat)
    (net : Nat → Option (List Nat)) :
    ∀ (rest : List routingTableEntry_t) (entryIndex : Nat) (s : WalkState),
      (∀ x, x ∈ s.calledBridges →
        x ∈ (processBridgeEntriesLoop L busOwnerEid net rest entryIndex s).calledBridges) ∧
      (∀ e ∈ rest, isEntryBridge L e = true →
        isBridgeCalled e
          (processBridgeEntriesLoop L busOwnerEid net rest entryIndex s).calledBridges = true) := by
  intro rest
  induction rest with
  | nil =>
    intro entryIndex s
    exact ⟨fun _ h => h, fun e he => absurd he (List.not_mem_nil _)⟩
  | cons entry rest ih =>
    intro entryIndex s
    unfold processBridgeEntriesLoop
    by_cases h : (!isEntryBridge L entry || isBridgeCalled entry s.calledBridges) = true
    · rw [if_pos h]
      obtain ⟨i3, i4⟩ := ih (entryIndex + 1) s
      refine ⟨i3, ?_⟩
      intro e he hb
      rcases List.mem_cons.mp he with he | he
      · subst he
        simp only [Bool.or_eq_true, Bool.not_eq_true', hb, Bool.true_eq_false, false_or] at h
        rw [isBridgeCalled_iff] at h ⊢
        exact i3 _ h
      · exact i4 e he hb
    · rw [if_neg h]
      simp only
      have hc := readRoutingTable_calledBridges L busOwnerEid net s.rt s.calledBridges
        s.requests entry.1 entry.2.1 (entryIndex : Int)
      obtain ⟨i3, i4⟩ := ih (entryIndex + 1)
        { rt := (readRoutingTable L busOwnerEid net s.rt s.calledBridges s.requests
            entry.1 entry.2.1 (entryIndex : Int)).rt,
          calledBridges := (readRoutingTable L busOwnerEid net s.rt s.calledBridges s.requests
            entry.1 entry.2.1 (entryIndex : Int)).calledBridges,
          requests := (readRoutingTable L busOwnerEid net s.rt s.calledBridges s.requests
            entry.1 entry.2.1 (entryIndex : Int)).requests }
      refine ⟨?_, ?_⟩
      · intro x hx
        exact i3 x ((hc x).2 (Or.inl hx))
      · intro e he hb
        rcases List.mem_cons.mp he with he | he
        · subst he
          rw [isBridgeCalled_iff]
          exact i3 _ ((hc _).2 (Or.inr rfl))
        · exact i4 e he hb

/-- C30. The bridge loop of the PCIe routing refresh ends, whatever the bus owner and the
bridges answer: the walk returns after at most `2 ^ 24` passes of `processBridgeEntries`,
and so does `updateRoutingTable`; more passes allowed change nothing. Every pass leaves
each bridge of the table it started from among the called bridges; on exit every bridge
of the final table is among the called bridges; and every position at which
`readRoutingTable` inserts during the walk is at most the size the table has at that
moment. -/
theorem bridgeLoop_terminates (L : Libmctp) (b : PCIeBinding) (net : Nat → Option (List Nat)) :
    (∃ w, walkRoutingTable L b net 16777216 = some w) ∧
    (∃ r, updateRoutingTable L b net 16777216 = some r) ∧
    (∀ fuel w, walkRoutingTable L b net fuel = some w →
      ∀ extra, walkRoutingTable L b net (fuel + extra) = some w) ∧
    (∀ s : WalkState, ∀ e ∈ s.rt, isEntryBridge L e = true →
      isBridgeCalled e (processBridgeEntries L b.busOwnerEid net s).calledBridges = true) ∧
    (∀ fuel w, walkRoutingTable L b net fuel = some w →
      ∀ e ∈ w.rt, isEntryBridge L e = true → isBridgeCalled e w.calledBridges = true) ∧
    (∀ fuel, ∀ p ∈ insertionsOfWalk L b net fuel, p.1 ≤ p.2) := by
  have hinit : TableInRange
      (readRoutingTable L b.busOwnerEid net [] [] 0 b.busOwnerEid b.busOwnerBdf (-1)).rt :=
    (readRoutingTable_inv L b.busOwnerEid net [] [] 0 b.busOwnerEid b.busOwnerBdf (-1)).1
      (Or.inl rfl) (fun e he => absurd he (List.not_mem_nil _))
  have hwalk : ∃ w, walkRoutingTable L b net 16777216 = some w :=
    processBridgesWhile_terminates L b.busOwnerEid net _ hinit
  refine ⟨hwalk, ?_, ?_, ?_, ?_, ?_⟩
  · obtain ⟨w, hw⟩ := hwalk
    unfold updateRoutingTable
    split_ifs
    · exact ⟨_, rfl⟩
    · rw [hw]; exact ⟨_, rfl⟩
  · intro fuel w hw extra
    exact processBridgesWhile_mono L b.busOwnerEid net fuel _ w hw extra
  · intro s e he hb
    exact (processBridgeEntriesLoop_called L b.busOwnerEid net s.rt 0 s).2 e he hb
  · intro fuel w hw e he hb
    have := processBridgesWhile_allBridgesCalled L b.busOwnerEid net fuel _ w hw
    rw [allBridgesCalled_iff] at this
    exact this e he hb
  · intro fuel p hp
    unfold insertionsOfWalk at hp
    rcases List.mem_append.mp hp with hp | hp
    · exact insertionsOfResponses_bounds L b.busOwnerEid b.busOwnerEid b.busOwnerBdf _ [] _
        (by simp) p hp
    · exact insertionsOfWhile_bounds L b.busOwnerEid net fuel _ p hp

/-- The insertions of the walk in the example with two bridges: the endpoints of the
bridge `0x20` are inserted at the positions 1 and 2 of a table of 2 and 3 entries, the
endpoint of the bridge `0x30` at the position 2 of a table of 4 entries. -/
theorem insertionsOfWalk_twoBridges :
    insertionsOfWalk libmctp exampleBinding twoBridgesNet 1 = [(1, 2), (2, 3), (2, 4)] := by
  have hb1 : (!isEntryBridge libmctp (0x20, 0xB000, 0x80) ||
      isBridgeCalled (0x20, 0xB000, 0x80) [(0x08, 0xBEEF)]) = false := by decide
  have hb2 : (!isEntryBridge libmctp (0x30, 0xC000, 0x80) ||
      isBridgeCalled (0x30, 0xC000, 0x80) [(0x08, 0xBEEF), (0x20, 0xB000)]) = false := by
    decide
  have ha0 : allBridgesCalled libmctp [(0x20, 0xB000, 0x80), (0x30, 0xC000, 0x80)]
      [(0x08, 0xBEEF)] = false := by decide
  have hr0 := responsesRead_one_response libmctp twoBridgesNet 0 _ rfl (by decide)
  have hr1 := responsesRead_one_response libmctp twoBridgesNet 1 _ rfl (by decide)
  have hr2 := responsesRead_one_response libmctp twoBridgesNet 2 _ rfl (by decide)
  unfold insertionsOfWalk
  rw [twoBridges_busOwner_read]
  simp only [insertionsOfWhile, ha0, insertionsOfPassLoop, hb1, hb2, twoBridges_first_read,
    twoBridges_second_read, insertionsOfRead, hr0, hr1, hr2, Bool.false_eq_true, if_false]
  decide

end Mctpd
